import Mathlib

/-!
# template-go: consumer loop, exit code and shutdown ordering

A shallow embedding of the message-queue consumption/commit engine
(`cmd/subscriber/kafka`, `internal/pkg/kafka`), of the item service it drives
(`internal/api`, `internal/item`) and of the process exit / shutdown code
(`cmd/main.go`, `cmd/shutdown.go`).

Everything outside the code base (the broker client `kgo`, the tracer, the
database driver, the clock, `encoding/json`) is a parameter: a function on an
arbitrary type `ω` of external states.  The code's own effects are threaded
through a `World ω`, which also keeps a trace of the calls made so far.
-/

namespace TemplateGo

/-! ## Go values -/

/-- Go `error` values.  `sentinel` is a package-level error variable (compared by
identity, here by its text), `wrap` is `errors.Wrap`/`Wrapf`/`%w`, `errorf` is a
freshly formatted error with no cause. -/
inductive Error where
  | sentinel (msg : String)
  | wrap (cause : Error) (msg : String)
  | errorf (msg : String)
deriving DecidableEq, Repr

/-- The `Error()` text of an error. -/
def Error.text : Error → String
  | .sentinel msg => msg
  | .wrap cause msg => msg ++ ": " ++ cause.text
  | .errorf msg => msg

/-- Walks the `Unwrap` chain of an error looking for `target`. -/
def Error.chainHas : Error → Error → Bool
  | .sentinel msg, target => decide (Error.sentinel msg = target)
  | .wrap cause msg, target => decide (Error.wrap cause msg = target) || cause.chainHas target
  | .errorf msg, target => decide (Error.errorf msg = target)

/-- Go `errors.Is(err, target)` for a non-nil `target`; `err` may be nil. -/
def errorsIs (err : Option Error) (target : Error) : Bool :=
  match err with
  | none => false
  | some e => e.chainHas target

/-- What a Go call does: it returns a value, or it panics with a value. -/
inductive Outcome (α : Type) where
  | ret (a : α)
  | panic (v : String)
deriving DecidableEq, Repr

/-- Whether the call panicked. -/
def Outcome.panicked {α : Type} : Outcome α → Bool
  | .ret _ => false
  | .panic _ => true

/-- Go `context.Context`: its deadline (if any) and `ctx.Err()`. -/
structure Context where
  deadline : Option Nat
  err : Option Error
deriving DecidableEq, Repr

/-- Go `context.Background()`. -/
def Context.Background : Context := ⟨none, none⟩

/-- Go `context.WithDeadline(parent, d)`: the earlier of the two deadlines. -/
def Context.WithDeadline (parent : Context) (d : Nat) : Context :=
  match parent.deadline with
  | some p => { parent with deadline := some (min p d) }
  | none => { parent with deadline := some d }

/-- Go `context.WithTimeout(parent, timeout)` at time `now`. -/
def Context.WithTimeout (parent : Context) (now timeout : Nat) : Context :=
  parent.WithDeadline (now + timeout)

abbrev Payload := String

/-- Go `time.Second`, in nanoseconds. -/
def Second : Nat := 1000000000

/-- The fields of `kgo.Record` the code reads. -/
structure Record where
  topic : String
  partition : Int
  offset : Int
  value : Payload
deriving DecidableEq, Repr

/-- Go `kgo.FetchError`. -/
structure FetchError where
  topic : String
  partition : Int
  err : Error
deriving DecidableEq, Repr

/-- Go `kgo.Fetches` as the code sees it: `Errors()` and the records of
`RecordIter()` in iteration order. -/
structure Fetches where
  errors : List FetchError
  records : List Record
deriving DecidableEq, Repr

/-- Go `item.Item`. -/
structure Item where
  ID : Int
  Name : String
deriving DecidableEq, Repr

/-- Calls to collaborators and log lines, in program order. -/
inductive Event where
  | polled (ctx : Context)
  | handlerCall (ctx : Context) (payload : Payload)
  | telemetry (topic : String)
  | commitRequest (ctx : Context) (records : List Record)
  | logged (err : Error)
  | info (msg : String)
  | goPublish (item : Option Item)
deriving DecidableEq, Repr

/-- The state the code runs in: the external state and the trace so far (oldest first). -/
structure World (ω : Type) where
  ext : ω
  trace : List Event

/-- Appends one event to the trace. -/
def World.emit {ω : Type} (w : World ω) (e : Event) : World ω :=
  { w with trace := w.trace ++ [e] }

/-- Go runtime and standard-library services the code calls. -/
structure Runtime (ω : Type) where
  now : ω → Nat
  randInt : ω → Nat × ω
  unmarshal : Payload → Except Error Item

/-! ## Go standard library: `strings.Split` and `strconv.Atoi` -/

namespace gostd

/-- Go `strings.Split(s, sep)` on the characters of `s`, for a separator of one
character. -/
def splitChars (sep : Char) : List Char → List (List Char)
  | [] => [[]]
  | c :: cs =>
    if c = sep then [] :: splitChars sep cs
    else
      match splitChars sep cs with
      | [] => [[c]]
      | p :: ps => (c :: p) :: ps

/-- Go `strings.Split(s, sep)` for a separator of one character. -/
def Split (s : String) (sep : Char) : List String :=
  (splitChars sep s.data).map String.mk

/-- Go `strconv.ErrSyntax`. -/
def ErrSyntax : Error := .sentinel "invalid syntax"

/-- Go `strconv.ErrRange`. -/
def ErrRange : Error := .sentinel "value out of range"

/-- The value of a decimal digit. -/
def digitVal (c : Char) : Option Nat :=
  if '0' ≤ c ∧ c ≤ '9' then some (c.toNat - '0'.toNat) else none

/-- Reads decimal digits onto `acc`; `none` at a character that is not a digit. -/
def parseDigits : List Char → Nat → Option Nat
  | [], acc => some acc
  | c :: cs, acc =>
    match digitVal c with
    | some d => parseDigits cs (10 * acc + d)
    | none => none

/-- The optional sign in front of a number: whether it is negative, and the rest. -/
def splitSign : List Char → Bool × List Char
  | '-' :: ds => (true, ds)
  | '+' :: ds => (false, ds)
  | ds => (false, ds)

/-- Go `strconv.Atoi(s)` with a 64-bit `int`: an optional sign, then one or more decimal
digits, in range. -/
def Atoi (s : String) : Except Error Int :=
  let signed := splitSign s.data
  if signed.2 = [] then .error (.wrap ErrSyntax ("strconv.Atoi: parsing \"" ++ s ++ "\""))
  else
    match parseDigits signed.2 0 with
    | none => .error (.wrap ErrSyntax ("strconv.Atoi: parsing \"" ++ s ++ "\""))
    | some n =>
      if signed.1 then
        if n ≤ 2 ^ 63 then .ok (-(n : Int))
        else .error (.wrap ErrRange ("strconv.Atoi: parsing \"" ++ s ++ "\""))
      else
        if n < 2 ^ 63 then .ok (n : Int)
        else .error (.wrap ErrRange ("strconv.Atoi: parsing \"" ++ s ++ "\""))

end gostd

/-! ## `internal/pkg/kafka` -/

namespace kafka

/-- The `*kgo.Client` methods the code calls. -/
structure KgoClient (ω : Type) where
  PollFetches : Context → ω → Fetches × ω
  CommitRecords : Context → List Record → ω → Option Error × ω

/-- Go `kafka.Kafka` (`internal/pkg/kafka`): the client, the tracer's
`WithProcessSpan` and the commit timeout. -/
structure Kafka (ω : Type) where
  rt : Runtime ω
  client : KgoClient ω
  WithProcessSpan : Record → Context
  commitTimeout : Nat

/-- Go `type kafkaHandler func(ctx context.Context, payload []byte) error`. -/
abbrev kafkaHandler (ω : Type) := Context → Payload → World ω → Outcome (Option Error) × World ω

variable {ω : Type}

/-- Go `(*Kafka).PollFetches`. -/
def Kafka.PollFetches (kfk : Kafka ω) (ctx : Context) (w : World ω) : Fetches × World ω :=
  let w := w.emit (.polled ctx)
  let r := kfk.client.PollFetches ctx w.ext
  (r.1, { w with ext := r.2 })

/-- Go `(*Kafka).CommitRecords`. -/
def Kafka.CommitRecords (kfk : Kafka ω) (ctx : Context) (records : List Record)
    (w : World ω) : Option Error × World ω :=
  if records.length = 0 then
    (none, w)
  else
    let ctx := ctx.WithTimeout (kfk.rt.now w.ext) kfk.commitTimeout
    let w := w.emit (.commitRequest ctx records)
    let r := kfk.client.CommitRecords ctx records w.ext
    let w := { w with ext := r.2 }
    match r.1 with
    | some err => (some (.wrap err "kafka commit failed"), w)
    | none => (none, w)

/-- The context `HandleTopic` hands to the handler. -/
def Kafka.childCtx (kfk : Kafka ω) (ctx : Context) (record : Record) : Context :=
  let childCtx := kfk.WithProcessSpan record
  match ctx.deadline with
  | some deadLine => childCtx.WithDeadline deadLine
  | none => childCtx

/-- Go `(*Kafka).HandleTopic`.  The slice behind `commitRecords` is passed in and
returned; the deferred telemetry runs on every path, and a panic of `fn` is not
recovered. -/
def Kafka.HandleTopic (kfk : Kafka ω) (ctx : Context) (commitRecords : List Record)
    (record : Record) (fn : kafkaHandler ω) (w : World ω) :
    Outcome (List Record) × World ω :=
  let childCtx := kfk.childCtx ctx record
  let w := w.emit (.handlerCall childCtx record.value)
  match fn childCtx record.value w with
  | (.panic v, w) => (.panic v, w.emit (.telemetry record.topic))
  | (.ret (some err), w) => (.ret commitRecords, (w.emit (.logged err)).emit (.telemetry record.topic))
  | (.ret none, w) => (.ret (commitRecords ++ [record]), w.emit (.telemetry record.topic))

/-- Go `kafka.Config`.  Durations are in nanoseconds. -/
structure Config where
  LogLevel : Int
  Seeds : List String
  Topics : List String
  ConsumerGroup : String
  IdleTimeout : Int
  RequestTimeoutOverhead : Int
  RetryTimeout : Int
  TxnTimeout : Int
  RecordTimeout : Int
  SessionTimeout : Int
  CommitTimeout : Int
  AuthMechanism : String
  SASLUsername : String
  SASLPassword : String
  CACertificate : String
  FetchMaxBytes : Int
  EnableAutoCommit : Bool
  EnableTLSDialer : Bool
deriving DecidableEq, Repr

/-- Go `*tls.Dialer` as `kgoDialer` builds it: the timeout of its `NetDialer`, and the
root certificates of its `Config` when one is set. -/
structure TlsDialer where
  timeout : Int
  rootCAs : Option Payload
deriving DecidableEq, Repr

/-- The `kgo.Opt` values the package builds. -/
inductive Opt where
  | SeedBrokers (seeds : List String)
  | ConsumeTopics (topics : List String)
  | ConnIdleTimeout (d : Int)
  | RetryTimeout (d : Int)
  | RequestTimeoutOverhead (d : Int)
  | TransactionTimeout (d : Int)
  | RecordDeliveryTimeout (d : Int)
  | SessionTimeout (d : Int)
  | ConsumerGroup (group : String)
  | WithLogger (level : Int)
  | DisableAutoCommit
  | FetchMaxBytes (b : Int)
  | BrokerMaxReadBytes (b : Int)
  | SASL (user pass : String)
  | Dialer (d : TlsDialer)
  | WithHooks
deriving DecidableEq, Repr

/-- The standard-library calls of `kgoOptsFromCfg` and `kgoDialer`:
`strings.EqualFold`, `base64.StdEncoding.DecodeString` and
`(*x509.CertPool).AppendCertsFromPEM` on a new pool. -/
structure StdLib where
  EqualFold : String → String → Bool
  DecodeString : String → Except Error Payload
  AppendCertsFromPEM : Payload → Bool

/-- A product of `int32` values, as Go computes it: wrapped to 32 bits. -/
def wrapInt32 (x : Int) : Int := (x + 2 ^ 31) % 2 ^ 32 - 2 ^ 31

/-- Go `kgoDialer`. -/
def kgoDialer (std : StdLib) (cfg : Config) : Except Error TlsDialer :=
  if cfg.CACertificate = "" then .ok ⟨cfg.RetryTimeout, none⟩
  else
    match std.DecodeString cfg.CACertificate with
    | .error err => .error (.wrap err "failed to decode base64 ca certificate")
    | .ok cACert =>
      if !std.AppendCertsFromPEM cACert then
        .error (.errorf "invalid ca certificated provided")
      else .ok ⟨cfg.RetryTimeout, some cACert⟩

/-- Go `kgoOptsFromCfg`. -/
def kgoOptsFromCfg (std : StdLib) (cfg : Config) (extra : List Opt) : Except Error (List Opt) :=
  let opts : List Opt := [.SeedBrokers cfg.Seeds,
    .ConsumeTopics cfg.Topics,
    .ConnIdleTimeout cfg.IdleTimeout,
    .RetryTimeout cfg.RetryTimeout,
    .RequestTimeoutOverhead cfg.RequestTimeoutOverhead,
    .TransactionTimeout cfg.TxnTimeout,
    .RecordDeliveryTimeout cfg.RecordTimeout,
    .SessionTimeout cfg.SessionTimeout,
    .ConsumerGroup cfg.ConsumerGroup,
    .WithLogger cfg.LogLevel]
  let opts := if !cfg.EnableAutoCommit then opts ++ [.DisableAutoCommit] else opts
  let opts :=
    if cfg.FetchMaxBytes > 0 then
      opts ++ [.FetchMaxBytes cfg.FetchMaxBytes,
        .BrokerMaxReadBytes (wrapInt32 (2 * cfg.FetchMaxBytes))]
    else opts
  let opts :=
    if std.EqualFold cfg.AuthMechanism "SASL" then
      opts ++ [.SASL cfg.SASLUsername cfg.SASLPassword]
    else opts
  if cfg.EnableTLSDialer then
    match kgoDialer std cfg with
    | .error err => .error err
    | .ok tlsDialer => .ok (opts ++ [.Dialer tlsDialer] ++ extra)
  else .ok (opts ++ extra)

end kafka

/-! ## `internal/item` and `internal/api` -/

namespace item

def ErrInvalidID : Error := .sentinel "item ID should be >= 0"

def ErrNotFound : Error := .sentinel "Item not found"

def ErrDuplicateItem : Error := .sentinel "Item with the same ID already exists"

/-- Go `(*Item).Validate`. -/
def Item.Validate (it : Item) : Option Error :=
  if it.ID ≤ 0 then some (.wrap ErrInvalidID ("'" ++ toString it.ID ++ "'")) else none

/-- Go `persistentStore` interface (the methods `Service` calls). -/
structure persistentStore (ω : Type) where
  InsertItem : Context → Item → World ω → (Option Item × Option Error) × World ω
  Item : Context → Int → World ω → (Option Item × Option Error) × World ω

/-- Go `publisher` interface. -/
structure publisher (ω : Type) where
  Publish : Context → Option Item → World ω → Option Error × World ω

/-- Go `item.Service`. -/
structure Service (ω : Type) where
  rt : Runtime ω
  persistentStore : persistentStore ω
  publisher : publisher ω

variable {ω : Type}

/-- The body of the goroutine `Create` starts (`publishTimeout` is 3 seconds). -/
def Service.publishGoroutine (svc : Service ω) (newItem : Option Item) (w : World ω) : World ω :=
  let gctx := Context.Background.WithTimeout (svc.rt.now w.ext) (3 * Second)
  match svc.publisher.Publish gctx newItem w with
  | (some perr, w) => w.emit (.logged perr)
  | (none, w) => w.emit (.info "published to kafka")

/-- Go `(*Service).Create`.  Starting the publishing goroutine is recorded in the
trace as `goPublish`; its body, `publishGoroutine`, runs concurrently. -/
def Service.Create (svc : Service ω) (ctx : Context) (item : Item) (w : World ω) :
    (Option Item × Option Error) × World ω :=
  match Item.Validate item with
  | some err => ((none, some err), w)
  | none =>
    let r := svc.rt.randInt w.ext
    let item := { item with Name := item.Name ++ "-" ++ toString r.1 }
    let w := { w with ext := r.2 }
    match svc.persistentStore.InsertItem ctx item w with
    | ((_, some err), w) => ((none, some err), w)
    | ((newItem, none), w) => ((newItem, none), w.emit (.goPublish newItem))

/-- Go `(*Service).CreateIfNotExist`. -/
def Service.CreateIfNotExist (svc : Service ω) (ctx : Context) (item : Item) (w : World ω) :
    (Option Item × Option Error) × World ω :=
  match svc.persistentStore.Item ctx item.ID w with
  | ((_, some err), w) =>
    if !errorsIs (some err) ErrNotFound then ((none, some err), w)
    else svc.Create ctx item w
  | ((_, none), w) =>
    ((none, some (.wrap ErrDuplicateItem (": " ++ toString item.ID))), w)

/-- Go `mongo.ErrNoDocuments`. -/
def ErrNoDocuments : Error := .sentinel "mongo: no documents in result"

/-- The calls `mongoItemStore` makes on its `*mongo.Collection`: `InsertOne`, and
`FindOne` by ID followed by `Decode`. -/
structure Collection (ω : Type) where
  InsertOne : Context → Item → ω → Option Error × ω
  FindOne : Context → Int → ω → Except Error Item × ω

/-- Go `mongoItemStore` with its methods `InsertItem` and `Item`. -/
def mongoItemStore (itemCollection : Collection ω) : persistentStore ω where
  InsertItem := fun ctx item w =>
    match itemCollection.InsertOne ctx item w.ext with
    | (some err, ext) =>
      ((none, some (.wrap err "could not save the item")), { w with ext := ext })
    | (none, ext) => ((some item, none), { w with ext := ext })
  Item := fun ctx id w =>
    match itemCollection.FindOne ctx id w.ext with
    | (.error err, ext) =>
      if errorsIs (some err) ErrNoDocuments then
        ((none, some ErrNotFound), { w with ext := ext })
      else ((none, some (.wrap err "failed getting item")), { w with ext := ext })
    | (.ok item, ext) => ((some item, none), { w with ext := ext })

/-- The external state of `TestInsertItem`: the map of `storeMocker`, the messages sent
on the `pipe` of `pubMocker`, and the numbers `rand.Int()` is going to return. -/
structure TestExt where
  data : Int → Option Item
  pipe : List Payload
  draws : List Nat

/-- Go `storeMocker` (item_test.go) with its methods `InsertItem` and `Item`. -/
def storeMocker : persistentStore TestExt where
  InsertItem := fun _ item w =>
    ((some item, none),
      { w with ext := { w.ext with data := Function.update w.ext.data item.ID (some item) } })
  Item := fun _ id w =>
    match w.ext.data id with
    | some item => ((some item, none), w)
    | none => ((none, some ErrNotFound), w)

/-- Go `pubMocker` (item_test.go): `marshal` is `json.Marshal` on `*Item`. -/
def pubMocker (marshal : Option Item → Except Error Payload) : publisher TestExt where
  Publish := fun _ item w =>
    match marshal item with
    | .error err => (some (.wrap err "json marshal failed"), w)
    | .ok jbytes => (none, { w with ext := { w.ext with pipe := w.ext.pipe ++ [jbytes] } })

/-- A runtime for the tests: `rand.Int()` returns the next number of `draws`. -/
def testRuntime : Runtime TestExt where
  now := fun _ => 0
  randInt := fun ext =>
    match ext.draws with
    | [] => (0, ext)
    | n :: rest => (n, { ext with draws := rest })
  unmarshal := fun _ => .error (.sentinel "unexpected end of JSON input")

/-- A stand-in for `json.Marshal` on the items of the tests. -/
def testMarshal : Option Item → Except Error Payload
  | none => .ok "null"
  | some it => .ok ("\x7b\"id\":" ++ toString it.ID ++ ",\"name\":\"" ++ it.Name ++ "\"\x7d")

/-- The service of `TestInsertItem`: `NewService(smo, pmo)`. -/
def testService : Service TestExt := ⟨testRuntime, storeMocker, pubMocker testMarshal⟩

/-- The world `TestInsertItem` starts in: an empty store, an empty pipe. -/
def testWorld (draws : List Nat) : World TestExt := ⟨⟨fun _ => none, [], draws⟩, []⟩

/-- What `TestInsertItem` does to a name before comparing: when splitting on "-" gives
two parts, the name becomes the first part. -/
def stripSuffix (it : Item) : Item :=
  match gostd.Split it.Name '-' with
  | [name, _] => { it with Name := name }
  | _ => it

/-- A store whose `InsertItem`, when it succeeds, returns the item it was given, as
`mongoItemStore` and `storeMocker` do (`return &item, nil`). -/
def returnsSaved {ω : Type} (store : persistentStore ω) : Prop :=
  ∀ (ctx : Context) (it : Item) (w : World ω) (r : Option Item) (w' : World ω),
    store.InsertItem ctx it w = ((r, none), w') → r = some it

/-- A store in which an inserted item becomes retrievable: once `InsertItem` has
succeeded, `Item` with the ID of that item reports no error, whatever the trace. -/
def retrievable {ω : Type} (store : persistentStore ω) : Prop :=
  ∀ (ctx : Context) (it : Item) (w : World ω) (r : Option Item) (w1 : World ω),
    store.InsertItem ctx it w = ((r, none), w1) →
    ∀ (ctx2 : Context) (tr : List Event), (store.Item ctx2 it.ID ⟨w1.ext, tr⟩).1.2 = none

/-- The item of `TestInsertItem`. -/
def bottle : Item := ⟨123, "Bottle"⟩

end item

namespace api

/-- Go `itemService` interface of package `api` (the method the consumer reaches). -/
structure itemService (ω : Type) where
  CreateIfNotExist : Context → Item → World ω →
    Outcome (Option Item × Option Error) × World ω

/-- Go `api.API`. -/
structure API (ω : Type) where
  itemService : itemService ω

variable {ω : Type}

/-- Go `(*API).ItemCreateIfNotExists`. -/
def API.ItemCreateIfNotExists (ap : API ω) (ctx : Context) (newItem : Item) (w : World ω) :
    Outcome (Option Item × Option Error) × World ω :=
  match ap.itemService.CreateIfNotExist ctx newItem w with
  | (.panic v, w) => (.panic v, w)
  | (.ret (_, some err), w) => (.ret (none, some err), w)
  | (.ret (createdItem, none), w) => (.ret (createdItem, none), w)

/-- Go `api.NewService` applied to an `*item.Service`. -/
def NewService (svc : item.Service ω) : API ω :=
  ⟨⟨fun ctx it w => let r := svc.CreateIfNotExist ctx it w; (.ret r.1, r.2)⟩⟩

end api

/-! ## `cmd/subscriber/kafka` -/

namespace kafkaSubs

/-- Go `kafka.Kafka` (`cmd/subscriber/kafka`), the fields that never change. -/
structure Kafka (ω : Type) where
  client : kafka.Kafka ω
  apiSvc : api.API ω
  topicItemCreate : String

/-- The two timestamps of the subscriber (nil until set). -/
structure Stamps where
  receivedFirstMessageAt : Option Nat
  receivedLastMessageAt : Option Nat
deriving DecidableEq, Repr

/-- Go `NewService`: both timestamps start nil. -/
def NewService : Stamps := ⟨none, none⟩

/-- The locked block of `Subscribe` that records the time of a successful poll. -/
def Stamps.touch (s : Stamps) (now : Nat) : Stamps :=
  ⟨if s.receivedFirstMessageAt = none then some now else s.receivedFirstMessageAt, some now⟩

/-- Go `(*Kafka).ReceivedFirstMessageAt`: a copy of the value, nil when unset. -/
def Stamps.ReceivedFirstMessageAt (s : Stamps) : Option Nat :=
  match s.receivedFirstMessageAt with
  | some tt => some tt
  | none => none

/-- Go `(*Kafka).ReceivedLastMessageAt`: a copy of the value, nil when unset. -/
def Stamps.ReceivedLastMessageAt (s : Stamps) : Option Nat :=
  match s.receivedLastMessageAt with
  | some tt => some tt
  | none => none

variable {ω : Type}

/-- Go `(*Kafka).ItemCreate`, the queue handler. -/
def Kafka.ItemCreate (kfk : Kafka ω) : kafka.kafkaHandler ω := fun ctx payload w =>
  match kfk.client.rt.unmarshal payload with
  | .error err =>
    (.ret none, w.emit (.logged (.wrap err ("\"" ++ payload ++ "\""))))
  | .ok createItem =>
    match kfk.apiSvc.ItemCreateIfNotExists ctx createItem w with
    | (.panic v, w) => (.panic v, w)
    | (.ret (_, err), w) =>
      if errorsIs err item.ErrDuplicateItem then
        (.ret none, w.emit (.info ("item with ID " ++ toString createItem.ID ++ " already exists")))
      else
        (.ret err, w)

/-- The record loop of `Subscribe` (`for !iter.Done()`), for a handler `fn`:
`iter` is what is left to iterate, `recordCommits` the slice built so far. -/
def Kafka.handleRecords (kfk : Kafka ω) (ctx : Context) (fn : kafka.kafkaHandler ω) :
    List Record → List Record → World ω → Outcome (List Record) × World ω
  | [], recordCommits, w => (.ret recordCommits, w)
  | record :: iter, recordCommits, w =>
    if record.topic = kfk.topicItemCreate then
      match kfk.client.HandleTopic ctx recordCommits record fn w with
      | (.panic v, w) => (.panic v, w)
      | (.ret recordCommits, w) => kfk.handleRecords ctx fn iter recordCommits w
    else
      kfk.handleRecords ctx fn iter recordCommits w

/-- Go `errors.Errorf("%+v", errs)` on the errors of a poll. -/
def pollError (errs : List FetchError) : Error :=
  .errorf ("[" ++ " ".intercalate (errs.map fun e =>
    "\x7bTopic:" ++ e.topic ++ " Partition:" ++ toString e.partition ++ " Err:" ++ e.err.text ++ "\x7d")
    ++ "]")

/-- Where a run of `Subscribe` stands. -/
inductive Run (ω : Type) where
  | returned (err : Option Error) (s : Stamps) (w : World ω)
  | panicked (v : String) (s : Stamps) (w : World ω)
  | looping (s : Stamps) (w : World ω)

/-- The world a run stands in. -/
def Run.world {ω : Type} : Run ω → World ω
  | .returned _ _ w => w
  | .panicked _ _ w => w
  | .looping _ w => w

/-- The timestamps a run stands with. -/
def Run.stamps {ω : Type} : Run ω → Stamps
  | .returned _ s _ => s
  | .panicked _ s _ => s
  | .looping s _ => s

/-- One iteration of the `for` loop of `Subscribe`, with `fn` for `kfk.ItemCreate`:
`looping` means that the iteration ended and the loop goes on. -/
def Kafka.pollCycle (kfk : Kafka ω) (fn : kafka.kafkaHandler ω) (ctx : Context)
    (s : Stamps) (w : World ω) : Run ω :=
  let r := kfk.client.PollFetches ctx w
  let fetches := r.1
  let w := r.2
  if fetches.errors.length > 0 then
    .returned (some (pollError fetches.errors)) s w
  else
    let s := s.touch (kfk.client.rt.now w.ext)
    match kfk.handleRecords ctx fn fetches.records [] w with
    | (.panic v, w) => .panicked v s w
    | (.ret recordCommits, w) =>
      match kfk.client.CommitRecords ctx recordCommits w with
      | (some err, w) => .looping s (w.emit (.logged err))
      | (none, w) => .looping s w

/-- The `for` loop of `Subscribe` run for at most `cycles` iterations. -/
def Kafka.loop (kfk : Kafka ω) (fn : kafka.kafkaHandler ω) (ctx : Context) :
    Nat → Stamps → World ω → Run ω
  | 0, s, w => .looping s w
  | cycles + 1, s, w =>
    match kfk.pollCycle fn ctx s w with
    | .looping s w => kfk.loop fn ctx cycles s w
    | done => done

/-- Go `(*Kafka).Subscribe`, observed for at most `cycles` poll cycles. -/
def Kafka.Subscribe (kfk : Kafka ω) (ctx : Context) (cycles : Nat) (s : Stamps) (w : World ω) :
    Run ω :=
  kfk.loop kfk.ItemCreate ctx cycles s w

/-- The handler calls of one batch in the order they are made: each record of the
subscriber's topic with what `fn` did on it, up to and including a call that panics.
Records of other topics are skipped; the world is threaded as `HandleTopic` leaves it. -/
def Kafka.handlerCalls (kfk : Kafka ω) (ctx : Context) (fn : kafka.kafkaHandler ω) :
    List Record → World ω → List (Record × Outcome (Option Error))
  | [], _ => []
  | record :: iter, w =>
    if record.topic = kfk.topicItemCreate then
      match (fn (kfk.client.childCtx ctx record) record.value
          (w.emit (.handlerCall (kfk.client.childCtx ctx record) record.value))).1 with
      | .panic v => [(record, .panic v)]
      | .ret err =>
        (record, .ret err) ::
          kfk.handlerCalls ctx fn iter (kfk.client.HandleTopic ctx [] record fn w).2
    else
      kfk.handlerCalls ctx fn iter w

/-- Keeps the record of a handler call that returned no error. -/
def succeeded : Record × Outcome (Option Error) → Option Record
  | (record, .ret none) => some record
  | _ => none

end kafkaSubs

/-! ## A scripted environment for the examples -/

namespace sim

/-- Go `context.Canceled`. -/
def Canceled : Error := .sentinel "context canceled"

/-- An external state for the examples: a clock, the batches the next polls will
deliver, whether the broker refuses commits, and the items in the database. -/
structure Ext where
  clock : Nat
  polls : List Fetches
  commitFails : Bool
  items : List Item
deriving DecidableEq, Repr

/-- A broker client: a poll under a cancelled context reports the context's error
(as `kgo` does), otherwise it delivers the next scripted batch. -/
def client : kafka.KgoClient Ext where
  PollFetches := fun ctx ext =>
    match ctx.err with
    | some e => (⟨[⟨"", -1, e⟩], []⟩, ext)
    | none =>
      match ext.polls with
      | [] => (⟨[⟨"", -1, .sentinel "client closed"⟩], []⟩, ext)
      | f :: rest => (f, { ext with polls := rest, clock := ext.clock + 1 })
  CommitRecords := fun _ _ ext =>
    if ext.commitFails then (some (.sentinel "broker unavailable"), ext) else (none, ext)

/-- A decoder for the examples: it knows the three JSON texts used below and
reports a syntax error for every other payload. -/
def unmarshal (payload : Payload) : Except Error Item :=
  if payload = "\x7b\"id\":7,\"name\":\"pen\"\x7d" then .ok ⟨7, "pen"⟩
  else if payload = "\x7b\"id\":8,\"name\":\"ink\"\x7d" then .ok ⟨8, "ink"⟩
  else if payload = "\x7b\"id\":-1,\"name\":\"nil\"\x7d" then .ok ⟨-1, "nil"⟩
  else .error (.sentinel "invalid character")

def rt : Runtime Ext where
  now := fun ext => ext.clock
  randInt := fun ext => (ext.clock, ext)
  unmarshal := unmarshal

/-- The store of the examples, after `storeMocker` of the tests: a map from ID to item. -/
def store : item.persistentStore Ext where
  InsertItem := fun _ it w =>
    ((some it, none), { w with ext := { w.ext with items := it :: w.ext.items.filter (·.ID ≠ it.ID) } })
  Item := fun _ id w =>
    match w.ext.items.find? (·.ID = id) with
    | some it => ((some it, none), w)
    | none => ((none, some item.ErrNotFound), w)

def service : item.Service Ext := ⟨rt, store, ⟨fun _ _ w => (none, w)⟩⟩

def kfk : kafka.Kafka Ext := ⟨rt, client, fun _ => Context.Background, 5 * Second⟩

def sub : kafkaSubs.Kafka Ext := ⟨kfk, api.NewService service, "items"⟩

/-- An item service that panics on item 7 and serves every other item. -/
def brittle : api.itemService Ext :=
  ⟨fun ctx it w =>
    if it.ID = 7 then (.panic "assignment to entry in nil map", w)
    else (api.NewService service).itemService.CreateIfNotExist ctx it w⟩

def brittleSub : kafkaSubs.Kafka Ext := ⟨kfk, ⟨brittle⟩, "items"⟩

/-- A context that has been cancelled. -/
def cancelled : Context := ⟨none, some Canceled⟩

def rec1 : Record := ⟨"items", 0, 1, "\x7b\"id\":7,\"name\":\"pen\"\x7d"⟩

def rec2 : Record := ⟨"items", 0, 2, "\x7b\"id\":7,\"name\":\"pen\"\x7d"⟩

def rec3 : Record := ⟨"items", 0, 3, "\x7b\"id\":8,\"name\":\"ink\"\x7d"⟩

def invalidRec : Record := ⟨"items", 0, 2, "\x7b\"id\":-1,\"name\":\"nil\"\x7d"⟩

def badRec : Record := ⟨"items", 0, 4, "not json"⟩

def otherRec : Record := ⟨"audit", 0, 9, "x"⟩

def world (polls : List Fetches) : World Ext := ⟨⟨100, polls, false, []⟩, []⟩

/-- A world whose broker refuses every commit. -/
def worldNoCommit (polls : List Fetches) : World Ext := ⟨⟨100, polls, true, []⟩, []⟩

/-- A world whose database already holds item 7. -/
def worldWith7 : World Ext := ⟨⟨100, [], false, [⟨7, "pen-99"⟩]⟩, []⟩

end sim

/-! ## `internal/config` -/

namespace config

/-- The `Kafka` part of `config.Config` as `env.Parse` fills it in when no environment
variable is set: the values of the `envDefault` tags. -/
def defaultKafka : kafka.Config where
  LogLevel := 1
  Seeds := ["localhost:9092"]
  Topics := ["item_create"]
  ConsumerGroup := ""
  IdleTimeout := 3 * Second
  RequestTimeoutOverhead := 3 * Second
  RetryTimeout := 3 * Second
  TxnTimeout := 3 * Second
  RecordTimeout := 3 * Second
  SessionTimeout := 60 * Second
  CommitTimeout := 5 * Second
  AuthMechanism := ""
  SASLUsername := ""
  SASLPassword := ""
  CACertificate := ""
  FetchMaxBytes := 1048576
  EnableAutoCommit := true
  EnableTLSDialer := false

/-- Go `(*Config).AppFullname` with the default `AppName` and `Version`. -/
def defaultAppFullname : String := "template-go" ++ "v0.0.0"

end config

/-! ## `cmd/server/http` and `cmd/server/grpc` -/

namespace xhttp

/-- What `CreateItem` reads of a `*http.Request`: the body and the context. -/
structure Request where
  body : Payload
  ctx : Context
deriving DecidableEq, Repr

/-- Go `http.ResponseWriter`, the method `CreateItem` calls. -/
structure ResponseWriter (ω : Type) where
  Write : Payload → World ω → Option Error × World ω

/-- Go `xhttp.HTTP`: the APIs, with `json.NewDecoder(body).Decode` into an `item.Item`
and `json.Marshal` of an `*item.Item`. -/
structure HTTP (ω : Type) where
  apis : api.API ω
  decode : Payload → Except Error Item
  marshal : Option Item → Except Error Payload

variable {ω : Type}

/-- Go `(*HTTP).CreateItem`. -/
def HTTP.CreateItem (ht : HTTP ω) (rw : ResponseWriter ω) (req : Request) (w : World ω) :
    Outcome (Option Error) × World ω :=
  match ht.decode req.body with
  | .error err => (.ret (some (.wrap err "failed to decode request body")), w)
  | .ok payload =>
    match ht.apis.ItemCreateIfNotExists req.ctx payload w with
    | (.panic v, w) => (.panic v, w)
    | (.ret (_, some err), w) => (.ret (some err), w)
    | (.ret (createdItem, none), w) =>
      match ht.marshal createdItem with
      | .error err => (.ret (some (.wrap err "failed to marshal response")), w)
      | .ok jResp =>
        match rw.Write jResp w with
        | (some err, w) => (.ret (some (.wrap err "failed to write response")), w)
        | (none, w) => (.ret none, w)

end xhttp

namespace grpc

/-- Go `pbitems.CreateItemRequest`, the fields `CreateItem` reads. -/
structure CreateItemRequest where
  Id : Int
  Name : String
deriving DecidableEq, Repr

/-- Go `pbitems.Item`. -/
structure PbItem where
  Id : Int
  Name : String
deriving DecidableEq, Repr

/-- Go `grpc.GRPC`, the field the handlers use. -/
structure GRPC (ω : Type) where
  apis : api.API ω

variable {ω : Type}

/-- Go `(*GRPC).CreateItem`.  The getters of a nil request return zero values; reading
the fields of a nil `createdItem` panics. -/
def GRPC.CreateItem (grp : GRPC ω) (ctx : Context) (req : Option CreateItemRequest)
    (w : World ω) : Outcome (Option PbItem × Option Error) × World ω :=
  let newItem : Item :=
    match req with
    | some r => ⟨r.Id, r.Name⟩
    | none => ⟨0, ""⟩
  match grp.apis.ItemCreateIfNotExists ctx newItem w with
  | (.panic v, w) => (.panic v, w)
  | (.ret (_, some err), w) => (.ret (none, some err), w)
  | (.ret (none, none), w) =>
    (.panic "runtime error: invalid memory address or nil pointer dereference", w)
  | (.ret (some createdItem, none), w) =>
    (.ret (some ⟨createdItem.ID, createdItem.Name⟩, none), w)

end grpc

/-! ## `internal/pkg/apm` -/

namespace apm

/-- The `otelhttp.Option` values `NewHTTPMiddleware` handles: the ones of the caller,
and the two it builds from `Global()`. -/
inductive OtelOption where
  | given (name : String)
  | WithMeterProvider
  | WithTracerProvider
deriving DecidableEq, Repr

/-- Go `apm.HTTPOpts`. -/
structure HTTPOpts where
  OperationName : String
  OTEL : List OtelOption
deriving DecidableEq, Repr

/-- What `otelhttp.NewMiddleware` is called with. -/
structure Middleware where
  operation : String
  opts : List OtelOption
deriving DecidableEq, Repr

/-- Go `NewHTTPMiddleware`: `hopts` is a pointer, `none` is nil.  Reading
`hopts.OperationName` through a nil pointer panics. -/
def NewHTTPMiddleware (hopts : Option HTTPOpts) : Outcome Middleware :=
  let opts : List OtelOption :=
    match hopts with
    | some h => h.OTEL
    | none => []
  let opts := if opts.length = 0 then [] else opts
  let opts := opts ++ [.WithMeterProvider, .WithTracerProvider]
  match hopts with
  | none => .panic "runtime error: invalid memory address or nil pointer dereference"
  | some h =>
    let opName := h.OperationName
    let opName := if opName = "" then "otelhttp" else opName
    .ret ⟨opName, opts⟩

end apm

/-! ## `cmd/main.go` and `cmd/shutdown.go` -/

namespace cmd

/-- A Go value of type `any` as `recoverer` sees it: nil, an error, or something else. -/
inductive Any where
  | nil
  | error (e : Error)
  | other (v : String)
deriving DecidableEq, Repr

/-- What `recoverer` ends with: the code given to `os.Exit`, and what it logged. -/
structure Exit where
  exitCode : Nat
  exitInfo : Any
deriving DecidableEq, Repr

/-- Go `recoverer`: `rec` is what `recover()` returned, `errExit` the package variable.
`ErrSigQuit` is `sysignals.ErrSigQuit`, a package whose source is not at hand. -/
def recoverer (ErrSigQuit : Error) (rec : Any) (errExit : Option Error) : Exit :=
  let r : Exit :=
    match rec, errExit with
    | .error err, _ => ⟨1, .error err⟩
    | .other v, _ => ⟨2, .other v⟩
    | .nil, some e => ⟨3, .error e⟩
    | .nil, none => ⟨0, .nil⟩
  if errorsIs errExit ErrSigQuit then { r with exitCode := 0 } else r

/-- The goroutines `shutdownAPIs` and `shutdownDependencies` start. -/
inductive Task where
  | http
  | grpc
  | kafka
  | mongo
  | apm
deriving DecidableEq, Repr

/-- API-phase tasks are the ones started by `shutdownAPIs`. -/
def Task.api : Task → Bool
  | .http => true
  | .grpc => true
  | .kafka => true
  | .mongo => false
  | .apm => false

/-- The key of the health annotations a task writes. -/
def Task.key : Task → String
  | .http => "shutdown/http-itemserver"
  | .grpc => "shutdown/grpc-itemserver"
  | .kafka => "shutdown/kafka-subscriber"
  | .mongo => "shutdown/mongodb-driver"
  | .apm => "shutdown/apm-server"

/-- Whether the task's goroutine logs the error of its shutdown call: the gRPC
`Shutdown` returns nothing and the error of `Disconnect` is discarded. -/
def Task.logs : Task → Bool
  | .http => true
  | .grpc => false
  | .kafka => true
  | .mongo => false
  | .apm => true

/-- A thread of the shutdown: the main goroutine or a task's goroutine. -/
inductive Tid where
  | main
  | task (t : Task)
deriving DecidableEq, Repr

/-- The statements of the shutdown path, each one atomic step of its goroutine.  The
timestamps that the annotations carry are left out. -/
inductive Op where
  | setNotReady (b : Bool)
  | setNotStarted (b : Bool)
  | setNotLive (b : Bool)
  | probeStop
  | appendHealth (key value : String)
  | sleep (d : Nat)
  | logInfo (msg : String)
  | logErr (err : Error)
  | wgAdd
  | wgDone
  | wgWait
  | go (t : Task)
  | callStart (t : Task)
  | callEnd (t : Task) (err : Option Error)
  | healthStart
  | healthEnd
  | cancel
  | exit (code : Nat)
deriving DecidableEq, Repr

/-- The external `proberesponder.ProbeResponder`: three flags and the annotations
(latest value first; a key is overwritten on reuse). -/
structure ProbeResponder where
  notReady : Bool
  notStarted : Bool
  notLive : Bool
  health : List (String × String)
deriving DecidableEq, Repr

/-- The inputs of a shutdown: the value `main` received from `fatalErr`, and what each
shutdown call returns. -/
structure Env where
  ErrSigQuit : Error
  errExit : Option Error
  result : Task → Option Error

/-- Go `shutdownAPIs`, the statements of the calling goroutine. -/
def shutdownAPIs : List Op :=
  [.wgAdd, .go .http, .wgAdd, .go .grpc, .wgAdd, .go .kafka, .wgWait]

/-- Go `shutdownDependencies`, the statements of the calling goroutine. -/
def shutdownDependencies : List Op :=
  [.wgAdd, .go .mongo, .wgAdd, .go .apm]

/-- Go `shutdown`: the deferred calls (`healthResp.Shutdown`, then `cancel`) run last. -/
def shutdown : List Op :=
  [.appendHealth "shutdown" "initiated"] ++ shutdownAPIs ++ shutdownDependencies ++
    [.wgWait] ++ [.healthStart, .healthEnd, .cancel]

/-- What `main` runs once it has received from `fatalErr`: its deferred function, then
`recoverer`, which exits the process. -/
def mainCode (env : Env) : List Op :=
  [.setNotReady true, .setNotStarted true, .setNotLive true, .probeStop,
    .appendHealth "shutdown" "initiated:", .sleep (3 * Second),
    .logInfo "initiating shutdown"] ++ shutdown ++
    [.exit (recoverer env.ErrSigQuit .nil env.errExit).exitCode]

/-- The goroutine of a task: the `initiated` annotation, the shutdown call, then the
deferred function, which calls `wgroup.Done()` before it writes `completed`.  The
`callEnd` step covers the return of the call and the logging of its error. -/
def taskCode (env : Env) (t : Task) : List Op :=
  [.appendHealth t.key "initiated", .callStart t, .callEnd t (env.result t), .wgDone,
    .appendHealth t.key "completed"]

/-- The state of the shutdown: where each goroutine stands, the wait group counter,
the readiness state, and the steps taken so far (oldest first). -/
structure Proc where
  pcMain : Nat
  pc : Task → Nat
  spawned : Task → Bool
  wg : Nat
  exited : Bool
  probe : ProbeResponder
  trace : List (Tid × Op)

/-- The state in which `main` receives from `fatalErr`: every flag was cleared when the
start-up finished, and nothing of the shutdown has run. -/
def Proc.init : Proc :=
  ⟨0, fun _ => 0, fun _ => false, 0, false, ⟨false, false, false, []⟩, []⟩

/-- The effect of a statement on the readiness state. -/
def ProbeResponder.apply (p : ProbeResponder) : Op → ProbeResponder
  | .setNotReady b => { p with notReady := b }
  | .setNotStarted b => { p with notStarted := b }
  | .setNotLive b => { p with notLive := b }
  | .appendHealth key value =>
    { p with health := (key, value) :: p.health.filter (fun kv => kv.1 ≠ key) }
  | _ => p

/-- What a step adds to the trace: the statement, and for a logging task whose call
failed the log line that follows. -/
def emitted (tid : Tid) : Op → List (Tid × Op)
  | .callEnd t (some err) =>
    if t.logs then [(tid, .callEnd t (some err)), (tid, .logErr err)]
    else [(tid, .callEnd t (some err))]
  | op => [(tid, op)]

/-- The effect of a statement other than `wgWait` on everything but the program
counters. -/
def Proc.effect (st : Proc) (tid : Tid) (op : Op) : Proc :=
  let st := { st with trace := st.trace ++ emitted tid op, probe := st.probe.apply op }
  match op with
  | .wgAdd => { st with wg := st.wg + 1 }
  | .wgDone => { st with wg := st.wg - 1 }
  | .go t => { st with spawned := Function.update st.spawned t true }
  | .exit _ => { st with exited := true }
  | _ => st

/-- Moves the program counter of a goroutine to its next statement. -/
def Proc.advance (st : Proc) : Tid → Proc
  | .main => { st with pcMain := st.pcMain + 1 }
  | .task t => { st with pc := Function.update st.pc t (st.pc t + 1) }

/-- The statement a goroutine is about to run, if it is running. -/
def Proc.next (env : Env) (st : Proc) : Tid → Option Op
  | .main => (mainCode env)[st.pcMain]?
  | .task t => if st.spawned t then (taskCode env t)[st.pc t]? else none

/-- One step of the goroutine the scheduler picked.  Nothing runs after `os.Exit`; a
goroutine that has finished or has not been started does nothing; `wgroup.Wait()`
does nothing until the counter is zero. -/
def step (env : Env) (st : Proc) (tid : Tid) : Proc :=
  if st.exited then st
  else
    match st.next env tid with
    | none => st
    | some .wgWait =>
      if st.wg = 0 then ({ st with trace := st.trace ++ [(tid, Op.wgWait)] }).advance tid
      else st
    | some op => (st.effect tid op).advance tid

/-- Runs the shutdown under a schedule: the list of goroutines picked, in order. -/
def run (env : Env) (sched : List Tid) : Proc :=
  sched.foldl (step env) Proc.init

/-- The readiness state after the steps of a trace, from the state `main` starts the
shutdown in, as far as `main` and the goroutines of the shutdown write it.  The
dependency prober, which `main` stops only after it has set the flags, writes the ready
flag too; its writes are not among the steps. -/
def replay (tr : List (Tid × Op)) : ProbeResponder :=
  tr.foldl (fun p e => p.apply e.2) Proc.init.probe

/-- Steps of the API phase: starting an API task, or a step of an API task's goroutine. -/
def apiPhase : Tid × Op → Bool
  | (.main, .go t) => t.api
  | (.task t, _) => t.api
  | _ => false

/-- Steps of the dependency phase: starting a dependency task, or a step of a dependency
task's goroutine. -/
def depPhase : Tid × Op → Bool
  | (.main, .go t) => !t.api
  | (.task t, _) => !t.api
  | _ => false

/-- Every element of `tr` that satisfies `P` comes after a prefix that satisfies `Q`. -/
def Before {α : Type} (P : α → Bool) (Q : List α → Prop) (tr : List α) : Prop :=
  ∀ (pre : List α) (e : α) (post : List α), tr = pre ++ e :: post → P e = true → Q pre

/-- All three flags were set to true by `main`, and they hold in the state that the
steps of the trace leave (see `replay`). -/
def flagsSet (pre : List (Tid × Op)) : Prop :=
  (Tid.main, Op.setNotReady true) ∈ pre ∧ (Tid.main, Op.setNotStarted true) ∈ pre ∧
  (Tid.main, Op.setNotLive true) ∈ pre ∧
  (replay pre).notReady = true ∧ (replay pre).notStarted = true ∧
  (replay pre).notLive = true

/-- A write of one of the three readiness flags. -/
def flagWrite : Op → Bool
  | .setNotReady _ => true
  | .setNotStarted _ => true
  | .setNotLive _ => true
  | _ => false

/-- The only writes of the flags on the shutdown path are the three calls of `main`
that set them to true. -/
def onlySetsTrue (tr : List (Tid × Op)) : Prop :=
  ∀ x ∈ tr, flagWrite x.2 = true →
    x = (Tid.main, Op.setNotReady true) ∨ x = (Tid.main, Op.setNotStarted true) ∨
      x = (Tid.main, Op.setNotLive true)

/-- Every API task's shutdown call has returned and its goroutine has called
`wgroup.Done()`. -/
def apisDone (env : Env) (pre : List (Tid × Op)) : Prop :=
  ∀ t : Task, t.api = true →
    (Tid.task t, Op.callEnd t (env.result t)) ∈ pre ∧ (Tid.task t, Op.wgDone) ∈ pre

/-- The index in `mainCode` of the `go` statement of a task. -/
def goPos : Task → Nat
  | .http => 9
  | .grpc => 11
  | .kafka => 13
  | .mongo => 16
  | .apm => 18

/-- One if the goroutine at program counter `n` has called `wgroup.Done()`. -/
def doneI (n : Nat) : Nat := if 3 < n then 1 else 0

/-- One if `main` at program counter `n` has called `wgroup.Add(1)` for the task. -/
def addI (t : Task) (n : Nat) : Nat := if goPos t ≤ n then 1 else 0

/-- The invariant of the shutdown: how the program counters, the wait group counter,
the readiness state and the trace hang together in every reachable state. -/
structure Inv (env : Env) (st : Proc) : Prop where
  spawned_iff : ∀ t : Task, st.spawned t = true ↔ goPos t < st.pcMain
  idle : ∀ t : Task, st.spawned t = false → st.pc t = 0
  count : st.wg + doneI (st.pc .http) + doneI (st.pc .grpc) + doneI (st.pc .kafka) +
      doneI (st.pc .mongo) + doneI (st.pc .apm) =
    addI .http st.pcMain + addI .grpc st.pcMain + addI .kafka st.pcMain +
      addI .mongo st.pcMain + addI .apm st.pcMain
  joined : 14 < st.pcMain → ∀ t : Task, t.api = true → 3 < st.pc t
  synced : st.probe = replay st.trace
  ready : 1 ≤ st.pcMain →
    (Tid.main, Op.setNotReady true) ∈ st.trace ∧ st.probe.notReady = true
  started : 2 ≤ st.pcMain →
    (Tid.main, Op.setNotStarted true) ∈ st.trace ∧ st.probe.notStarted = true
  live : 3 ≤ st.pcMain →
    (Tid.main, Op.setNotLive true) ∈ st.trace ∧ st.probe.notLive = true
  waited : 14 < st.pcMain → (Tid.main, Op.wgWait) ∈ st.trace
  ended : ∀ t : Task, 2 < st.pc t → (Tid.task t, Op.callEnd t (env.result t)) ∈ st.trace
  released : ∀ t : Task, 3 < st.pc t → (Tid.task t, Op.wgDone) ∈ st.trace
  apiAfterFlags : Before apiPhase flagsSet st.trace
  depAfterApis : Before (fun e => depPhase e || decide (e = (Tid.main, Op.wgWait)))
    (apisDone env) st.trace
  depAfterWait : Before depPhase (fun pre => (Tid.main, Op.wgWait) ∈ pre) st.trace

/-- Inputs for the examples: the quit signal was received, and the HTTP server
fails to shut down. -/
def sampleEnv : Env :=
  ⟨.sentinel "quit signal", some (.sentinel "quit signal"),
    fun t => if t = .http then some (.sentinel "listener closed") else none⟩

/-- A schedule for the examples: `main` up to `wgroup.Wait()`, the three API goroutines
one after the other, then `main` past the `Wait` and its next `Add`. -/
def sampleSched : List Tid :=
  List.replicate 14 .main ++ List.replicate 5 (.task .http) ++
    List.replicate 5 (.task .grpc) ++ List.replicate 5 (.task .kafka) ++
    List.replicate 2 .main

/-- Every task's shutdown call has returned and its goroutine has called `wgroup.Done()`. -/
def allDone (env : Env) (pre : List (Tid × Op)) : Prop :=
  ∀ t : Task, (Tid.task t, Op.callEnd t (env.result t)) ∈ pre ∧ (Tid.task t, Op.wgDone) ∈ pre

/-- Steps that begin a shutdown call of a task. -/
def isCallStart : Tid × Op → Bool
  | (_, .callStart _) => true
  | _ => false

/-- More of the invariant of the shutdown: the second join, the teardown of the health
server, the exit code and the log lines. -/
structure Inv2 (env : Env) (st : Proc) : Prop where
  joinedAll : 19 < st.pcMain → ∀ t : Task, 3 < st.pc t
  healthStarted : (Tid.main, Op.healthStart) ∈ st.trace → 20 < st.pcMain
  healthEnded : 21 < st.pcMain → (Tid.main, Op.healthEnd) ∈ st.trace
  cancelled : (Tid.main, Op.cancel) ∈ st.trace → 22 < st.pcMain
  exitCode : ∀ c : Nat, (Tid.main, Op.exit c) ∈ st.trace →
    c = (recoverer env.ErrSigQuit .nil env.errExit).exitCode
  logged : ∀ (t : Task) (err : Error), t.logs = true →
    (Tid.task t, Op.callEnd t (some err)) ∈ st.trace → (Tid.task t, Op.logErr err) ∈ st.trace
  silent : ∀ (tid : Tid) (err : Error), (tid, Op.logErr err) ∈ st.trace →
    ∃ t : Task, tid = .task t ∧ t.logs = true ∧ env.result t = some err
  healthLast : Before (fun e => decide (e = (Tid.main, Op.healthStart)))
    (fun pre => allDone env pre ∧ (Tid.main, Op.cancel) ∉ pre) st.trace
  cancelAfterHealth : Before (fun e => decide (e = (Tid.main, Op.cancel)))
    (fun pre => (Tid.main, Op.healthEnd) ∈ pre) st.trace
  noCallAfterHealth : Before isCallStart (fun pre => (Tid.main, Op.healthStart) ∉ pre) st.trace

/-- A schedule in which the Kafka goroutine has called `wgroup.Done()` but has not yet
written its `completed` annotation when the MongoDB goroutine is started and writes its
`initiated` annotation. -/
def raceBefore : List Tid :=
  List.replicate 14 .main ++ List.replicate 5 (.task .http) ++
    List.replicate 5 (.task .grpc) ++ List.replicate 4 (.task .kafka) ++
    List.replicate 3 .main ++ [.task .mongo]

/-- The schedule `raceBefore` followed by the step in which the MongoDB goroutine begins
`Disconnect`. -/
def raceSched : List Tid := raceBefore ++ [.task .mongo]

/-- A schedule that runs the whole shutdown up to the last `wgroup.Wait()` of `shutdown`:
the API phase, then the dependency phase, each goroutine to its last statement. -/
def fullSched : List Tid :=
  sampleSched ++ List.replicate 3 .main ++ List.replicate 5 (.task .mongo) ++
    List.replicate 5 (.task .apm) ++ [.main]

/-- Inputs for the examples: the quit signal was received, and `Disconnect` fails. -/
def mongoFailEnv : Env :=
  ⟨.sentinel "quit signal", some (.sentinel "quit signal"),
    fun t => if t = .mongo then some (.sentinel "connection reset") else none⟩

/-! ### The fatal-error channel -/

/-- Go `chan error` with a buffer: its capacity and the values queued, oldest first. -/
structure Chan where
  cap : Nat
  buf : List (Option Error)
deriving DecidableEq, Repr

/-- Go `make(chan error, cap)`. -/
def makeChan (cap : Nat) : Chan := ⟨cap, []⟩

/-- Go `ch <- v`: the channel after the send, or `none` when the buffer is full and the
sender has to wait. -/
def Chan.send (ch : Chan) (v : Option Error) : Option Chan :=
  if ch.buf.length < ch.cap then some { ch with buf := ch.buf ++ [v] } else none

/-- Go `<-ch`: the value received and the channel after it, or `none` when the buffer is
empty and the receiver has to wait. -/
def Chan.recv (ch : Chan) : Option (Option Error × Chan) :=
  match ch.buf with
  | [] => none
  | v :: rest => some (v, { ch with buf := rest })

/-- The goroutines that write to `fatalErr`: the four of `cmd/starter.go` and the signal
notifier. -/
inductive Writer where
  | http
  | grpc
  | health
  | kafka
  | signal
deriving DecidableEq, Repr

/-- The inputs of the fatal-error channel: the value each writer sends once its blocking
call has returned, and whether the signal notifier (package `sysignals`, whose source is
not at hand) gives up its write when the buffer is full instead of waiting. -/
structure Signals where
  value : Writer → Option Error
  signalDrops : Bool

/-- The state around `fatalErr`: the channel, what `main` has received into `errExit`
(if it has), the writers whose send has completed (in order), the writers waiting in
their send, and the writes given up. -/
structure Bus where
  fatalErr : Chan
  errExit : Option (Option Error)
  delivered : List Writer
  blocked : List Writer
  dropped : List Writer
deriving DecidableEq, Repr

/-- The state `main` creates: `fatalErr = make(chan error, 1)`, nothing sent. -/
def Bus.init : Bus := ⟨makeChan 1, none, [], [], []⟩

/-- What the scheduler picks: a writer reaches (or retries) its send, or `main` reaches
(or retries) `errExit = <-fatalErr`. -/
inductive Act where
  | write (w : Writer)
  | receive
deriving DecidableEq, Repr

/-- One step around `fatalErr`.  `main` receives once; each writer sends once, with the
plain send `fatalErr <- v` of `cmd/starter.go`, which waits while the buffer is full. -/
def Bus.step (env : Signals) (st : Bus) : Act → Bus
  | .receive =>
    match st.errExit with
    | some _ => st
    | none =>
      match st.fatalErr.recv with
      | some (v, ch) => { st with fatalErr := ch, errExit := some v }
      | none => st
  | .write w =>
    if w ∈ st.delivered ∨ w ∈ st.dropped then st
    else
      match st.fatalErr.send (env.value w) with
      | some ch =>
        { st with fatalErr := ch, delivered := st.delivered ++ [w],
                  blocked := st.blocked.filter (fun u => decide (u ≠ w)) }
      | none =>
        if w = .signal ∧ env.signalDrops = true then { st with dropped := st.dropped ++ [w] }
        else if w ∈ st.blocked then st
        else { st with blocked := st.blocked ++ [w] }

/-- The state after a schedule of steps. -/
def Bus.run (env : Signals) (acts : List Act) : Bus :=
  acts.foldl (Bus.step env) Bus.init

/-- Inputs for the examples: every writer has an error to send. -/
def sampleSignals : Signals :=
  ⟨fun w => some (.sentinel (match w with
    | .http => "http server closed"
    | .grpc => "grpc server closed"
    | .health => "health server closed"
    | .kafka => "poll failed"
    | .signal => "quit signal")), false⟩

/-- The invariant around `fatalErr`: capacity one, and the values received and queued
are the values of the writers whose send completed, in that order. -/
structure BusInv (env : Signals) (st : Bus) : Prop where
  cap : st.fatalErr.cap = 1
  room : st.fatalErr.buf.length ≤ 1
  order : st.errExit.toList ++ st.fatalErr.buf = st.delivered.map env.value
  first : st.errExit = none → st.fatalErr.buf = st.delivered.map env.value
  blockedOut : ∀ w ∈ st.blocked, w ∉ st.delivered
  droppedSignal : ∀ w ∈ st.dropped, w = Writer.signal

/-! ### The Kafka configuration -/

/-- The configuration `initKafka` hands to `kafka.New`: the consumer group defaults to
the full name of the application. -/
def initKafkaCfg (appFullname : String) (cfg : kafka.Config) : kafka.Config :=
  if cfg.ConsumerGroup = "" then { cfg with ConsumerGroup := appFullname } else cfg

/-- A stand-in for the standard library in evaluations: `EqualFold` on ASCII letters,
no certificate accepted. -/
def sampleStd : kafka.StdLib :=
  ⟨fun a b => a.data.map Char.toLower = b.data.map Char.toLower, fun _ => .error (.sentinel "illegal base64 data"),
    fun _ => false⟩

/-! ### The dependency probes and the drain delay -/

/-- Go `proberesponder.Statuskey`, the status a probe affects; `healthStatus` names
`StatusReady` only. -/
inductive Statuskey where
  | StatusStartup
  | StatusReady
  | StatusLive
deriving DecidableEq, Repr

/-- Go `depprober.Probe` without its checker, whose results are inputs. -/
structure Probe where
  ID : String
  AffectedStatuses : List Statuskey
deriving DecidableEq, Repr

def dependencyIDKafka : String := "kafka"

def dependencyIDMongo : String := "mongodb"

/-- Go `healthStatus`: the probes it hands to `depprober.Start`, in order. -/
def healthStatus : List Probe :=
  [⟨dependencyIDMongo, [.StatusReady]⟩, ⟨dependencyIDKafka, [.StatusReady]⟩]

/-- Go `probeInterval` of `main`, the delay between two checks of a probe. -/
def probeInterval : Nat := 30 * Second

/-- Modelled from the spec: the flag of a status in the readiness state of package
`proberesponder`, whose source is not at hand (true is unhealthy). -/
def ProbeResponder.flag (p : ProbeResponder) : Statuskey → Bool
  | .StatusStartup => p.notStarted
  | .StatusReady => p.notReady
  | .StatusLive => p.notLive

/-- Modelled from the spec: sets the flag of a status. -/
def ProbeResponder.setFlag (p : ProbeResponder) (s : Statuskey) (b : Bool) : ProbeResponder :=
  match s with
  | .StatusStartup => { p with notStarted := b }
  | .StatusReady => { p with notReady := b }
  | .StatusLive => { p with notLive := b }

/-- Modelled from the spec: the state of the dependency prober of package `depprober`,
whose source is not at hand: the IDs of the descriptors that currently report
unhealthy, and the readiness state it mutates. -/
structure DepProber where
  unhealthy : List String
  probe : ProbeResponder
deriving DecidableEq, Repr

/-- Modelled from the spec: one run of the checker of descriptor `p` with result `err`
(4.3): "A checker failure sets the affected readiness flags to unhealthy for every
status in its affected-status-set; success clears them only if no other descriptor
currently reports unhealthy for that status". -/
def DepProber.check (probes : List Probe) (st : DepProber) (p : Probe)
    (err : Option Error) : DepProber :=
  match err with
  | some _ =>
    { unhealthy := p.ID :: st.unhealthy.filter (fun id => decide (id ≠ p.ID))
      probe := p.AffectedStatuses.foldl (fun pr s => pr.setFlag s true) st.probe }
  | none =>
    let unhealthy := st.unhealthy.filter (fun id => decide (id ≠ p.ID))
    { unhealthy := unhealthy
      probe := p.AffectedStatuses.foldl
        (fun pr s =>
          if probes.any (fun q => decide (q.ID ∈ unhealthy) && decide (s ∈ q.AffectedStatuses))
          then pr else pr.setFlag s false)
        st.probe }

/-- Modelled from the spec: the checks of the probes in the order they complete, each
with the result of its checker, from a readiness state `p`. -/
def DepProber.run (probes : List Probe) (p : ProbeResponder)
    (checks : List (Probe × Option Error)) : DepProber :=
  checks.foldl (fun st c => st.check probes c.1 c.2) ⟨[], p⟩

/-- Whether the latest check of the probe `id` among `checks` failed. -/
def reportsUnhealthy (checks : List (Probe × Option Error)) (id : String) : Bool :=
  checks.foldl (fun acc c => if c.1.ID = id then c.2.isSome else acc) false

/-- Go `k8sProbeInterval` of `main`: the pause before the shutdown begins. -/
def k8sProbeInterval : Nat := Second * 3

/-- The probe interval that the comment in `main` assumes Kubernetes to use. -/
def assumedProbeInterval : Nat := 2 * Second

/-- Steps of the shutdown proper: starting a task, or a step of a task's goroutine. -/
def shutdownStep (e : Tid × Op) : Bool := apiPhase e || depPhase e

/-- The invariant of the drain delay: where `main` has passed the sleep the trace holds
it, the sleep comes after the flags were set, and every step of the shutdown proper
comes after the sleep. -/
structure Inv3 (st : Proc) : Prop where
  slept : 5 < st.pcMain → (Tid.main, Op.sleep (3 * Second)) ∈ st.trace
  sleepAfterFlags :
    Before (fun e => decide (e = (Tid.main, Op.sleep (3 * Second)))) flagsSet st.trace
  shutdownAfterSleep :
    Before shutdownStep (fun pre => (Tid.main, Op.sleep (3 * Second)) ∈ pre) st.trace

end cmd

/-! ## Theorems -/

section consumer

open kafkaSubs

variable {ω : Type}

theorem HandleTopic_eq (kfk : kafka.Kafka ω) (ctx : Context) (acc : List Record)
    (record : Record) (fn : kafka.kafkaHandler ω) (w : World ω) :
    kfk.HandleTopic ctx acc record fn w =
      match (fn (kfk.childCtx ctx record) record.value
          (w.emit (.handlerCall (kfk.childCtx ctx record) record.value))).1 with
      | .panic v => (.panic v, (fn (kfk.childCtx ctx record) record.value
          (w.emit (.handlerCall (kfk.childCtx ctx record) record.value))).2.emit
            (.telemetry record.topic))
      | .ret (some err) => (.ret acc, ((fn (kfk.childCtx ctx record) record.value
          (w.emit (.handlerCall (kfk.childCtx ctx record) record.value))).2.emit
            (.logged err)).emit (.telemetry record.topic))
      | .ret none => (.ret (acc ++ [record]), (fn (kfk.childCtx ctx record) record.value
          (w.emit (.handlerCall (kfk.childCtx ctx record) record.value))).2.emit
            (.telemetry record.topic)) := by
  simp only [kafka.Kafka.HandleTopic]
  generalize fn (kfk.childCtx ctx record) record.value
    (w.emit (.handlerCall (kfk.childCtx ctx record) record.value)) = res
  obtain ⟨o, w1⟩ := res
  cases o with
  | panic v => rfl
  | ret err => cases err <;> rfl

theorem HandleTopic_world_indep (kfk : kafka.Kafka ω) (ctx : Context) (acc acc' : List Record)
    (record : Record) (fn : kafka.kafkaHandler ω) (w : World ω) :
    (kfk.HandleTopic ctx acc record fn w).2 = (kfk.HandleTopic ctx acc' record fn w).2 := by
  rw [HandleTopic_eq, HandleTopic_eq]
  split <;> rfl

theorem HandleTopic_cases (kfk : kafka.Kafka ω) (ctx : Context) (acc : List Record)
    (record : Record) (fn : kafka.kafkaHandler ω) (w : World ω) :
    (kfk.HandleTopic ctx acc record fn w).1 =
      match (fn (kfk.childCtx ctx record) record.value
          (w.emit (.handlerCall (kfk.childCtx ctx record) record.value))).1 with
      | .panic v => .panic v
      | .ret (some _) => .ret acc
      | .ret none => .ret (acc ++ [record]) := by
  rw [HandleTopic_eq]
  split <;> simp_all

theorem handleRecords_spec (kfk : Kafka ω) (ctx : Context) (fn : kafka.kafkaHandler ω)
    (records : List Record) :
    ∀ (acc : List Record) (w : World ω) (commits : List Record) (w' : World ω),
      kfk.handleRecords ctx fn records acc w = (.ret commits, w') →
      commits = acc ++ (kfk.handlerCalls ctx fn records w).filterMap succeeded ∧
      (kfk.handlerCalls ctx fn records w).map Prod.fst =
        records.filter (fun r => decide (r.topic = kfk.topicItemCreate)) := by
  induction records with
  | nil =>
    intro acc w commits w' h
    simp [Kafka.handleRecords] at h
    simp [Kafka.handlerCalls, h.1]
  | cons record iter ih =>
    intro acc w commits w' h
    by_cases ht : record.topic = kfk.topicItemCreate
    · simp only [Kafka.handleRecords, ht, if_true] at h
      have hc := HandleTopic_cases kfk.client ctx acc record fn w
      have hw := HandleTopic_world_indep kfk.client ctx acc [] record fn w
      generalize hres : kfk.client.HandleTopic ctx acc record fn w = res at h hc hw
      obtain ⟨o, w1⟩ := res
      cases o with
      | panic v => simp at h
      | ret acc1 =>
        simp only at h hc hw
        obtain ⟨h1, h2⟩ := ih acc1 w1 commits w' h
        simp only [Kafka.handlerCalls, ht, if_true, List.filter_cons, decide_True]
        generalize hout : (fn (kfk.client.childCtx ctx record) record.value
          (w.emit (.handlerCall (kfk.client.childCtx ctx record) record.value))).1 = out at hc
        cases out with
        | panic v => simp at hc
        | ret err =>
          cases err with
          | some e =>
            simp only [Outcome.ret.injEq] at hc
            subst hc
            simp [succeeded, ← hw, h1, h2]
          | none =>
            simp only [Outcome.ret.injEq] at hc
            subst hc
            simp [succeeded, ← hw, h1, h2]
    · simp only [Kafka.handleRecords, ht, if_false] at h
      obtain ⟨h1, h2⟩ := ih acc w commits w' h
      simp [Kafka.handlerCalls, ht, h1, h2]

theorem filterMap_succeeded_sublist (calls : List (Record × Outcome (Option Error))) :
    (calls.filterMap succeeded).Sublist (calls.map Prod.fst) := by
  induction calls with
  | nil => simp
  | cons c cs ih =>
    obtain ⟨r, o⟩ := c
    cases o with
    | panic v => simpa [List.filterMap_cons, succeeded] using ih.cons r
    | ret err =>
      cases err with
      | some e => simpa [List.filterMap_cons, succeeded] using ih.cons r
      | none => simpa [List.filterMap_cons, succeeded] using ih.cons₂ r

theorem pollCycle_handled (kfk : Kafka ω) (fn : kafka.kafkaHandler ω)
    (ctx : Context) (s : Stamps) (w : World ω) (commits : List Record) (w' : World ω)
    (hpoll : (kfk.client.PollFetches ctx w).1.errors = [])
    (hrun : kfk.handleRecords ctx fn (kfk.client.PollFetches ctx w).1.records []
      (kfk.client.PollFetches ctx w).2 = (.ret commits, w')) :
    kfk.pollCycle fn ctx s w =
      match kfk.client.CommitRecords ctx commits w' with
      | (some err, w'') =>
        .looping (s.touch (kfk.client.rt.now (kfk.client.PollFetches ctx w).2.ext))
          (w''.emit (.logged err))
      | (none, w'') =>
        .looping (s.touch (kfk.client.rt.now (kfk.client.PollFetches ctx w).2.ext)) w'' := by
  simp only [Kafka.pollCycle, hpoll, List.length_nil, gt_iff_lt, lt_self_iff_false, if_false,
    hrun]

/-- C1: in a poll cycle of `Subscribe` (any handler `fn`, any polled batch) whose poll
reports no error and whose handler calls all return, the handler is called once for each
polled record of the subscriber's topic, in arrival order, and the list handed to
`CommitRecords` is exactly the sub-sequence of those records whose call returned no error. -/
theorem commit_batch_is_successful_subsequence (kfk : Kafka ω) (fn : kafka.kafkaHandler ω)
    (ctx : Context) (s : Stamps) (w : World ω) (commits : List Record) (w' : World ω)
    (hpoll : (kfk.client.PollFetches ctx w).1.errors = [])
    (hrun : kfk.handleRecords ctx fn (kfk.client.PollFetches ctx w).1.records []
      (kfk.client.PollFetches ctx w).2 = (.ret commits, w')) :
    (kfk.handlerCalls ctx fn (kfk.client.PollFetches ctx w).1.records
        (kfk.client.PollFetches ctx w).2).map Prod.fst =
      (kfk.client.PollFetches ctx w).1.records.filter
        (fun r => decide (r.topic = kfk.topicItemCreate)) ∧
    commits = (kfk.handlerCalls ctx fn (kfk.client.PollFetches ctx w).1.records
        (kfk.client.PollFetches ctx w).2).filterMap succeeded ∧
    commits.Sublist (kfk.client.PollFetches ctx w).1.records ∧
    kfk.pollCycle fn ctx s w =
      match kfk.client.CommitRecords ctx commits w' with
      | (some err, w'') =>
        .looping (s.touch (kfk.client.rt.now (kfk.client.PollFetches ctx w).2.ext))
          (w''.emit (.logged err))
      | (none, w'') =>
        .looping (s.touch (kfk.client.rt.now (kfk.client.PollFetches ctx w).2.ext)) w'' := by
  obtain ⟨h1, h2⟩ := handleRecords_spec kfk ctx fn _ [] _ commits w' hrun
  simp only [List.nil_append] at h1
  refine ⟨h2, h1, ?_, ?_⟩
  · rw [h1]
    exact (filterMap_succeeded_sublist _).trans (h2 ▸ List.filter_sublist _)
  · exact pollCycle_handled kfk fn ctx s w commits w' hpoll hrun

/-- C1, the scenario of the spec: three records of the topic, the handler of the second
one errors (its item ID is invalid), and the commit batch is the first and the third. -/
theorem commit_batch_is_successful_subsequence_witness :
    (sim.sub.handleRecords Context.Background sim.sub.ItemCreate
      [sim.rec1, sim.invalidRec, sim.rec3] []
      (sim.kfk.PollFetches Context.Background
        (sim.world [⟨[], [sim.rec1, sim.invalidRec, sim.rec3]⟩])).2).1 =
      .ret [sim.rec1, sim.rec3] ∧
    [sim.rec1, sim.rec3] =
      (sim.sub.handlerCalls Context.Background sim.sub.ItemCreate
        [sim.rec1, sim.invalidRec, sim.rec3]
        (sim.kfk.PollFetches Context.Background
          (sim.world [⟨[], [sim.rec1, sim.invalidRec, sim.rec3]⟩])).2).filterMap succeeded :=
  ⟨by decide,
   (commit_batch_is_successful_subsequence sim.sub sim.sub.ItemCreate Context.Background
      NewService (sim.world [⟨[], [sim.rec1, sim.invalidRec, sim.rec3]⟩])
      [sim.rec1, sim.rec3]
      (sim.sub.handleRecords Context.Background sim.sub.ItemCreate
        [sim.rec1, sim.invalidRec, sim.rec3] []
        (sim.kfk.PollFetches Context.Background
          (sim.world [⟨[], [sim.rec1, sim.invalidRec, sim.rec3]⟩])).2).2
      (by decide) (by rfl)).2.1⟩

/-- C2, refuted as stated: the payload of `badRec` does not decode, and yet `HandleTopic`
appends the record to the commit list and the poll cycle sends it to the broker. -/
theorem undecodable_record_excluded_counterexample :
    sim.sub.client.rt.unmarshal sim.badRec.value = .error (.sentinel "invalid character") ∧
    (sim.sub.client.HandleTopic Context.Background [] sim.badRec sim.sub.ItemCreate
      (sim.world [])).1 = .ret [sim.badRec] ∧
    Event.commitRequest ⟨some (101 + 5 * Second), none⟩ [sim.badRec] ∈
      (sim.sub.Subscribe Context.Background 1 NewService
        (sim.world [⟨[], [sim.badRec]⟩])).world.trace :=
  ⟨rfl, by decide, by decide⟩

/-- C2, amended: when the payload of a record does not decode as an item, `ItemCreate`
logs the failure and returns nil, so `HandleTopic` appends the record to the commit list
of its poll cycle; a record whose handler returned an error is left out of that list. -/
theorem undecodable_record_is_committed (kfk : Kafka ω) (ctx : Context) (acc : List Record)
    (record : Record) (w : World ω) (e : Error)
    (hdec : kfk.client.rt.unmarshal record.value = .error e) :
    (∀ (c : Context) (w0 : World ω), kfk.ItemCreate c record.value w0 =
      (.ret none, w0.emit (.logged (.wrap e ("\"" ++ record.value ++ "\""))))) ∧
    (kfk.client.HandleTopic ctx acc record kfk.ItemCreate w).1 = .ret (acc ++ [record]) ∧
    (∀ (fn : kafka.kafkaHandler ω) (err : Error),
      (fn (kfk.client.childCtx ctx record) record.value
        (w.emit (.handlerCall (kfk.client.childCtx ctx record) record.value))).1 =
          .ret (some err) →
      (kfk.client.HandleTopic ctx acc record fn w).1 = .ret acc) := by
  have h1 : ∀ (c : Context) (w0 : World ω), kfk.ItemCreate c record.value w0 =
      (.ret none, w0.emit (.logged (.wrap e ("\"" ++ record.value ++ "\"")))) := by
    intro c w0
    simp only [Kafka.ItemCreate, hdec]
  refine ⟨h1, ?_, ?_⟩
  · rw [HandleTopic_cases, h1]
  · intro fn err hfn
    rw [HandleTopic_cases, hfn]

theorem undecodable_record_is_committed_witness :
    (sim.sub.client.HandleTopic Context.Background [sim.rec1] sim.badRec sim.sub.ItemCreate
      (sim.world [])).1 = .ret ([sim.rec1] ++ [sim.badRec]) :=
  (undecodable_record_is_committed sim.sub Context.Background [sim.rec1] sim.badRec
    (sim.world []) (.sentinel "invalid character") rfl).2.1

/-- C3: for a payload that decodes to an item, `ItemCreate` returns nil when
`ItemCreateIfNotExists` returns no error or an error that is `ErrDuplicateItem`, and then
`HandleTopic` appends the record to the commit list; for every other error `ItemCreate`
returns that error unchanged and the record is left out of the commit list. -/
theorem ItemCreate_swallows_only_duplicate (kfk : Kafka ω) (ctx : Context)
    (acc : List Record) (record : Record) (w : World ω) (createItem : Item)
    (created : Option Item) (err : Option Error) (w1 : World ω)
    (hdec : kfk.client.rt.unmarshal record.value = .ok createItem)
    (hapi : kfk.apiSvc.ItemCreateIfNotExists (kfk.client.childCtx ctx record) createItem
      (w.emit (.handlerCall (kfk.client.childCtx ctx record) record.value)) =
        (.ret (created, err), w1)) :
    ((err = none ∨ errorsIs err item.ErrDuplicateItem = true) →
      (kfk.ItemCreate (kfk.client.childCtx ctx record) record.value
        (w.emit (.handlerCall (kfk.client.childCtx ctx record) record.value))).1 = .ret none ∧
      (kfk.client.HandleTopic ctx acc record kfk.ItemCreate w).1 = .ret (acc ++ [record])) ∧
    (∀ e : Error, err = some e → errorsIs err item.ErrDuplicateItem = false →
      (kfk.ItemCreate (kfk.client.childCtx ctx record) record.value
        (w.emit (.handlerCall (kfk.client.childCtx ctx record) record.value))).1 =
          .ret (some e) ∧
      (kfk.client.HandleTopic ctx acc record kfk.ItemCreate w).1 = .ret acc) := by
  have hI : (kfk.ItemCreate (kfk.client.childCtx ctx record) record.value
      (w.emit (.handlerCall (kfk.client.childCtx ctx record) record.value))).1 =
      if errorsIs err item.ErrDuplicateItem then .ret none else .ret err := by
    simp only [Kafka.ItemCreate, hdec, hapi]
    split <;> rfl
  constructor
  · intro h
    have h2 : (kfk.ItemCreate (kfk.client.childCtx ctx record) record.value
        (w.emit (.handlerCall (kfk.client.childCtx ctx record) record.value))).1 =
        .ret none := by
      rw [hI]
      rcases h with h | h
      · subst h
        simp [errorsIs]
      · simp [h]
    exact ⟨h2, by rw [HandleTopic_cases, h2]⟩
  · intro e he hnd
    have h2 : (kfk.ItemCreate (kfk.client.childCtx ctx record) record.value
        (w.emit (.handlerCall (kfk.client.childCtx ctx record) record.value))).1 =
        .ret (some e) := by
      rw [hI, hnd, he]
      simp
    exact ⟨h2, by rw [HandleTopic_cases, h2]⟩

/-- C3 at a record whose item is already in the database: `CreateIfNotExist` reports
`ErrDuplicateItem` (wrapped), `ItemCreate` returns nil and the record is committed. -/
theorem ItemCreate_swallows_only_duplicate_witness :
    (sim.sub.ItemCreate (sim.kfk.childCtx Context.Background sim.rec2) sim.rec2.value
      (sim.worldWith7.emit (.handlerCall (sim.kfk.childCtx Context.Background sim.rec2)
        sim.rec2.value))).1 = .ret none ∧
    (sim.sub.client.HandleTopic Context.Background [sim.rec1] sim.rec2 sim.sub.ItemCreate
      sim.worldWith7).1 = .ret ([sim.rec1] ++ [sim.rec2]) :=
  (ItemCreate_swallows_only_duplicate sim.sub Context.Background [sim.rec1] sim.rec2
    sim.worldWith7 ⟨7, "pen"⟩ none (some (.wrap item.ErrDuplicateItem ": 7"))
    (sim.worldWith7.emit (.handlerCall (sim.kfk.childCtx Context.Background sim.rec2)
      sim.rec2.value)) rfl rfl).1 (Or.inr (by decide))

/-- C4: `CommitRecords` on an empty list returns nil and leaves the world as it was (no
request reaches the client); on a non-empty list it sends the client exactly one request,
carrying the whole list; and a poll cycle in which no record was handled successfully
issues no commit request: it finishes in the world the record loop left. -/
theorem commit_never_sent_for_empty_batch (kfk : Kafka ω) (fn : kafka.kafkaHandler ω)
    (ctx : Context) (s : Stamps) (w : World ω) :
    kfk.client.CommitRecords ctx [] w = (none, w) ∧
    (∀ records : List Record, records ≠ [] →
      (kfk.client.CommitRecords ctx records w).2.trace = w.trace ++
        [.commitRequest (ctx.WithTimeout (kfk.client.rt.now w.ext) kfk.client.commitTimeout)
          records] ∧
      (kfk.client.CommitRecords ctx records w).2.ext =
        (kfk.client.client.CommitRecords
          (ctx.WithTimeout (kfk.client.rt.now w.ext) kfk.client.commitTimeout) records
          w.ext).2) ∧
    (∀ w' : World ω, (kfk.client.PollFetches ctx w).1.errors = [] →
      kfk.handleRecords ctx fn (kfk.client.PollFetches ctx w).1.records []
        (kfk.client.PollFetches ctx w).2 = (.ret [], w') →
      kfk.pollCycle fn ctx s w =
        .looping (s.touch (kfk.client.rt.now (kfk.client.PollFetches ctx w).2.ext)) w') := by
  refine ⟨by simp [kafka.Kafka.CommitRecords], ?_, ?_⟩
  · intro records hne
    have hlen : records.length ≠ 0 := by
      simpa [List.length_eq_zero] using hne
    simp only [kafka.Kafka.CommitRecords, hlen, if_false]
    split <;> simp [World.emit]
  · intro w' hpoll hrun
    simp [Kafka.pollCycle, hpoll, hrun, kafka.Kafka.CommitRecords]

/-- C4 on the scripted broker: a batch of one failing record issues no commit request, a
batch of one good record issues one request carrying that record. -/
theorem commit_never_sent_for_empty_batch_witness :
    (sim.sub.pollCycle sim.sub.ItemCreate Context.Background NewService
      (sim.world [⟨[], [sim.invalidRec]⟩])).world.trace.filter
        (fun e => match e with | .commitRequest _ _ => true | _ => false) = [] ∧
    (sim.kfk.CommitRecords Context.Background [sim.rec1] (sim.world [])).2.trace =
      [.commitRequest ⟨some (100 + 5 * Second), none⟩ [sim.rec1]] :=
  ⟨by decide,
   ((commit_never_sent_for_empty_batch sim.sub sim.sub.ItemCreate Context.Background
      NewService (sim.world [])).2.1 [sim.rec1] (by decide)).1⟩

theorem pollCycle_returned (kfk : Kafka ω) (fn : kafka.kafkaHandler ω) (ctx : Context)
    (s : Stamps) (w : World ω) (err : Option Error) (s' : Stamps) (w' : World ω)
    (h : kfk.pollCycle fn ctx s w = .returned err s' w') :
    (kfk.client.PollFetches ctx w).1.errors ≠ [] ∧
    err = some (pollError (kfk.client.PollFetches ctx w).1.errors) ∧
    s' = s ∧ w' = (kfk.client.PollFetches ctx w).2 := by
  simp only [Kafka.pollCycle] at h
  split at h
  · rename_i hlen
    simp only [Run.returned.injEq] at h
    refine ⟨?_, h.1.symm, h.2.1.symm, h.2.2.symm⟩
    intro hnil
    simp [hnil] at hlen
  · split at h
    · simp at h
    · split at h <;> simp at h

theorem pollCycle_poll_error (kfk : Kafka ω) (fn : kafka.kafkaHandler ω) (ctx : Context)
    (s : Stamps) (w : World ω) (h : (kfk.client.PollFetches ctx w).1.errors ≠ []) :
    kfk.pollCycle fn ctx s w =
      .returned (some (pollError (kfk.client.PollFetches ctx w).1.errors)) s
        (kfk.client.PollFetches ctx w).2 := by
  have hlen : (kfk.client.PollFetches ctx w).1.errors.length > 0 :=
    List.length_pos.mpr h
  simp [Kafka.pollCycle, hlen]

theorem loop_add (kfk : Kafka ω) (fn : kafka.kafkaHandler ω) (ctx : Context) (n m : Nat) :
    ∀ (s : Stamps) (w : World ω), kfk.loop fn ctx (n + m) s w =
      match kfk.loop fn ctx n s w with
      | .looping s' w' => kfk.loop fn ctx m s' w'
      | done => done := by
  induction n with
  | zero => intro s w; simp [Kafka.loop]
  | succ n ih =>
    intro s w
    rw [Nat.succ_add]
    simp only [Kafka.loop]
    cases hc : kfk.pollCycle fn ctx s w with
    | returned err s' w' => rfl
    | panicked v s' w' => rfl
    | looping s' w' => exact ih s' w'

theorem loop_returned (kfk : Kafka ω) (fn : kafka.kafkaHandler ω) (ctx : Context) (n : Nat) :
    ∀ (s : Stamps) (w : World ω) (err : Option Error) (s' : Stamps) (w' : World ω),
      kfk.loop fn ctx n s w = .returned err s' w' →
      ∃ errs : List FetchError, errs ≠ [] ∧ err = some (pollError errs) := by
  induction n with
  | zero => intro s w err s' w' h; simp [Kafka.loop] at h
  | succ n ih =>
    intro s w err s' w' h
    simp only [Kafka.loop] at h
    cases hc : kfk.pollCycle fn ctx s w with
    | returned err1 s1 w1 =>
      rw [hc] at h
      simp only [Run.returned.injEq] at h
      obtain ⟨h1, h2, _, _⟩ := pollCycle_returned kfk fn ctx s w err1 s1 w1 hc
      exact ⟨_, h1, h.1 ▸ h2⟩
    | panicked v s1 w1 => rw [hc] at h; simp at h
    | looping s1 w1 => rw [hc] at h; exact ih s1 w1 err s' w' h

/-- C6, refuted as stated: under a cancelled context the poll reports the context's
error and `Subscribe` returns a non-nil error built from it, not nil. -/
theorem Subscribe_nil_on_cancel_counterexample :
    sim.sub.Subscribe sim.cancelled 1 NewService (sim.world [⟨[], [sim.rec1]⟩]) =
      .returned (some (pollError [⟨"", -1, sim.Canceled⟩])) NewService
        ((sim.world [⟨[], [sim.rec1]⟩]).emit (.polled sim.cancelled)) :=
  rfl

/-- C6, amended: `Subscribe` goes from one poll cycle to the next for as long as polls
report no error (and no handler call panics); when a poll reports errors it returns the
error built from them, whatever the number of cycles still allowed; and that is its only
return, so it never returns nil: a cancellation of the context can end it only through
an error reported by the poll. -/
theorem Subscribe_returns_only_poll_errors (kfk : Kafka ω) (ctx : Context) :
    (∀ (cycles : Nat) (s : Stamps) (w : World ω) (err : Option Error) (s' : Stamps)
        (w' : World ω), kfk.Subscribe ctx cycles s w = .returned err s' w' →
      ∃ errs : List FetchError, errs ≠ [] ∧ err = some (pollError errs)) ∧
    (∀ (n m : Nat) (s : Stamps) (w : World ω) (s' : Stamps) (w' : World ω),
      kfk.Subscribe ctx n s w = .looping s' w' →
      (kfk.client.PollFetches ctx w').1.errors ≠ [] →
      kfk.Subscribe ctx (n + (m + 1)) s w =
        .returned (some (pollError (kfk.client.PollFetches ctx w').1.errors)) s'
          (kfk.client.PollFetches ctx w').2) ∧
    (∀ (n : Nat) (s : Stamps) (w : World ω) (s' : Stamps) (w' : World ω),
      kfk.pollCycle kfk.ItemCreate ctx s w = .looping s' w' →
      kfk.Subscribe ctx (n + 1) s w = kfk.Subscribe ctx n s' w') := by
  refine ⟨?_, ?_, ?_⟩
  · intro cycles s w err s' w' h
    exact loop_returned kfk kfk.ItemCreate ctx cycles s w err s' w' h
  · intro n m s w s' w' hn herr
    simp only [Kafka.Subscribe] at hn ⊢
    rw [loop_add, hn]
    simp only [Kafka.loop, pollCycle_poll_error kfk kfk.ItemCreate ctx s' w' herr]
  · intro n s w s' w' h
    simp only [Kafka.Subscribe, Kafka.loop, h]

/-- C6, amended, on the scripted broker: after one good batch the script is exhausted,
the next poll reports an error, and `Subscribe` returns the error built from it. -/
theorem Subscribe_returns_only_poll_errors_witness :
    sim.sub.Subscribe Context.Background (1 + (2 + 1)) NewService
        (sim.world [⟨[], [sim.rec1]⟩]) =
      .returned (some (pollError [⟨"", -1, .sentinel "client closed"⟩]))
        (sim.sub.Subscribe Context.Background 1 NewService
          (sim.world [⟨[], [sim.rec1]⟩])).stamps
        (sim.kfk.PollFetches Context.Background
          (sim.sub.Subscribe Context.Background 1 NewService
            (sim.world [⟨[], [sim.rec1]⟩])).world).2 :=
  (Subscribe_returns_only_poll_errors sim.sub Context.Background).2.1 1 2 NewService
    (sim.world [⟨[], [sim.rec1]⟩]) _ _ rfl (by decide)

/-- C7: in a poll cycle whose `CommitRecords` returns an error, `Subscribe` logs that
error and the cycle ends with the loop going on: `Subscribe` does not return, and the
next cycle polls and handles from the world the failed commit left. -/
theorem commit_failure_keeps_Subscribe_running (kfk : Kafka ω) (ctx : Context) (n : Nat)
    (s : Stamps) (w : World ω) (commits : List Record) (w1 : World ω) (err : Error)
    (w2 : World ω)
    (hpoll : (kfk.client.PollFetches ctx w).1.errors = [])
    (hrun : kfk.handleRecords ctx kfk.ItemCreate (kfk.client.PollFetches ctx w).1.records []
      (kfk.client.PollFetches ctx w).2 = (.ret commits, w1))
    (hcommit : kfk.client.CommitRecords ctx commits w1 = (some err, w2)) :
    kfk.pollCycle kfk.ItemCreate ctx s w =
      .looping (s.touch (kfk.client.rt.now (kfk.client.PollFetches ctx w).2.ext))
        (w2.emit (.logged err)) ∧
    kfk.Subscribe ctx (n + 1) s w =
      kfk.Subscribe ctx n (s.touch (kfk.client.rt.now (kfk.client.PollFetches ctx w).2.ext))
        (w2.emit (.logged err)) ∧
    kfk.Subscribe ctx (n + 2) s w =
      match kfk.pollCycle kfk.ItemCreate ctx
          (s.touch (kfk.client.rt.now (kfk.client.PollFetches ctx w).2.ext))
          (w2.emit (.logged err)) with
      | .looping s' w' => kfk.Subscribe ctx n s' w'
      | done => done := by
  have hc : kfk.pollCycle kfk.ItemCreate ctx s w =
      .looping (s.touch (kfk.client.rt.now (kfk.client.PollFetches ctx w).2.ext))
        (w2.emit (.logged err)) := by
    simp [Kafka.pollCycle, hpoll, hrun, hcommit]
  refine ⟨hc, ?_, ?_⟩
  · simp only [Kafka.Subscribe, Kafka.loop, hc]
  · simp only [Kafka.Subscribe, Kafka.loop, hc]

/-- C7 on the scripted broker refusing commits: two batches, both commits fail, both
failures are logged, and the record of the second batch is still polled and handled. -/
theorem commit_failure_keeps_Subscribe_running_witness :
    sim.sub.Subscribe Context.Background (1 + 1) NewService
        (sim.worldNoCommit [⟨[], [sim.rec1]⟩, ⟨[], [sim.rec3]⟩]) =
      sim.sub.Subscribe Context.Background 1 (NewService.touch 101)
        ((sim.kfk.CommitRecords Context.Background [sim.rec1]
          (sim.sub.handleRecords Context.Background sim.sub.ItemCreate [sim.rec1] []
            (sim.kfk.PollFetches Context.Background
              (sim.worldNoCommit [⟨[], [sim.rec1]⟩, ⟨[], [sim.rec3]⟩])).2).2).2.emit
          (.logged (.wrap (.sentinel "broker unavailable") "kafka commit failed"))) ∧
    Event.handlerCall Context.Background sim.rec3.value ∈
      (sim.sub.Subscribe Context.Background (1 + 1) NewService
        (sim.worldNoCommit [⟨[], [sim.rec1]⟩, ⟨[], [sim.rec3]⟩])).world.trace :=
  ⟨(commit_failure_keeps_Subscribe_running sim.sub Context.Background 1 NewService
      (sim.worldNoCommit [⟨[], [sim.rec1]⟩, ⟨[], [sim.rec3]⟩]) [sim.rec1] _
      (.wrap (.sentinel "broker unavailable") "kafka commit failed") _
      (by decide) rfl rfl).2.1,
   by decide⟩

theorem handleRecords_returns (kfk : Kafka ω) (ctx : Context) (fn : kafka.kafkaHandler ω)
    (records : List Record) :
    ∀ (acc : List Record) (w : World ω),
      (∀ call ∈ kfk.handlerCalls ctx fn records w, call.2.panicked = false) →
      ∃ (commits : List Record) (w' : World ω),
        kfk.handleRecords ctx fn records acc w = (.ret commits, w') := by
  induction records with
  | nil => intro acc w _; exact ⟨acc, w, rfl⟩
  | cons record iter ih =>
    intro acc w h
    by_cases ht : record.topic = kfk.topicItemCreate
    · simp only [Kafka.handlerCalls, ht, if_true] at h
      simp only [Kafka.handleRecords, ht, if_true]
      have hw := HandleTopic_world_indep kfk.client ctx acc [] record fn w
      rw [HandleTopic_eq] at hw ⊢
      generalize hout : (fn (kfk.client.childCtx ctx record) record.value
        (w.emit (.handlerCall (kfk.client.childCtx ctx record) record.value))).1 = out
        at h hw ⊢
      cases out with
      | panic v => exact absurd (h _ (List.mem_singleton.mpr rfl)) (by simp [Outcome.panicked])
      | ret err =>
        simp only at h
        cases err with
        | some e =>
          simp only at hw ⊢
          exact ih _ _ (fun call hc => h call (List.mem_cons_of_mem _ (hw ▸ hc)))
        | none =>
          simp only at hw ⊢
          exact ih _ _ (fun call hc => h call (List.mem_cons_of_mem _ (hw ▸ hc)))
    · simp only [Kafka.handlerCalls, ht, if_false] at h
      simp only [Kafka.handleRecords, ht, if_false]
      exact ih acc w h

theorem handleRecords_panics (kfk : Kafka ω) (ctx : Context) (fn : kafka.kafkaHandler ω)
    (records : List Record) :
    ∀ (acc : List Record) (w : World ω),
      (∃ call ∈ kfk.handlerCalls ctx fn records w, call.2.panicked = true) →
      ∃ (v : String) (w' : World ω),
        kfk.handleRecords ctx fn records acc w = (.panic v, w') := by
  induction records with
  | nil => intro acc w h; simp [Kafka.handlerCalls] at h
  | cons record iter ih =>
    intro acc w h
    by_cases ht : record.topic = kfk.topicItemCreate
    · simp only [Kafka.handlerCalls, ht, if_true] at h
      simp only [Kafka.handleRecords, ht, if_true]
      have hw := HandleTopic_world_indep kfk.client ctx acc [] record fn w
      rw [HandleTopic_eq] at hw ⊢
      generalize hout : (fn (kfk.client.childCtx ctx record) record.value
        (w.emit (.handlerCall (kfk.client.childCtx ctx record) record.value))).1 = out
        at h hw ⊢
      cases out with
      | panic v => exact ⟨v, _, rfl⟩
      | ret err =>
        simp only at h
        obtain ⟨call, hmem, hv⟩ := h
        rcases List.mem_cons.mp hmem with hc | hc
        · subst hc
          simp [Outcome.panicked] at hv
        · cases err with
          | some e =>
            simp only at hw ⊢
            exact ih _ _ ⟨call, hw ▸ hc, hv⟩
          | none =>
            simp only at hw ⊢
            exact ih _ _ ⟨call, hw ▸ hc, hv⟩
    · simp only [Kafka.handlerCalls, ht, if_false] at h
      simp only [Kafka.handleRecords, ht, if_false]
      exact ih acc w h

/-- C8, refuted as stated: the handler panics on the first record of the first batch;
`Subscribe` unwinds with that panic, the second record of the batch and the record of
the next batch are never passed to the handler, and no second poll takes place. -/
theorem handler_panic_blocks_later_records_counterexample :
    (sim.brittleSub.Subscribe Context.Background 5 NewService
      (sim.world [⟨[], [sim.rec1, sim.rec3]⟩, ⟨[], [sim.rec3]⟩])).world.trace =
      [.polled Context.Background, .handlerCall Context.Background sim.rec1.value,
        .telemetry "items"] ∧
    (∃ (s : Stamps) (w : World sim.Ext),
      sim.brittleSub.Subscribe Context.Background 5 NewService
        (sim.world [⟨[], [sim.rec1, sim.rec3]⟩, ⟨[], [sim.rec3]⟩]) =
          .panicked "assignment to entry in nil map" s w) ∧
    Event.handlerCall Context.Background sim.rec3.value ∉
      (sim.brittleSub.Subscribe Context.Background 5 NewService
        (sim.world [⟨[], [sim.rec1, sim.rec3]⟩, ⟨[], [sim.rec3]⟩])).world.trace :=
  ⟨by decide, ⟨_, _, rfl⟩, by decide⟩

/-- C8, amended: as long as the handler calls of a batch return (with or without an
error), every record of the subscriber's topic in the batch is passed to the handler, in
arrival order, and the cycle ends with the loop going on to the next batch.  A panic of
the handler is not recovered: the record loop, the cycle and the whole loop end with it,
and no later record is passed to the handler. -/
theorem handler_error_does_not_block_later_records (kfk : Kafka ω)
    (fn : kafka.kafkaHandler ω) (ctx : Context) :
    (∀ (records acc : List Record) (w : World ω),
      (∀ call ∈ kfk.handlerCalls ctx fn records w, call.2.panicked = false) →
      (∃ (commits : List Record) (w' : World ω),
        kfk.handleRecords ctx fn records acc w = (.ret commits, w')) ∧
      (kfk.handlerCalls ctx fn records w).map Prod.fst =
        records.filter (fun r => decide (r.topic = kfk.topicItemCreate))) ∧
    (∀ (n : Nat) (s : Stamps) (w : World ω),
      (kfk.client.PollFetches ctx w).1.errors = [] →
      (∀ call ∈ kfk.handlerCalls ctx fn (kfk.client.PollFetches ctx w).1.records
        (kfk.client.PollFetches ctx w).2, call.2.panicked = false) →
      ∃ w' : World ω,
        kfk.pollCycle fn ctx s w =
          .looping (s.touch (kfk.client.rt.now (kfk.client.PollFetches ctx w).2.ext)) w' ∧
        kfk.loop fn ctx (n + 1) s w =
          kfk.loop fn ctx n
            (s.touch (kfk.client.rt.now (kfk.client.PollFetches ctx w).2.ext)) w') ∧
    (∀ (n : Nat) (s : Stamps) (w : World ω),
      (kfk.client.PollFetches ctx w).1.errors = [] →
      (∃ call ∈ kfk.handlerCalls ctx fn (kfk.client.PollFetches ctx w).1.records
        (kfk.client.PollFetches ctx w).2, call.2.panicked = true) →
      ∃ (v : String) (w' : World ω),
        kfk.loop fn ctx (n + 1) s w =
          .panicked v (s.touch (kfk.client.rt.now (kfk.client.PollFetches ctx w).2.ext))
            w') := by
  refine ⟨?_, ?_, ?_⟩
  · intro records acc w h
    obtain ⟨commits, w', hrun⟩ := handleRecords_returns kfk ctx fn records acc w h
    exact ⟨⟨commits, w', hrun⟩, (handleRecords_spec kfk ctx fn records acc w commits w' hrun).2⟩
  · intro n s w hpoll h
    obtain ⟨commits, w1, hrun⟩ := handleRecords_returns kfk ctx fn _ [] _ h
    have hc := pollCycle_handled kfk fn ctx s w commits w1 hpoll hrun
    generalize hcm : kfk.client.CommitRecords ctx commits w1 = cm at hc
    obtain ⟨e, w2⟩ := cm
    cases e with
    | some err =>
      simp only at hc
      exact ⟨_, hc, by simp only [Kafka.loop, hc]⟩
    | none =>
      simp only at hc
      exact ⟨_, hc, by simp only [Kafka.loop, hc]⟩
  · intro n s w hpoll h
    obtain ⟨v, w1, hrun⟩ := handleRecords_panics kfk ctx fn _ [] _ h
    refine ⟨v, w1, ?_⟩
    simp [Kafka.loop, Kafka.pollCycle, hpoll, hrun]

/-- C8, amended, on the scripted broker: the handler returns an error on the first
record of the batch (invalid ID); the second record is passed to the handler all the
same. -/
theorem handler_error_does_not_block_later_records_witness :
    (sim.sub.handlerCalls Context.Background sim.sub.ItemCreate
      [sim.invalidRec, sim.otherRec, sim.rec3] (sim.world [])).map Prod.fst =
      [sim.invalidRec, sim.rec3] :=
  ((handler_error_does_not_block_later_records sim.sub sim.sub.ItemCreate
    Context.Background).1 [sim.invalidRec, sim.otherRec, sim.rec3] [] (sim.world [])
    (by decide)).2

end consumer

section exit

open cmd

/-- The exit code of `recoverer` with no panic in flight, for every content of `errExit`:
0 when it is nil or is the clean-quit sentinel, 3 otherwise. -/
theorem recoverer_exit_code (ErrSigQuit : Error) (errExit : Option Error) :
    (recoverer ErrSigQuit .nil errExit).exitCode =
      if errExit = none ∨ errorsIs errExit ErrSigQuit = true then 0 else 3 := by
  cases errExit with
  | none => simp [recoverer, errorsIs]
  | some e =>
    by_cases h : errorsIs (some e) ErrSigQuit = true
    · simp [recoverer, h]
    · simp [recoverer, h]

/-- C5: for every value `main` receives from the fatal-error channel, with no panic in
flight, `recoverer` exits with code 0 when the value is the clean-quit sentinel
(`errors.Is(value, ErrSigQuit)`) and with code 3, so not 0, for every other value.  A
received value is an error that is not nil: before the receive the senders are
`HTTP.Start` and `ListenAndServe` (never nil), `Subscribe` (it returns poll errors only),
`GRPC.Start` (nil only after `GracefulStop`, which is called after the receive) and the
signal notifier. -/
theorem received_value_decides_exit_code (ErrSigQuit value : Error) :
    (errorsIs (some value) ErrSigQuit = true →
      (recoverer ErrSigQuit .nil (some value)).exitCode = 0) ∧
    (errorsIs (some value) ErrSigQuit = false →
      (recoverer ErrSigQuit .nil (some value)).exitCode = 3 ∧
      (recoverer ErrSigQuit .nil (some value)).exitCode ≠ 0) := by
  constructor
  · intro h
    simp [recoverer, h]
  · intro h
    simp [recoverer, h]

end exit

namespace cmd

theorem Before.nil {α : Type} (P : α → Bool) (Q : List α → Prop) : Before P Q [] := by
  intro pre e post h
  simp at h

theorem Before.snoc {α : Type} {P : α → Bool} {Q : List α → Prop} {tr : List α} {e : α}
    (h : Before P Q tr) (he : P e = true → Q tr) : Before P Q (tr ++ [e]) := by
  intro pre x post hsplit hx
  rcases List.eq_nil_or_concat post with hp | ⟨post', z, hp⟩
  · subst hp
    have := List.append_inj' hsplit rfl
    simp only [List.cons.injEq, and_true] at this
    obtain ⟨h1, h2⟩ := this
    subst h1 h2
    exact he hx
  · subst hp
    have h2 : tr ++ [e] = (pre ++ x :: post') ++ [z] := by simpa using hsplit
    have := List.append_inj' h2 rfl
    exact h pre x post' this.1 hx

theorem Before.skip {α : Type} {P : α → Bool} {Q : List α → Prop} {tr : List α} {e : α}
    (h : Before P Q tr) (he : P e = false) : Before P Q (tr ++ [e]) :=
  h.snoc (fun hp => by simp [he] at hp)

theorem replay_snoc (tr : List (Tid × Op)) (e : Tid × Op) :
    replay (tr ++ [e]) = (replay tr).apply e.2 := by
  simp [replay, List.foldl_append]

theorem mainCode_eq (env : Env) : mainCode env =
    [.setNotReady true, .setNotStarted true, .setNotLive true, .probeStop,
      .appendHealth "shutdown" "initiated:", .sleep (3 * Second),
      .logInfo "initiating shutdown", .appendHealth "shutdown" "initiated",
      .wgAdd, .go .http, .wgAdd, .go .grpc, .wgAdd, .go .kafka, .wgWait,
      .wgAdd, .go .mongo, .wgAdd, .go .apm, .wgWait, .healthStart, .healthEnd, .cancel,
      .exit (recoverer env.ErrSigQuit .nil env.errExit).exitCode] := rfl

theorem doneI_cases (n : Nat) : (doneI n = 0 ∧ n ≤ 3) ∨ (doneI n = 1 ∧ 3 < n) := by
  unfold doneI
  split <;> omega

theorem step_main_stuck (env : Env) (st : Proc)
    (h : ¬ (st.exited = false ∧ st.pcMain < 24)) : step env st .main = st := by
  by_cases hex : st.exited = true
  · simp [step, hex]
  · have hk : 24 ≤ st.pcMain := by
      by_contra hlt
      exact h ⟨by simpa using hex, by omega⟩
    have : (mainCode env)[st.pcMain]? = none := by
      rw [mainCode_eq]; exact List.getElem?_eq_none (by simpa using hk)
    simp [step, Proc.next, this]

theorem Inv.flagsSet {env : Env} {st : Proc} (h : Inv env st) (h3 : 3 ≤ st.pcMain) :
    flagsSet st.trace := by
  have h1 := h.ready (by omega)
  have h2 := h.started (by omega)
  have h3 := h.live h3
  have h4 := h.synced
  refine ⟨h1.1, h2.1, h3.1, ?_, ?_, ?_⟩
  · rw [← h4]; exact h1.2
  · rw [← h4]; exact h2.2
  · rw [← h4]; exact h3.2

theorem Inv.apisDone {env : Env} {st : Proc} (h : Inv env st) (h14 : 14 < st.pcMain) :
    apisDone env st.trace := by
  intro t ht
  have := h.joined h14 t ht
  exact ⟨h.ended t (by omega), h.released t this⟩

theorem step_main_spawned_iff (env : Env) (st : Proc) (h : Inv env st)
    (hex : st.exited = false) (hk : st.pcMain < 24) (t : Task) :
    (step env st .main).spawned t = true ↔ goPos t < (step env st .main).pcMain := by
  have h1 := h.spawned_iff t
  obtain ⟨pcMain, pc, spawned, wg, exited, probe, trace⟩ := st
  simp only at hex hk
  subst hex
  interval_cases pcMain <;>
    simp [step, Proc.next, mainCode_eq, Proc.effect, Proc.advance, emitted] <;>
    (try split) <;>
    cases t <;> simp_all [goPos, Function.update_apply]

theorem step_main_idle (env : Env) (st : Proc) (h : Inv env st)
    (hex : st.exited = false) (hk : st.pcMain < 24) (t : Task) :
    (step env st .main).spawned t = false → (step env st .main).pc t = 0 := by
  have h1 := h.idle t
  obtain ⟨pcMain, pc, spawned, wg, exited, probe, trace⟩ := st
  simp only at hex hk
  subst hex
  interval_cases pcMain <;>
    simp [step, Proc.next, mainCode_eq, Proc.effect, Proc.advance, emitted] <;>
    (try split) <;>
    cases t <;> simp_all [Function.update_apply]

theorem step_main_count (env : Env) (st : Proc) (h : Inv env st)
    (hex : st.exited = false) (hk : st.pcMain < 24) :
    (step env st .main).wg + doneI ((step env st .main).pc .http) +
      doneI ((step env st .main).pc .grpc) + doneI ((step env st .main).pc .kafka) +
      doneI ((step env st .main).pc .mongo) + doneI ((step env st .main).pc .apm) =
    addI .http (step env st .main).pcMain + addI .grpc (step env st .main).pcMain +
      addI .kafka (step env st .main).pcMain + addI .mongo (step env st .main).pcMain +
      addI .apm (step env st .main).pcMain := by
  have h1 := h.count
  obtain ⟨pcMain, pc, spawned, wg, exited, probe, trace⟩ := st
  simp only at hex hk
  subst hex
  interval_cases pcMain <;>
    simp [step, Proc.next, mainCode_eq, Proc.effect, Proc.advance, emitted] <;>
    (try split) <;>
    simp [addI, goPos] at h1 ⊢ <;> omega


theorem doneI_zero : doneI 0 = 0 := rfl

theorem step_main_joined (env : Env) (st : Proc) (h : Inv env st)
    (hex : st.exited = false) (hk : st.pcMain < 24) :
    14 < (step env st .main).pcMain → ∀ t : Task, t.api = true →
      3 < (step env st .main).pc t := by
  have h1 := h.joined
  have h2 := h.count
  have hm := h.idle .mongo
  have ha := h.idle .apm
  have sm := h.spawned_iff .mongo
  have sa := h.spawned_iff .apm
  obtain ⟨pcMain, pc, spawned, wg, exited, probe, trace⟩ := st
  simp only at hex hk
  subst hex
  interval_cases pcMain <;>
    simp [step, Proc.next, mainCode_eq, Proc.effect, Proc.advance, emitted] <;>
    (try split) <;>
    (try simp at h1) <;> (try exact h1)
  all_goals
    simp [addI, goPos] at h2 hm ha sm sa ⊢
    try
      intro t ht
      first
      | exact h1 t ht
      | (rename_i hwg
         subst hwg
         simp [hm sm, ha sa, doneI_zero] at h2
         rcases doneI_cases (pc .http) with c1 | c1 <;>
           rcases doneI_cases (pc .grpc) with c2 | c2 <;>
           rcases doneI_cases (pc .kafka) with c3 | c3 <;>
           cases t <;> simp [Task.api] at ht <;> omega)

theorem step_main_synced (env : Env) (st : Proc) (h : Inv env st)
    (hex : st.exited = false) (hk : st.pcMain < 24) :
    (step env st .main).probe = replay (step env st .main).trace := by
  have h1 := h.synced
  obtain ⟨pcMain, pc, spawned, wg, exited, probe, trace⟩ := st
  simp only at hex hk h1
  subst hex
  interval_cases pcMain <;>
    simp [step, Proc.next, mainCode_eq, Proc.effect, Proc.advance, emitted] <;>
    (try split) <;>
    simp [replay_snoc, ← h1, ProbeResponder.apply]

theorem step_main_ready (env : Env) (st : Proc) (h : Inv env st)
    (hex : st.exited = false) (hk : st.pcMain < 24) :
    1 ≤ (step env st .main).pcMain →
      (Tid.main, Op.setNotReady true) ∈ (step env st .main).trace ∧
      (step env st .main).probe.notReady = true := by
  have h1 := h.ready
  obtain ⟨pcMain, pc, spawned, wg, exited, probe, trace⟩ := st
  simp only at hex hk h1
  subst hex
  interval_cases pcMain <;>
    simp [step, Proc.next, mainCode_eq, Proc.effect, Proc.advance, emitted] <;>
    (try split) <;>
    simp_all [ProbeResponder.apply]

theorem step_main_started (env : Env) (st : Proc) (h : Inv env st)
    (hex : st.exited = false) (hk : st.pcMain < 24) :
    2 ≤ (step env st .main).pcMain →
      (Tid.main, Op.setNotStarted true) ∈ (step env st .main).trace ∧
      (step env st .main).probe.notStarted = true := by
  have h1 := h.started
  obtain ⟨pcMain, pc, spawned, wg, exited, probe, trace⟩ := st
  simp only at hex hk h1
  subst hex
  interval_cases pcMain <;>
    simp [step, Proc.next, mainCode_eq, Proc.effect, Proc.advance, emitted] <;>
    (try split) <;>
    simp_all [ProbeResponder.apply]

theorem step_main_live (env : Env) (st : Proc) (h : Inv env st)
    (hex : st.exited = false) (hk : st.pcMain < 24) :
    3 ≤ (step env st .main).pcMain →
      (Tid.main, Op.setNotLive true) ∈ (step env st .main).trace ∧
      (step env st .main).probe.notLive = true := by
  have h1 := h.live
  obtain ⟨pcMain, pc, spawned, wg, exited, probe, trace⟩ := st
  simp only at hex hk h1
  subst hex
  interval_cases pcMain <;>
    simp [step, Proc.next, mainCode_eq, Proc.effect, Proc.advance, emitted] <;>
    (try split) <;>
    simp_all [ProbeResponder.apply]

theorem step_main_waited (env : Env) (st : Proc) (h : Inv env st)
    (hex : st.exited = false) (hk : st.pcMain < 24) :
    14 < (step env st .main).pcMain → (Tid.main, Op.wgWait) ∈ (step env st .main).trace := by
  have h1 := h.waited
  obtain ⟨pcMain, pc, spawned, wg, exited, probe, trace⟩ := st
  simp only at hex hk h1
  subst hex
  interval_cases pcMain <;>
    simp [step, Proc.next, mainCode_eq, Proc.effect, Proc.advance, emitted] <;>
    (try split) <;>
    simp_all

theorem step_main_ended (env : Env) (st : Proc) (h : Inv env st)
    (hex : st.exited = false) (hk : st.pcMain < 24) (t : Task) :
    2 < (step env st .main).pc t →
      (Tid.task t, Op.callEnd t (env.result t)) ∈ (step env st .main).trace := by
  have h1 := h.ended t
  obtain ⟨pcMain, pc, spawned, wg, exited, probe, trace⟩ := st
  simp only at hex hk h1
  subst hex
  interval_cases pcMain <;>
    simp [step, Proc.next, mainCode_eq, Proc.effect, Proc.advance, emitted] <;>
    (try split) <;>
    simp_all

theorem step_main_released (env : Env) (st : Proc) (h : Inv env st)
    (hex : st.exited = false) (hk : st.pcMain < 24) (t : Task) :
    3 < (step env st .main).pc t →
      (Tid.task t, Op.wgDone) ∈ (step env st .main).trace := by
  have h1 := h.released t
  obtain ⟨pcMain, pc, spawned, wg, exited, probe, trace⟩ := st
  simp only at hex hk h1
  subst hex
  interval_cases pcMain <;>
    simp [step, Proc.next, mainCode_eq, Proc.effect, Proc.advance, emitted] <;>
    (try split) <;>
    simp_all


theorem flagsSet_snoc {tr : List (Tid × Op)} {e : Tid × Op} (h : flagsSet tr)
    (he : ∀ p : ProbeResponder, (p.apply e.2).notReady = p.notReady ∧
      (p.apply e.2).notStarted = p.notStarted ∧ (p.apply e.2).notLive = p.notLive) :
    flagsSet (tr ++ [e]) := by
  obtain ⟨h1, h2, h3, h4, h5, h6⟩ := h
  have := he (replay tr)
  refine ⟨List.mem_append_left _ h1, List.mem_append_left _ h2, List.mem_append_left _ h3,
    ?_, ?_, ?_⟩ <;> rw [replay_snoc] <;> simp [this, h4, h5, h6]

theorem apisDone_append {env : Env} {tr : List (Tid × Op)} (l : List (Tid × Op))
    (h : apisDone env tr) : apisDone env (tr ++ l) := by
  intro t ht
  exact ⟨List.mem_append_left _ (h t ht).1, List.mem_append_left _ (h t ht).2⟩

theorem step_main_apiAfterFlags (env : Env) (st : Proc) (h : Inv env st)
    (hex : st.exited = false) (hk : st.pcMain < 24) :
    Before apiPhase flagsSet (step env st .main).trace := by
  have h1 := h.apiAfterFlags
  have h2 := h.flagsSet
  obtain ⟨pcMain, pc, spawned, wg, exited, probe, trace⟩ := st
  simp only at hex hk h1 h2
  subst hex
  interval_cases pcMain <;>
    simp [step, Proc.next, mainCode_eq, Proc.effect, Proc.advance, emitted] <;>
    (try split) <;>
    first
    | exact h1
    | exact h1.skip rfl
    | (have hh := h2 (by decide)
       exact h1.snoc (fun _ => hh))

theorem step_main_depAfterApis (env : Env) (st : Proc) (h : Inv env st)
    (hex : st.exited = false) (hk : st.pcMain < 24) :
    Before (fun e => depPhase e || decide (e = (Tid.main, Op.wgWait))) (apisDone env)
      (step env st .main).trace := by
  have h1 := h.depAfterApis
  have h2 := h.apisDone
  have h3 := step_main_joined env st h hex hk
  have h4 := h.ended
  have h5 := h.released
  obtain ⟨pcMain, pc, spawned, wg, exited, probe, trace⟩ := st
  simp only at hex hk h1 h2 h4 h5
  subst hex
  interval_cases pcMain <;>
    simp [step, Proc.next, mainCode_eq, Proc.effect, Proc.advance, emitted] at h3 ⊢ <;>
    (try split) <;>
    first
    | exact h1
    | exact h1.skip rfl
    | (have hh := h2 (by decide)
       exact h1.snoc (fun _ => hh))
    | (rename_i hwg
       simp [hwg] at h3
       exact h1.snoc (fun _ t ht =>
         ⟨h4 t (Nat.lt_of_succ_lt (h3 t ht)), h5 t (h3 t ht)⟩))

theorem step_main_depAfterWait (env : Env) (st : Proc) (h : Inv env st)
    (hex : st.exited = false) (hk : st.pcMain < 24) :
    Before depPhase (fun pre => (Tid.main, Op.wgWait) ∈ pre) (step env st .main).trace := by
  have h1 := h.depAfterWait
  have h2 := h.waited
  obtain ⟨pcMain, pc, spawned, wg, exited, probe, trace⟩ := st
  simp only at hex hk h1 h2
  subst hex
  interval_cases pcMain <;>
    simp [step, Proc.next, mainCode_eq, Proc.effect, Proc.advance, emitted] <;>
    (try split) <;>
    first
    | exact h1
    | exact h1.skip rfl
    | (have hh := h2 (by decide)
       exact h1.snoc (fun _ => hh))


theorem taskCode_cases (env : Env) (t : Task) (k : Nat) (op : Op)
    (h : (taskCode env t)[k]? = some op) :
    (k = 0 ∧ op = .appendHealth t.key "initiated") ∨ (k = 1 ∧ op = .callStart t) ∨
    (k = 2 ∧ op = .callEnd t (env.result t)) ∨ (k = 3 ∧ op = .wgDone) ∨
    (k = 4 ∧ op = .appendHealth t.key "completed") := by
  have hk : k < 5 := by
    by_contra hge
    have : (taskCode env t)[k]? = none :=
      List.getElem?_eq_none (by simp [taskCode]; omega)
    rw [this] at h
    exact Option.noConfusion h
  interval_cases k <;> simp [taskCode] at h <;> simp [h]

theorem emitted_eq (tid : Tid) (op : Op) :
    emitted tid op = [(tid, op)] ∨ ∃ err : Error, emitted tid op = [(tid, op), (tid, .logErr err)] := by
  cases op <;> try (left; rfl)
  rename_i t err
  cases err with
  | none => left; rfl
  | some e =>
    cases hl : t.logs
    · left; simp [emitted, hl]
    · right; exact ⟨e, by simp [emitted, hl]⟩

theorem mem_emitted (tid : Tid) (op : Op) : (tid, op) ∈ emitted tid op := by
  rcases emitted_eq tid op with h | ⟨err, h⟩ <;> simp [h]

theorem replay_emitted (tr : List (Tid × Op)) (tid : Tid) (op : Op) :
    replay (tr ++ emitted tid op) = (replay tr).apply op := by
  rcases emitted_eq tid op with h | ⟨err, h⟩
  · rw [h, replay_snoc]
  · rw [h, show tr ++ [(tid, op), (tid, Op.logErr err)] =
      (tr ++ [(tid, op)]) ++ [(tid, Op.logErr err)] by simp, replay_snoc, replay_snoc]
    rfl

theorem Before.emitted {P : Tid × Op → Bool} {Q : List (Tid × Op) → Prop}
    {tr : List (Tid × Op)} {tid : Tid} {op : Op} (h : Before P Q tr)
    (hq : ∀ o : Op, P (tid, o) = true → Q tr) (hmono : Q tr → Q (tr ++ [(tid, op)])) :
    Before P Q (tr ++ emitted tid op) := by
  rcases emitted_eq tid op with he | ⟨err, he⟩
  · rw [he]
    exact h.snoc (hq op)
  · rw [he, show tr ++ [(tid, op), (tid, Op.logErr err)] =
      (tr ++ [(tid, op)]) ++ [(tid, Op.logErr err)] by simp]
    exact (h.snoc (hq op)).snoc (fun hp => hmono (hq _ hp))

theorem step_task_stuck (env : Env) (st : Proc) (t : Task)
    (h : st.exited = true ∨ st.spawned t = false ∨ (taskCode env t)[st.pc t]? = none) :
    step env st (.task t) = st := by
  rcases h with h | h | h
  · simp [step, h]
  · simp [step, Proc.next, h]
  · simp only [step, Proc.next, h]
    split <;> simp

theorem step_task_eq (env : Env) (st : Proc) (t : Task) (op : Op)
    (hex : st.exited = false) (hs : st.spawned t = true)
    (hop : (taskCode env t)[st.pc t]? = some op) :
    step env st (.task t) =
      { st with
        pc := Function.update st.pc t (st.pc t + 1)
        wg := if op = .wgDone then st.wg - 1 else st.wg
        probe := st.probe.apply op
        trace := st.trace ++ emitted (.task t) op } := by
  rcases taskCode_cases env t _ op hop with ⟨_, h⟩ | ⟨_, h⟩ | ⟨_, h⟩ | ⟨_, h⟩ | ⟨_, h⟩ <;>
    subst h <;> simp [step, Proc.next, hex, hs, hop, Proc.effect, Proc.advance]


theorem doneI_le_one (n : Nat) : doneI n ≤ 1 := by
  unfold doneI
  split <;> omega

theorem Inv.done_le_add {env : Env} {st : Proc} (h : Inv env st) (u : Task) :
    doneI (st.pc u) ≤ addI u st.pcMain := by
  cases hs : st.spawned u
  · rw [h.idle u hs]
    exact Nat.zero_le _
  · have := (h.spawned_iff u).mp hs
    have h1 : addI u st.pcMain = 1 := by
      unfold addI
      rw [if_pos (by omega)]
    rw [h1]
    exact doneI_le_one _

theorem Inv.step_task {env : Env} {st : Proc} (h : Inv env st) (t : Task) :
    Inv env (step env st (.task t)) := by
  by_cases hrun : st.exited = true ∨ st.spawned t = false ∨
      (taskCode env t)[st.pc t]? = none
  · rw [step_task_stuck env st t hrun]
    exact h
  · simp only [not_or] at hrun
    obtain ⟨hex, hs, hop⟩ := hrun
    have hex : st.exited = false := by simpa using hex
    have hs : st.spawned t = true := by simpa using hs
    obtain ⟨op, hop⟩ := Option.ne_none_iff_exists'.mp hop
    rw [step_task_eq env st t op hex hs hop]
    have hgo : goPos t < st.pcMain := (h.spawned_iff t).mp hs
    have hgo9 : 9 ≤ goPos t := by cases t <;> simp [goPos]
    have hcases := taskCode_cases env t _ op hop
    have hharm : ∀ p : ProbeResponder, (p.apply op).notReady = p.notReady ∧
        (p.apply op).notStarted = p.notStarted ∧ (p.apply op).notLive = p.notLive := by
      intro p
      rcases hcases with ⟨_, ho⟩ | ⟨_, ho⟩ | ⟨_, ho⟩ | ⟨_, ho⟩ | ⟨_, ho⟩ <;>
        subst ho <;> simp [ProbeResponder.apply]
    have hdep : ∀ o : Op, (depPhase (Tid.task t, o) ||
        decide ((Tid.task t, o) = (Tid.main, Op.wgWait))) = true → 14 < st.pcMain := by
      intro o hp
      cases t <;> simp [depPhase, Task.api] at hp <;> simp [goPos] at hgo <;> omega
    refine ⟨h.spawned_iff, ?_, ?_, ?_, ?_, ?_, ?_, ?_, ?_, ?_, ?_, ?_, ?_, ?_⟩
    · intro u hu
      have hne : u ≠ t := by
        rintro rfl
        simp [hs] at hu
      simp only [Function.update_apply, hne, if_false]
      exact h.idle u hu
    · have l1 := h.done_le_add .http
      have l2 := h.done_le_add .grpc
      have l3 := h.done_le_add .kafka
      have l4 := h.done_le_add .mongo
      have l5 := h.done_le_add .apm
      have hadd : addI t st.pcMain = 1 := by
        unfold addI
        rw [if_pos (by omega)]
      have hc := h.count
      have d0 : doneI 0 = 0 := rfl
      have d1 : doneI 1 = 0 := rfl
      have d2 : doneI 2 = 0 := rfl
      have d3 : doneI 3 = 0 := rfl
      have d4 : doneI 4 = 1 := rfl
      have d5 : doneI 5 = 1 := rfl
      rcases hcases with ⟨hk, ho⟩ | ⟨hk, ho⟩ | ⟨hk, ho⟩ | ⟨hk, ho⟩ | ⟨hk, ho⟩ <;>
        subst ho <;> cases t <;>
        simp [Function.update_apply, hk, d0, d1, d2, d3, d4, d5] at l1 l2 l3 l4 l5 hadd hc ⊢ <;>
        omega
    · intro h14 u hu
      have := h.joined h14 u hu
      by_cases hut : u = t
      · subst hut
        simp only [Function.update_same]
        omega
      · simp only [Function.update_apply, hut, if_false]
        exact this
    · show st.probe.apply op = replay (st.trace ++ emitted (Tid.task t) op)
      rw [replay_emitted, ← h.synced]
    · intro h1
      have := h.ready h1
      exact ⟨List.mem_append_left _ this.1, by rw [(hharm _).1]; exact this.2⟩
    · intro h1
      have := h.started h1
      exact ⟨List.mem_append_left _ this.1, by rw [(hharm _).2.1]; exact this.2⟩
    · intro h1
      have := h.live h1
      exact ⟨List.mem_append_left _ this.1, by rw [(hharm _).2.2]; exact this.2⟩
    · intro h14
      exact List.mem_append_left _ (h.waited h14)
    · intro u hu
      by_cases hut : u = t
      · subst hut
        simp only [Function.update_same] at hu
        rcases hcases with ⟨hk, ho⟩ | ⟨hk, ho⟩ | ⟨hk, ho⟩ | ⟨hk, ho⟩ | ⟨hk, ho⟩
        · omega
        · omega
        · subst ho
          exact List.mem_append_right _ (mem_emitted _ _)
        · exact List.mem_append_left _ (h.ended u (by omega))
        · exact List.mem_append_left _ (h.ended u (by omega))
      · simp only [Function.update_apply, hut, if_false] at hu
        exact List.mem_append_left _ (h.ended u hu)
    · intro u hu
      by_cases hut : u = t
      · subst hut
        simp only [Function.update_same] at hu
        rcases hcases with ⟨hk, ho⟩ | ⟨hk, ho⟩ | ⟨hk, ho⟩ | ⟨hk, ho⟩ | ⟨hk, ho⟩
        · omega
        · omega
        · omega
        · subst ho
          exact List.mem_append_right _ (mem_emitted _ _)
        · exact List.mem_append_left _ (h.released u (by omega))
      · simp only [Function.update_apply, hut, if_false] at hu
        exact List.mem_append_left _ (h.released u hu)
    · exact h.apiAfterFlags.emitted (fun _ _ => h.flagsSet (by omega))
        (fun hq => flagsSet_snoc hq hharm)
    · exact h.depAfterApis.emitted (fun o hp => h.apisDone (hdep o hp))
        (apisDone_append _)
    · exact h.depAfterWait.emitted
        (fun o hp => h.waited (hdep o (by simp [hp])))
        (fun hq => List.mem_append_left _ hq)

theorem Inv.step_main {env : Env} {st : Proc} (h : Inv env st) :
    Inv env (step env st .main) := by
  by_cases hrun : st.exited = false ∧ st.pcMain < 24
  · obtain ⟨hex, hk⟩ := hrun
    exact ⟨step_main_spawned_iff env st h hex hk, step_main_idle env st h hex hk,
      step_main_count env st h hex hk, step_main_joined env st h hex hk,
      step_main_synced env st h hex hk, step_main_ready env st h hex hk,
      step_main_started env st h hex hk, step_main_live env st h hex hk,
      step_main_waited env st h hex hk, step_main_ended env st h hex hk,
      step_main_released env st h hex hk, step_main_apiAfterFlags env st h hex hk,
      step_main_depAfterApis env st h hex hk, step_main_depAfterWait env st h hex hk⟩
  · rw [step_main_stuck env st hrun]
    exact h

theorem inv_init (env : Env) : Inv env Proc.init := by
  refine ⟨?_, ?_, ?_, ?_, ?_, ?_, ?_, ?_, ?_, ?_, ?_, ?_, ?_, ?_⟩
  · intro t
    cases t <;> simp [Proc.init, goPos]
  · intro t _
    rfl
  · simp [Proc.init, doneI, addI, goPos]
  · intro h
    simp [Proc.init] at h
  · rfl
  · intro h
    simp [Proc.init] at h
  · intro h
    simp [Proc.init] at h
  · intro h
    simp [Proc.init] at h
  · intro h
    simp [Proc.init] at h
  · intro t h
    simp [Proc.init] at h
  · intro t h
    simp [Proc.init] at h
  · exact Before.nil _ _
  · exact Before.nil _ _
  · exact Before.nil _ _

theorem inv_step {env : Env} {st : Proc} (h : Inv env st) (tid : Tid) :
    Inv env (step env st tid) := by
  cases tid with
  | main => exact h.step_main
  | task t => exact h.step_task t

theorem inv_foldl {env : Env} (sched : List Tid) :
    ∀ st : Proc, Inv env st → Inv env (sched.foldl (step env) st) := by
  induction sched with
  | nil => intro st h; exact h
  | cons tid rest ih => intro st h; exact ih _ (inv_step h tid)

theorem inv_run (env : Env) (sched : List Tid) : Inv env (run env sched) :=
  inv_foldl sched _ (inv_init env)

/-- C10: under every schedule of the goroutines, when `main` gets past a
`wgroup.Wait()` (so when `shutdownAPIs` returns), and at every step of the dependency
phase (`main` starting the MongoDB or APM goroutine, or any step of such a goroutine),
the shutdown call of each of the three API tasks has returned and its goroutine has
called `wgroup.Done()`; and every step of the dependency phase comes after `main` got
past the `wgroup.Wait()` of `shutdownAPIs`. -/
theorem dependencies_start_after_apis_done (env : Env) (sched : List Tid)
    (pre : List (Tid × Op)) (e : Tid × Op) (post : List (Tid × Op))
    (hsplit : (run env sched).trace = pre ++ e :: post)
    (he : depPhase e = true ∨ e = (Tid.main, Op.wgWait)) :
    (∀ t : Task, t.api = true →
      (Tid.task t, Op.callEnd t (env.result t)) ∈ pre ∧ (Tid.task t, Op.wgDone) ∈ pre) ∧
    (depPhase e = true → (Tid.main, Op.wgWait) ∈ pre) := by
  refine ⟨(inv_run env sched).depAfterApis pre e post hsplit ?_,
    fun hd => (inv_run env sched).depAfterWait pre e post hsplit hd⟩
  rcases he with he | he
  · simp [he]
  · simp [he]

/-- C10 at a schedule that runs `main` up to `wgroup.Wait()`, then the three API
goroutines, then `main` up to `go` of the MongoDB task: before that step each API call
has returned, each API goroutine has called `Done`, and `main` got past the `Wait`. -/
theorem dependencies_start_after_apis_done_witness :
    (∀ t : Task, t.api = true →
      (Tid.task t, Op.callEnd t (sampleEnv.result t)) ∈ (run sampleEnv sampleSched).trace ∧
      (Tid.task t, Op.wgDone) ∈ (run sampleEnv sampleSched).trace) ∧
    (Tid.main, Op.wgWait) ∈ (run sampleEnv sampleSched).trace :=
  ⟨(dependencies_start_after_apis_done sampleEnv (sampleSched ++ [.main])
      (run sampleEnv sampleSched).trace (.main, .go .mongo) [] (by decide)
      (Or.inl rfl)).1,
   (dependencies_start_after_apis_done sampleEnv (sampleSched ++ [.main])
      (run sampleEnv sampleSched).trace (.main, .go .mongo) [] (by decide)
      (Or.inl rfl)).2 rfl⟩

theorem mem_emitted_iff (tid : Tid) (op : Op) (e : Tid × Op) :
    e ∈ emitted tid op ↔ e = (tid, op) ∨
      ∃ (t : Task) (err : Error), op = .callEnd t (some err) ∧ t.logs = true ∧
        e = (tid, .logErr err) := by
  cases op <;> try (simp [emitted]; done)
  rename_i t err
  cases err with
  | none => simp [emitted]
  | some err =>
    cases hl : t.logs
    · simp [emitted, hl]
    · simp only [emitted, hl, if_true, List.mem_cons, List.mem_singleton, List.not_mem_nil,
        or_false]
      constructor
      · rintro (h | h)
        · exact Or.inl h
        · exact Or.inr ⟨t, err, rfl, hl, h⟩
      · rintro (h | ⟨t1, e1, h1, _, h⟩)
        · exact Or.inl h
        · simp only [Op.callEnd.injEq, Option.some.injEq] at h1
          obtain ⟨_, rfl⟩ := h1
          exact Or.inr h

theorem step_trace (env : Env) (st : Proc) (tid : Tid) :
    (step env st tid).trace = st.trace ∨
      ∃ op : Op, st.next env tid = some op ∧
        (step env st tid).trace = st.trace ++ emitted tid op := by
  by_cases hex : st.exited = true
  · left
    simp [step, hex]
  · cases hn : st.next env tid with
    | none =>
      left
      simp [step, hex, hn]
    | some op =>
      by_cases hw : op = .wgWait
      · subst hw
        by_cases hz : st.wg = 0
        · right
          refine ⟨_, rfl, ?_⟩
          cases tid <;> simp [step, hex, hn, hz, Proc.advance, emitted]
        · left
          simp [step, hex, hn, hz]
      · right
        refine ⟨op, rfl, ?_⟩
        cases op <;>
          first
          | exact absurd rfl hw
          | (cases tid <;> simp [step, hex, hn, Proc.advance, Proc.effect])

theorem flagWrite_of_next (env : Env) (st : Proc) (tid : Tid) (op : Op)
    (hn : st.next env tid = some op) (hw : flagWrite op = true) :
    (tid, op) = (Tid.main, Op.setNotReady true) ∨
      (tid, op) = (Tid.main, Op.setNotStarted true) ∨
      (tid, op) = (Tid.main, Op.setNotLive true) := by
  cases tid with
  | main =>
    simp only [Proc.next] at hn
    have hm : op ∈ mainCode env := List.getElem?_mem hn
    rw [mainCode_eq] at hm
    simp only [List.mem_cons, List.mem_singleton, List.not_mem_nil, or_false] at hm
    rcases hm with h | h | h | h | h | h | h | h | h | h | h | h | h | h | h | h | h | h | h |
      h | h | h | h | h <;> subst h <;> simp [flagWrite] at hw ⊢
  | task t =>
    simp only [Proc.next] at hn
    split at hn
    · rcases taskCode_cases env t _ op hn with ⟨_, h⟩ | ⟨_, h⟩ | ⟨_, h⟩ | ⟨_, h⟩ | ⟨_, h⟩ <;>
        subst h <;> simp [flagWrite] at hw
    · simp at hn

theorem onlySetsTrue_step (env : Env) (st : Proc) (tid : Tid) (h : onlySetsTrue st.trace) :
    onlySetsTrue (step env st tid).trace := by
  rcases step_trace env st tid with ht | ⟨op, hn, ht⟩
  · rw [ht]; exact h
  · rw [ht]
    intro x hx hw
    rcases List.mem_append.mp hx with hx | hx
    · exact h x hx hw
    · rcases (mem_emitted_iff _ _ _).mp hx with hx | ⟨t, err, _, _, hx⟩
      · subst hx
        exact flagWrite_of_next env st tid op hn hw
      · subst hx
        simp [flagWrite] at hw

theorem onlySetsTrue_foldl (env : Env) (sched : List Tid) :
    ∀ st : Proc, onlySetsTrue st.trace → onlySetsTrue (sched.foldl (step env) st).trace := by
  induction sched with
  | nil => intro st h; exact h
  | cons tid rest ih => intro st h; exact ih _ (onlySetsTrue_step env st tid h)

theorem onlySetsTrue_run (env : Env) (sched : List Tid) :
    onlySetsTrue (run env sched).trace :=
  onlySetsTrue_foldl env sched _ (fun x hx => by simp [Proc.init] at hx)

/-- C9: under every schedule of the goroutines, every step of the API phase (`main`
starting an API task's goroutine, or any step of such a goroutine) comes after the three
calls by which `main` sets the not-ready, the not-started and the not-live flag to true;
and these three calls are the only writes of the flags on the shutdown path: neither
`main` nor a goroutine of the shutdown sets a flag back. -/
theorem flags_set_before_api_tasks (env : Env) (sched : List Tid)
    (pre : List (Tid × Op)) (e : Tid × Op) (post : List (Tid × Op))
    (hsplit : (run env sched).trace = pre ++ e :: post) (he : apiPhase e = true) :
    ((Tid.main, Op.setNotReady true) ∈ pre ∧ (Tid.main, Op.setNotStarted true) ∈ pre ∧
      (Tid.main, Op.setNotLive true) ∈ pre) ∧
    (∀ x ∈ (run env sched).trace, flagWrite x.2 = true →
      x = (Tid.main, Op.setNotReady true) ∨ x = (Tid.main, Op.setNotStarted true) ∨
        x = (Tid.main, Op.setNotLive true)) := by
  have h := (inv_run env sched).apiAfterFlags pre e post hsplit he
  exact ⟨⟨h.1, h.2.1, h.2.2.1⟩, onlySetsTrue_run env sched⟩

set_option maxRecDepth 100000 in
/-- C9 at the schedule that lets `main` run up to its first `go` statement: the steps
before it include the three flag updates. -/
theorem flags_set_before_api_tasks_witness :
    ((Tid.main, Op.setNotReady true) ∈ (run sampleEnv (List.replicate 9 .main)).trace ∧
      (Tid.main, Op.setNotStarted true) ∈ (run sampleEnv (List.replicate 9 .main)).trace ∧
      (Tid.main, Op.setNotLive true) ∈ (run sampleEnv (List.replicate 9 .main)).trace) ∧
    (∀ x ∈ (run sampleEnv (List.replicate 10 .main)).trace, flagWrite x.2 = true →
      x = (Tid.main, Op.setNotReady true) ∨ x = (Tid.main, Op.setNotStarted true) ∨
        x = (Tid.main, Op.setNotLive true)) :=
  flags_set_before_api_tasks sampleEnv (List.replicate 10 .main)
    (run sampleEnv (List.replicate 9 .main)).trace (.main, .go .http) [] (by decide) rfl

theorem inv2_init (env : Env) : Inv2 env Proc.init := by
  refine ⟨?_, ?_, ?_, ?_, ?_, ?_, ?_, Before.nil _ _, Before.nil _ _, Before.nil _ _⟩ <;>
    simp [Proc.init]

theorem step_main_joinedAll (env : Env) (st : Proc) (h : Inv env st) (h' : Inv2 env st)
    (hex : st.exited = false) (hk : st.pcMain < 24) :
    19 < (step env st .main).pcMain → ∀ t : Task, 3 < (step env st .main).pc t := by
  have h1 := h'.joinedAll
  have h2 := h.count
  obtain ⟨pcMain, pc, spawned, wg, exited, probe, trace⟩ := st
  simp only at hex hk
  subst hex
  interval_cases pcMain <;>
    simp [step, Proc.next, mainCode_eq, Proc.effect, Proc.advance, emitted] <;>
    (try split) <;>
    (try simp at h1) <;> (try exact h1)
  all_goals
    simp [addI, goPos] at h2 ⊢
    try
      intro t
      first
      | exact h1 t
      | (rename_i hwg
         subst hwg
         simp at h2
         rcases doneI_cases (pc .http) with c1 | c1 <;>
           rcases doneI_cases (pc .grpc) with c2 | c2 <;>
           rcases doneI_cases (pc .kafka) with c3 | c3 <;>
           rcases doneI_cases (pc .mongo) with c4 | c4 <;>
           rcases doneI_cases (pc .apm) with c5 | c5 <;>
           cases t <;> omega)

theorem step_main_healthStarted (env : Env) (st : Proc) (h' : Inv2 env st)
    (hex : st.exited = false) (hk : st.pcMain < 24) :
    (Tid.main, Op.healthStart) ∈ (step env st .main).trace →
      20 < (step env st .main).pcMain := by
  have h1 := h'.healthStarted
  obtain ⟨pcMain, pc, spawned, wg, exited, probe, trace⟩ := st
  simp only at hex hk
  subst hex
  interval_cases pcMain <;>
    simp [step, Proc.next, mainCode_eq, Proc.effect, Proc.advance, emitted] <;>
    (try split) <;>
    simp_all

theorem step_main_healthEnded (env : Env) (st : Proc) (h' : Inv2 env st)
    (hex : st.exited = false) (hk : st.pcMain < 24) :
    21 < (step env st .main).pcMain →
      (Tid.main, Op.healthEnd) ∈ (step env st .main).trace := by
  have h1 := h'.healthEnded
  obtain ⟨pcMain, pc, spawned, wg, exited, probe, trace⟩ := st
  simp only at hex hk
  subst hex
  interval_cases pcMain <;>
    simp [step, Proc.next, mainCode_eq, Proc.effect, Proc.advance, emitted] <;>
    (try split) <;>
    simp_all

theorem step_main_cancelled (env : Env) (st : Proc) (h' : Inv2 env st)
    (hex : st.exited = false) (hk : st.pcMain < 24) :
    (Tid.main, Op.cancel) ∈ (step env st .main).trace →
      22 < (step env st .main).pcMain := by
  have h1 := h'.cancelled
  obtain ⟨pcMain, pc, spawned, wg, exited, probe, trace⟩ := st
  simp only at hex hk
  subst hex
  interval_cases pcMain <;>
    simp [step, Proc.next, mainCode_eq, Proc.effect, Proc.advance, emitted] <;>
    (try split) <;>
    simp_all

theorem step_main_exitCode (env : Env) (st : Proc) (h' : Inv2 env st)
    (hex : st.exited = false) (hk : st.pcMain < 24) (c : Nat) :
    (Tid.main, Op.exit c) ∈ (step env st .main).trace →
      c = (recoverer env.ErrSigQuit .nil env.errExit).exitCode := by
  have h1 := h'.exitCode c
  obtain ⟨pcMain, pc, spawned, wg, exited, probe, trace⟩ := st
  simp only at hex hk h1
  subst hex
  interval_cases pcMain <;>
    simp [step, Proc.next, mainCode_eq, Proc.effect, Proc.advance, emitted] <;>
    (try split) <;>
    first
    | exact h1
    | (intro hm
       try simp at hm
       first
       | exact h1 hm
       | (rcases hm with hm | hm
          exacts [h1 hm, hm]))

theorem step_main_logged (env : Env) (st : Proc) (h' : Inv2 env st)
    (hex : st.exited = false) (hk : st.pcMain < 24) (t : Task) (err : Error) :
    t.logs = true → (Tid.task t, Op.callEnd t (some err)) ∈ (step env st .main).trace →
      (Tid.task t, Op.logErr err) ∈ (step env st .main).trace := by
  have h1 := h'.logged t err
  obtain ⟨pcMain, pc, spawned, wg, exited, probe, trace⟩ := st
  simp only at hex hk
  subst hex
  interval_cases pcMain <;>
    simp [step, Proc.next, mainCode_eq, Proc.effect, Proc.advance, emitted] <;>
    (try split) <;>
    simp_all

theorem step_main_silent (env : Env) (st : Proc) (h' : Inv2 env st)
    (hex : st.exited = false) (hk : st.pcMain < 24) (tid : Tid) (err : Error) :
    (tid, Op.logErr err) ∈ (step env st .main).trace →
      ∃ t : Task, tid = .task t ∧ t.logs = true ∧ env.result t = some err := by
  have h1 := h'.silent tid err
  obtain ⟨pcMain, pc, spawned, wg, exited, probe, trace⟩ := st
  simp only at hex hk
  subst hex
  interval_cases pcMain <;>
    simp [step, Proc.next, mainCode_eq, Proc.effect, Proc.advance, emitted] <;>
    (try split) <;>
    simp_all

theorem Inv.allDone {env : Env} {st : Proc} (h : Inv env st) (h' : Inv2 env st)
    (h19 : 19 < st.pcMain) : allDone env st.trace := by
  intro t
  have := h'.joinedAll h19 t
  exact ⟨h.ended t (by omega), h.released t this⟩

theorem step_main_healthLast (env : Env) (st : Proc) (h : Inv env st) (h' : Inv2 env st)
    (hex : st.exited = false) (hk : st.pcMain < 24) :
    Before (fun e => decide (e = (Tid.main, Op.healthStart)))
      (fun pre => allDone env pre ∧ (Tid.main, Op.cancel) ∉ pre)
      (step env st .main).trace := by
  have h1 := h'.healthLast
  have h2 := h.allDone h'
  have h3 := h'.cancelled
  obtain ⟨pcMain, pc, spawned, wg, exited, probe, trace⟩ := st
  simp only at hex hk h1 h2 h3
  subst hex
  interval_cases pcMain <;>
    simp [step, Proc.next, mainCode_eq, Proc.effect, Proc.advance, emitted] <;>
    (try split) <;>
    first
    | exact h1
    | (refine h1.skip ?_
       simp
       done)
    | (have hh := h2 (by decide)
       have hn : ¬ (22 < 20) := by decide
       exact h1.snoc (fun _ => ⟨hh, fun hc => hn (h3 hc)⟩))

theorem step_main_cancelAfterHealth (env : Env) (st : Proc) (h' : Inv2 env st)
    (hex : st.exited = false) (hk : st.pcMain < 24) :
    Before (fun e => decide (e = (Tid.main, Op.cancel)))
      (fun pre => (Tid.main, Op.healthEnd) ∈ pre) (step env st .main).trace := by
  have h1 := h'.cancelAfterHealth
  have h2 := h'.healthEnded
  obtain ⟨pcMain, pc, spawned, wg, exited, probe, trace⟩ := st
  simp only at hex hk h1 h2
  subst hex
  interval_cases pcMain <;>
    simp [step, Proc.next, mainCode_eq, Proc.effect, Proc.advance, emitted] <;>
    (try split) <;>
    first
    | exact h1
    | (refine h1.skip ?_
       simp
       done)
    | (have hh := h2 (by decide)
       exact h1.snoc (fun _ => hh))

theorem step_main_noCallAfterHealth (env : Env) (st : Proc) (h' : Inv2 env st)
    (hex : st.exited = false) (hk : st.pcMain < 24) :
    Before isCallStart (fun pre => (Tid.main, Op.healthStart) ∉ pre)
      (step env st .main).trace := by
  have h1 := h'.noCallAfterHealth
  obtain ⟨pcMain, pc, spawned, wg, exited, probe, trace⟩ := st
  simp only at hex hk h1
  subst hex
  interval_cases pcMain <;>
    simp [step, Proc.next, mainCode_eq, Proc.effect, Proc.advance, emitted] <;>
    (try split) <;>
    first
    | exact h1
    | exact h1.skip rfl

theorem Inv2.main_step {env : Env} {st : Proc} (h : Inv env st) (h' : Inv2 env st) :
    Inv2 env (step env st .main) := by
  by_cases hrun : st.exited = false ∧ st.pcMain < 24
  · obtain ⟨hex, hk⟩ := hrun
    exact ⟨step_main_joinedAll env st h h' hex hk, step_main_healthStarted env st h' hex hk,
      step_main_healthEnded env st h' hex hk, step_main_cancelled env st h' hex hk,
      step_main_exitCode env st h' hex hk, step_main_logged env st h' hex hk,
      step_main_silent env st h' hex hk, step_main_healthLast env st h h' hex hk,
      step_main_cancelAfterHealth env st h' hex hk,
      step_main_noCallAfterHealth env st h' hex hk⟩
  · rw [step_main_stuck env st hrun]
    exact h'

theorem main_not_mem_emitted (t : Task) (op o : Op) :
    (Tid.main, o) ∉ emitted (.task t) op := by
  intro hm
  rcases (mem_emitted_iff _ _ _).mp hm with h | ⟨_, _, _, _, h⟩ <;> simp at h

theorem before_emitted_log {P : Tid × Op → Bool} {Q : List (Tid × Op) → Prop}
    {tr : List (Tid × Op)} {tid : Tid} {op : Op} (h : Before P Q tr)
    (hq : P (tid, op) = true → Q tr) (hlog : ∀ err : Error, P (tid, .logErr err) = false) :
    Before P Q (tr ++ emitted tid op) := by
  rcases emitted_eq tid op with he | ⟨err, he⟩
  · rw [he]
    exact h.snoc hq
  · rw [he, show tr ++ [(tid, op), (tid, Op.logErr err)] =
      (tr ++ [(tid, op)]) ++ [(tid, Op.logErr err)] by simp]
    exact (h.snoc hq).skip (hlog err)

theorem Inv2.task_step {env : Env} {st : Proc} (_h : Inv env st) (h' : Inv2 env st)
    (t : Task) : Inv2 env (step env st (.task t)) := by
  by_cases hrun : st.exited = true ∨ st.spawned t = false ∨
      (taskCode env t)[st.pc t]? = none
  · rw [step_task_stuck env st t hrun]
    exact h'
  · simp only [not_or] at hrun
    obtain ⟨hex, hs, hop⟩ := hrun
    have hex : st.exited = false := by simpa using hex
    have hs : st.spawned t = true := by simpa using hs
    obtain ⟨op, hop⟩ := Option.ne_none_iff_exists'.mp hop
    rw [step_task_eq env st t op hex hs hop]
    have hcases := taskCode_cases env t _ op hop
    have hnolog : ∀ err : Error, op ≠ .logErr err := by
      intro err
      rcases hcases with ⟨_, ho⟩ | ⟨_, ho⟩ | ⟨_, ho⟩ | ⟨_, ho⟩ | ⟨_, ho⟩ <;>
        subst ho <;> simp
    refine ⟨?_, ?_, ?_, ?_, ?_, ?_, ?_, ?_, ?_, ?_⟩
    · intro h19 u
      have := h'.joinedAll h19 u
      by_cases hut : u = t
      · subst hut
        simp only [Function.update_same]
        omega
      · simp only [Function.update_apply, hut, if_false]
        exact this
    · intro hm
      rcases List.mem_append.mp hm with hm | hm
      · exact h'.healthStarted hm
      · exact absurd hm (main_not_mem_emitted _ _ _)
    · intro h21
      exact List.mem_append_left _ (h'.healthEnded h21)
    · intro hm
      rcases List.mem_append.mp hm with hm | hm
      · exact h'.cancelled hm
      · exact absurd hm (main_not_mem_emitted _ _ _)
    · intro c hm
      rcases List.mem_append.mp hm with hm | hm
      · exact h'.exitCode c hm
      · exact absurd hm (main_not_mem_emitted _ _ _)
    · intro u err hl hm
      rcases List.mem_append.mp hm with hm | hm
      · exact List.mem_append_left _ (h'.logged u err hl hm)
      · refine List.mem_append_right _ ?_
        rcases (mem_emitted_iff _ _ _).mp hm with hm | ⟨_, _, _, _, hm⟩
        · simp only [Prod.mk.injEq, Tid.task.injEq] at hm
          obtain ⟨hut, hop'⟩ := hm
          subst hut
          exact (mem_emitted_iff _ _ _).mpr (Or.inr ⟨u, err, hop'.symm, hl, rfl⟩)
        · simp at hm
    · intro tid err hm
      rcases List.mem_append.mp hm with hm | hm
      · exact h'.silent tid err hm
      · rcases (mem_emitted_iff _ _ _).mp hm with hm | ⟨t', err', ho, hl, hm⟩
        · simp only [Prod.mk.injEq] at hm
          exact absurd hm.2.symm (hnolog err)
        · simp only [Prod.mk.injEq, Op.logErr.injEq] at hm
          obtain ⟨htid, herr⟩ := hm
          subst htid herr
          rcases hcases with ⟨_, ho'⟩ | ⟨_, ho'⟩ | ⟨_, ho'⟩ | ⟨_, ho'⟩ | ⟨_, ho'⟩ <;>
            rw [ho'] at ho <;> simp at ho
          obtain ⟨rfl, hr⟩ := ho
          exact ⟨t, rfl, hl, hr⟩
    · refine before_emitted_log h'.healthLast (fun hp => ?_) (fun err => by simp)
      simp at hp
    · refine before_emitted_log h'.cancelAfterHealth (fun hp => ?_) (fun err => by simp)
      simp at hp
    · refine before_emitted_log h'.noCallAfterHealth (fun hp => ?_) (fun err => rfl)
      intro hm
      have h20 := h'.healthStarted hm
      have := h'.joinedAll (by omega) t
      rcases hcases with ⟨hk, ho⟩ | ⟨hk, ho⟩ | ⟨hk, ho⟩ | ⟨hk, ho⟩ | ⟨hk, ho⟩ <;>
        first
        | omega
        | (subst ho
           simp [isCallStart] at hp)

theorem inv2_step {env : Env} {st : Proc} (h : Inv env st) (h' : Inv2 env st) (tid : Tid) :
    Inv2 env (step env st tid) := by
  cases tid with
  | main => exact Inv2.main_step h h'
  | task t => exact Inv2.task_step h h' t

theorem inv2_foldl {env : Env} (sched : List Tid) :
    ∀ st : Proc, Inv env st → Inv2 env st → Inv2 env (sched.foldl (step env) st) := by
  induction sched with
  | nil => intro st _ h'; exact h'
  | cons tid rest ih => intro st h h'; exact ih _ (inv_step h tid) (inv2_step h h' tid)

theorem inv2_run (env : Env) (sched : List Tid) : Inv2 env (run env sched) :=
  inv2_foldl sched _ (inv_init env) (inv2_init env)

theorem recoverer_nil_code (q : Error) (errExit : Option Error) :
    (recoverer q .nil errExit).exitCode =
      if errExit = none ∨ errorsIs errExit q = true then 0 else 3 := by
  cases errExit with
  | none => simp [recoverer, errorsIs]
  | some e =>
    by_cases h : errorsIs (some e) q = true
    · simp [recoverer, h]
    · simp [recoverer, h]

/-- C11, the code at the failing schedule: the MongoDB goroutine begins `Disconnect`
after the Kafka goroutine has called `wgroup.Done()` and before that goroutine has
written its `completed` annotation, which is then missing from the readiness state. -/
theorem completed_annotation_races_with_disconnect :
    (run sampleEnv raceSched).trace =
      (run sampleEnv raceBefore).trace ++ [(Tid.task .mongo, Op.callStart .mongo)] ∧
    (Tid.task .kafka, Op.wgDone) ∈ (run sampleEnv raceBefore).trace ∧
    (Tid.task .kafka, Op.appendHealth "shutdown/kafka-subscriber" "completed") ∉
      (run sampleEnv raceBefore).trace ∧
    ("shutdown/kafka-subscriber", "completed") ∉ (run sampleEnv raceBefore).probe.health ∧
    ("shutdown/kafka-subscriber", "initiated") ∈ (run sampleEnv raceBefore).probe.health := by
  refine ⟨by decide, by decide, by decide, by decide, by decide⟩

/-- C12: under every schedule of the goroutines, `main` begins the `Shutdown` of the
health server only after the shutdown call of every task of both phases has returned
and its goroutine has called `wgroup.Done()`, and before the shutdown context is
cancelled; the context is cancelled only after that `Shutdown` has returned; and no
shutdown call of a task begins once the health server's `Shutdown` has begun. -/
theorem health_server_shut_down_last (env : Env) (sched : List Tid)
    (pre : List (Tid × Op)) (e : Tid × Op) (post : List (Tid × Op))
    (hsplit : (run env sched).trace = pre ++ e :: post) :
    (e = (Tid.main, Op.healthStart) →
      (∀ t : Task, (Tid.task t, Op.callEnd t (env.result t)) ∈ pre ∧
        (Tid.task t, Op.wgDone) ∈ pre) ∧
      (Tid.main, Op.cancel) ∉ pre) ∧
    (e = (Tid.main, Op.cancel) → (Tid.main, Op.healthEnd) ∈ pre) ∧
    (isCallStart e = true → (Tid.main, Op.healthStart) ∉ pre) := by
  refine ⟨fun he => ?_, fun he => ?_, fun he => ?_⟩
  · exact (inv2_run env sched).healthLast pre e post hsplit (by simp [he])
  · exact (inv2_run env sched).cancelAfterHealth pre e post hsplit (by simp [he])
  · exact (inv2_run env sched).noCallAfterHealth pre e post hsplit he

set_option maxRecDepth 100000 in
/-- C12 at a schedule that runs both phases to their last statement and then lets `main`
begin the `Shutdown` of the health server. -/
theorem health_server_shut_down_last_witness :
    (∀ t : Task, (Tid.task t, Op.callEnd t (sampleEnv.result t)) ∈
        (run sampleEnv fullSched).trace ∧
      (Tid.task t, Op.wgDone) ∈ (run sampleEnv fullSched).trace) ∧
    (Tid.main, Op.cancel) ∉ (run sampleEnv fullSched).trace :=
  (health_server_shut_down_last sampleEnv (fullSched ++ [.main])
    (run sampleEnv fullSched).trace (.main, .healthStart) [] (by decide)).1 rfl

set_option maxRecDepth 100000 in
/-- C13, refuted as stated: the shutdown was triggered by the quit signal, the shutdown
of the HTTP server fails, and the process exits with status 0. -/
theorem failed_shutdown_exits_nonzero_counterexample :
    (Tid.task .http, Op.callEnd .http (some (.sentinel "listener closed"))) ∈
      (run sampleEnv (fullSched ++ List.replicate 4 .main)).trace ∧
    (Tid.main, Op.exit 0) ∈ (run sampleEnv (fullSched ++ List.replicate 4 .main)).trace := by
  refine ⟨by decide, by decide⟩

/-- C13, amended: the exit status does not depend on what the shutdown calls return:
under every schedule, whatever each task's shutdown call returned, the process exits
with status 0 when the value that triggered the shutdown is nil or is the clean-quit
sentinel, and with status 3 for every other value. -/
theorem exit_code_ignores_shutdown_failures (env : Env) (sched : List Tid) (c : Nat)
    (hexit : (Tid.main, Op.exit c) ∈ (run env sched).trace) :
    c = if env.errExit = none ∨ errorsIs env.errExit env.ErrSigQuit = true then 0 else 3 := by
  rw [← recoverer_nil_code]
  exact (inv2_run env sched).exitCode c hexit

set_option maxRecDepth 100000 in
theorem exit_code_ignores_shutdown_failures_witness :
    (0 : Nat) = if sampleEnv.errExit = none ∨
      errorsIs sampleEnv.errExit sampleEnv.ErrSigQuit = true then 0 else 3 :=
  exit_code_ignores_shutdown_failures sampleEnv (fullSched ++ List.replicate 4 .main) 0
    (by decide)

set_option maxRecDepth 100000 in
/-- C14, refuted as stated: `Disconnect` fails, the whole shutdown runs, and no log line
for that failure is written. -/
theorem shutdown_failure_logged_counterexample :
    (Tid.task .mongo, Op.callEnd .mongo (some (.sentinel "connection reset"))) ∈
      (run mongoFailEnv (fullSched ++ List.replicate 4 .main)).trace ∧
    (Tid.task .mongo, Op.logErr (.sentinel "connection reset")) ∉
      (run mongoFailEnv (fullSched ++ List.replicate 4 .main)).trace := by
  refine ⟨by decide, by decide⟩

/-- C14, amended: under every schedule, a failure of the HTTP server, Kafka subscriber or
APM shutdown is logged by its goroutine, while nothing is logged for the MongoDB
disconnect (its error is discarded) or the gRPC shutdown (it returns no error); and
whatever the shutdown calls return, every goroutine that has been started and has
statements left takes its next step when scheduled, leaving its siblings where they
are, as long as the process has not exited. -/
theorem shutdown_failures_logged_unless_discarded (env : Env) (sched : List Tid) :
    (∀ (t : Task) (err : Error), t.logs = true →
      (Tid.task t, Op.callEnd t (some err)) ∈ (run env sched).trace →
      (Tid.task t, Op.logErr err) ∈ (run env sched).trace) ∧
    (∀ (t : Task) (err : Error), t.logs = false →
      (Tid.task t, Op.logErr err) ∉ (run env sched).trace) ∧
    (∀ (st : Proc) (t : Task), st.exited = false → st.spawned t = true → st.pc t < 5 →
      (step env st (.task t)).pc t = st.pc t + 1 ∧
      ∀ u : Task, u ≠ t → (step env st (.task t)).pc u = st.pc u) := by
  refine ⟨(inv2_run env sched).logged, ?_, ?_⟩
  · intro t err hl hm
    obtain ⟨u, hu, hlu, _⟩ := (inv2_run env sched).silent _ _ hm
    simp only [Tid.task.injEq] at hu
    subst hu
    simp [hl] at hlu
  · intro st t hex hs hk
    have hlen : st.pc t < (taskCode env t).length := by simpa [taskCode] using hk
    have hop : (taskCode env t)[st.pc t]? = some (taskCode env t)[st.pc t] :=
      List.getElem?_eq_getElem hlen
    rw [step_task_eq env st t _ hex hs hop]
    refine ⟨by simp, fun u hu => by simp [Function.update_apply, hu]⟩

set_option maxRecDepth 100000 in
/-- C14, amended, at a run in which the shutdown of the HTTP server fails: the failure
is logged. -/
theorem shutdown_failures_logged_unless_discarded_witness :
    (Tid.task .http, Op.logErr (.sentinel "listener closed")) ∈
      (run sampleEnv fullSched).trace :=
  (shutdown_failures_logged_unless_discarded sampleEnv fullSched).1 .http
    (.sentinel "listener closed") rfl (by decide)

theorem busInv_init (env : Signals) : BusInv env Bus.init := by
  refine ⟨rfl, by simp [Bus.init, makeChan], by simp [Bus.init, makeChan],
    by simp [Bus.init, makeChan], by simp [Bus.init], by simp [Bus.init]⟩

theorem busInv_step {env : Signals} {st : Bus} (h : BusInv env st) (a : Act) :
    BusInv env (st.step env a) := by
  obtain ⟨hcap, hroom, horder, hfirst, hblk, hdr⟩ := h
  obtain ⟨⟨cap, buf⟩, errExit, delivered, blocked, dropped⟩ := st
  simp only at hcap hroom horder hfirst hblk hdr
  subst hcap
  cases a with
  | receive =>
    cases errExit with
    | some v => exact ⟨rfl, hroom, horder, hfirst, hblk, hdr⟩
    | none =>
      cases buf with
      | nil => exact ⟨rfl, hroom, horder, hfirst, hblk, hdr⟩
      | cons v rest =>
        have hrest : rest = [] := by
          cases rest with
          | nil => rfl
          | cons _ _ => simp at hroom
        subst hrest
        refine ⟨rfl, ?_, ?_, ?_, hblk, hdr⟩
        · simp [Bus.step, Chan.recv]
        · simpa [Bus.step, Chan.recv] using horder
        · simp [Bus.step, Chan.recv]
  | write w =>
    simp only [Bus.step]
    split
    · exact ⟨rfl, hroom, horder, hfirst, hblk, hdr⟩
    · rename_i hnew
      simp only [not_or] at hnew
      by_cases hfull : buf.length < 1
      · have hb : buf = [] := by
          cases buf with
          | nil => rfl
          | cons _ _ => simp at hfull
        subst hb
        simp only [Chan.send, List.length_nil, Nat.lt_one_iff, if_true, List.nil_append]
        refine ⟨rfl, by simp, ?_, ?_, ?_, hdr⟩
        · simp only [List.append_nil] at horder
          simp [horder]
        · intro hn
          have := hfirst hn
          simp only at this
          simp [← this]
        · intro u hu
          simp only [List.mem_filter, decide_eq_true_eq] at hu
          simp only [List.mem_append, List.mem_singleton, not_or]
          exact ⟨hblk u hu.1, hu.2⟩
      · simp only [Chan.send, hfull, if_false]
        split
        · rename_i hsig
          refine ⟨rfl, hroom, horder, hfirst, hblk, ?_⟩
          intro u hu
          rcases List.mem_append.mp hu with hu | hu
          · exact hdr u hu
          · simp only [List.mem_singleton] at hu
            rw [hu]
            exact hsig.1
        · split
          · exact ⟨rfl, hroom, horder, hfirst, hblk, hdr⟩
          · refine ⟨rfl, hroom, horder, hfirst, ?_, hdr⟩
            intro u hu
            rcases List.mem_append.mp hu with hu | hu
            · exact hblk u hu
            · simp only [List.mem_singleton] at hu
              subst hu
              exact hnew.1

theorem busInv_run (env : Signals) (acts : List Act) : BusInv env (Bus.run env acts) := by
  have : ∀ (acts : List Act) (st : Bus), BusInv env st →
      BusInv env (acts.foldl (Bus.step env) st) := by
    intro acts
    induction acts with
    | nil => intro st h; exact h
    | cons a rest ih => intro st h; exact ih _ (busInv_step h a)
  exact this acts _ (busInv_init env)

theorem bus_full_step (env : Signals) (st : Bus) (a : Act)
    (hrecv : st.errExit ≠ none) (hfull : st.fatalErr.cap ≤ st.fatalErr.buf.length) :
    (st.step env a).fatalErr = st.fatalErr ∧ (st.step env a).errExit = st.errExit ∧
    (st.step env a).delivered = st.delivered := by
  obtain ⟨⟨cap, buf⟩, errExit, delivered, blocked, dropped⟩ := st
  simp only at hrecv hfull
  cases a with
  | receive =>
    cases errExit with
    | none => exact absurd rfl hrecv
    | some v => exact ⟨rfl, rfl, rfl⟩
  | write w =>
    have hno : ¬ buf.length < cap := by omega
    simp only [Bus.step, Chan.send, hno, if_false]
    split
    · exact ⟨rfl, rfl, rfl⟩
    · split
      · exact ⟨rfl, rfl, rfl⟩
      · split <;> exact ⟨rfl, rfl, rfl⟩

theorem bus_full_foldl (env : Signals) (more : List Act) :
    ∀ st : Bus, st.errExit ≠ none → st.fatalErr.cap ≤ st.fatalErr.buf.length →
      (more.foldl (Bus.step env) st).fatalErr = st.fatalErr ∧
      (more.foldl (Bus.step env) st).errExit = st.errExit ∧
      (more.foldl (Bus.step env) st).delivered = st.delivered := by
  induction more with
  | nil => intro st _ _; exact ⟨rfl, rfl, rfl⟩
  | cons a rest ih =>
    intro st h1 h2
    obtain ⟨e1, e2, e3⟩ := bus_full_step env st a h1 h2
    obtain ⟨f1, f2, f3⟩ := ih (st.step env a) (by rw [e2]; exact h1) (by rw [e1]; exact h2)
    exact ⟨f1.trans e1, f2.trans e2, f3.trans e3⟩

/-- C15, refuted as stated: `main` has received the subscriber's error and the HTTP
server's write sits in the buffer; the gRPC server's write is then neither buffered nor
dropped: its goroutine waits in the send, and trying again changes nothing. -/
theorem later_write_never_blocks_counterexample :
    (Bus.run sampleSignals [.write .kafka, .receive, .write .http, .write .grpc]).blocked =
      [.grpc] ∧
    (Bus.run sampleSignals [.write .kafka, .receive, .write .http, .write .grpc]).delivered =
      [.kafka, .http] ∧
    (Bus.run sampleSignals [.write .kafka, .receive, .write .http, .write .grpc]).dropped =
      [] ∧
    Bus.run sampleSignals
        [.write .kafka, .receive, .write .http, .write .grpc, .write .grpc, .receive,
          .write .grpc] =
      Bus.run sampleSignals [.write .kafka, .receive, .write .http, .write .grpc] := by
  refine ⟨by decide, by decide, by decide, by decide⟩

/-- C15, amended: `fatalErr` has one slot and `main` receives from it once.  Under every
schedule the value `main` acts on is the value of the first writer whose send completed;
at most one later write completes (it sits in the buffer); and once `main` has received
and the buffer is full, no further write is ever delivered: a writer of `cmd/starter.go`
(HTTP server, gRPC server, health responder, Kafka subscriber) that reaches its send
then waits in it, and nothing that happens afterwards frees it. -/
theorem fatal_channel_first_value_wins (env : Signals) (acts : List Act) :
    (∀ v : Option Error, (Bus.run env acts).errExit = some v →
      ∃ (w : Writer) (rest : List Writer),
        (Bus.run env acts).delivered = w :: rest ∧ v = env.value w) ∧
    (Bus.run env acts).delivered.length ≤ 2 ∧
    ((Bus.run env acts).errExit ≠ none → (Bus.run env acts).fatalErr.buf ≠ [] →
      (∀ more : List Act,
        (Bus.run env (acts ++ more)).delivered = (Bus.run env acts).delivered ∧
        (Bus.run env (acts ++ more)).errExit = (Bus.run env acts).errExit) ∧
      (∀ w : Writer, w ≠ .signal → w ∉ (Bus.run env acts).delivered →
        w ∈ (Bus.run env (acts ++ [.write w])).blocked ∧
        w ∉ (Bus.run env (acts ++ [.write w])).delivered ∧
        w ∉ (Bus.run env (acts ++ [.write w])).dropped)) := by
  have hinv := busInv_run env acts
  refine ⟨?_, ?_, ?_⟩
  · intro v hv
    have ho := hinv.order
    rw [hv] at ho
    cases hd : (Bus.run env acts).delivered with
    | nil => simp [hd] at ho
    | cons w rest =>
      rw [hd] at ho
      simp only [Option.toList_some, List.singleton_append, List.map_cons,
        List.cons.injEq] at ho
      exact ⟨w, rest, rfl, ho.1⟩
  · have ho := congrArg List.length hinv.order
    have hr := hinv.room
    simp only [List.length_append, List.length_map] at ho
    have : (Bus.run env acts).errExit.toList.length ≤ 1 := by
      cases (Bus.run env acts).errExit <;> simp
    omega
  · intro hrecv hbuf
    have hfull : (Bus.run env acts).fatalErr.cap ≤ (Bus.run env acts).fatalErr.buf.length := by
      rw [hinv.cap]
      cases hb : (Bus.run env acts).fatalErr.buf with
      | nil => exact absurd hb hbuf
      | cons _ _ => simp
    refine ⟨fun more => ?_, fun w hw hnd => ?_⟩
    · have := bus_full_foldl env more _ hrecv hfull
      simp only [Bus.run, List.foldl_append]
      exact ⟨this.2.2, this.2.1⟩
    · have hnd' : w ∉ (Bus.run env acts).dropped := fun hd => hw (hinv.droppedSignal w hd)
      have hno : ¬ (Bus.run env acts).fatalErr.buf.length < (Bus.run env acts).fatalErr.cap := by
        omega
      simp only [Bus.run, List.foldl_append, List.foldl_cons, List.foldl_nil]
      simp only [Bus.run] at hnd hnd' hno
      simp only [Bus.step, hnd, hnd', or_self, if_false, Chan.send, hno, hw, false_and]
      split
      · rename_i hb
        exact ⟨hb, hnd, hnd'⟩
      · exact ⟨by simp, hnd, hnd'⟩

/-- C15, amended, at a schedule with two writes before `main` receives: the first is
the one received, and no more than two are ever delivered. -/
theorem fatal_channel_first_value_wins_witness :
    (Bus.run sampleSignals [.write .kafka, .write .http, .receive, .write .grpc]).delivered.length
      ≤ 2 :=
  (fatal_channel_first_value_wins sampleSignals
    [.write .kafka, .write .http, .receive, .write .grpc]).2.1

end cmd

/-! ### The item service -/

section digits

theorem splitChars_of_not_mem (sep : Char) (xs : List Char) (h : sep ∉ xs) :
    gostd.splitChars sep xs = [xs] := by
  induction xs with
  | nil => rfl
  | cons c cs ih =>
    simp only [List.mem_cons, not_or] at h
    have hc : ¬ c = sep := fun e => h.1 e.symm
    simp [gostd.splitChars, hc, ih h.2]

theorem splitChars_append (sep : Char) (xs ys : List Char) (h : sep ∉ xs) :
    gostd.splitChars sep (xs ++ sep :: ys) = xs :: gostd.splitChars sep ys := by
  induction xs with
  | nil => simp [gostd.splitChars]
  | cons c cs ih =>
    simp only [List.mem_cons, not_or] at h
    have hc : ¬ c = sep := fun e => h.1 e.symm
    simp [gostd.splitChars, hc, ih h.2]

theorem digitVal_digitChar (k : Nat) (hk : k < 10) :
    gostd.digitVal (Nat.digitChar k) = some k := by
  interval_cases k <;> rfl

theorem parseDigits_append (xs ys : List Char) :
    ∀ acc : Nat, gostd.parseDigits (xs ++ ys) acc =
      (gostd.parseDigits xs acc).bind (gostd.parseDigits ys) := by
  induction xs with
  | nil => intro acc; rfl
  | cons c cs ih =>
    intro acc
    simp only [List.cons_append, gostd.parseDigits]
    cases gostd.digitVal c with
    | none => rfl
    | some d => exact ih _

theorem toDigitsCore_spec (fuel : Nat) :
    ∀ (n : Nat) (ds : List Char), n < fuel →
      ∃ pre : List Char, Nat.toDigitsCore 10 fuel n ds = pre ++ ds ∧ pre ≠ [] ∧
        gostd.parseDigits pre 0 = some n ∧ ∀ c ∈ pre, gostd.digitVal c ≠ none := by
  induction fuel with
  | zero => intro n ds h; omega
  | succ fuel ih =>
    intro n ds hn
    simp only [Nat.toDigitsCore]
    have hd := digitVal_digitChar (n % 10) (Nat.mod_lt _ (by decide))
    split
    · rename_i hz
      refine ⟨[Nat.digitChar (n % 10)], rfl, by simp, ?_, ?_⟩
      · have hval : 10 * 0 + n % 10 = n := by omega
        simp only [gostd.parseDigits, hd, hval]
      · intro c hc
        simp only [List.mem_singleton] at hc
        rw [hc, hd]
        simp
    · rename_i hz
      obtain ⟨pre, h1, h2, h3, h4⟩ := ih (n / 10) (Nat.digitChar (n % 10) :: ds) (by omega)
      refine ⟨pre ++ [Nat.digitChar (n % 10)], by simp [h1], by simp, ?_, ?_⟩
      · have hval : 10 * (n / 10) + n % 10 = n := by omega
        rw [parseDigits_append, h3]
        simp only [gostd.parseDigits, hd]
        exact congrArg some hval
      · intro c hc
        rcases List.mem_append.mp hc with hc | hc
        · exact h4 c hc
        · simp only [List.mem_singleton] at hc
          rw [hc, hd]
          simp

theorem toString_nat_spec (n : Nat) :
    (toString n).data ≠ [] ∧ gostd.parseDigits (toString n).data 0 = some n ∧
    ∀ c ∈ (toString n).data, gostd.digitVal c ≠ none := by
  obtain ⟨pre, h1, h2, h3, h4⟩ := toDigitsCore_spec (n + 1) n [] (by omega)
  have hdata : (toString n).data = pre := by
    show (Nat.repr n).data = pre
    simp only [Nat.repr, Nat.toDigits, List.asString, h1, List.append_nil]
  rw [hdata]
  exact ⟨h2, h3, h4⟩

end digits

section itemService

open item

variable {ω : Type}

/-- C17: for every item whose ID is at most 0, `Create` returns no item and an error that
is `ErrInvalidID`, and leaves the world as it was (nothing is inserted, no publishing
goroutine is started); for every item whose ID is greater than 0, `Validate` returns
nil. -/
theorem Create_rejects_invalid_ID (svc : Service ω) (ctx : Context) (it : Item)
    (w : World ω) :
    (it.ID ≤ 0 →
      svc.Create ctx it w =
        ((none, some (.wrap ErrInvalidID ("'" ++ toString it.ID ++ "'"))), w) ∧
      errorsIs (some (.wrap ErrInvalidID ("'" ++ toString it.ID ++ "'"))) ErrInvalidID =
        true) ∧
    (0 < it.ID → Item.Validate it = none) := by
  constructor
  · intro h
    constructor
    · simp [Service.Create, Item.Validate, h]
    · simp [errorsIs, Error.chainHas, ErrInvalidID]
  · intro h
    have : ¬ it.ID ≤ 0 := by omega
    simp [Item.Validate, this]

/-- C17 on the IDs of the test, 0 and -1. -/
theorem Create_rejects_invalid_ID_witness :
    (testService.Create Context.Background ⟨0, "Bottle"⟩ (testWorld [5])).1 =
      (none, some (.wrap ErrInvalidID "'0'")) ∧
    (testService.Create Context.Background ⟨-1, "Bottle"⟩ (testWorld [5])).1 =
      (none, some (.wrap ErrInvalidID "'-1'")) :=
  ⟨congrArg Prod.fst ((Create_rejects_invalid_ID testService Context.Background ⟨0, "Bottle"⟩
      (testWorld [5])).1 (by decide)).1,
   congrArg Prod.fst ((Create_rejects_invalid_ID testService Context.Background
      ⟨-1, "Bottle"⟩ (testWorld [5])).1 (by decide)).1⟩

theorem Create_ok (svc : Service ω) (ctx : Context) (it : Item) (w : World ω)
    (created : Option Item) (w' : World ω)
    (hok : svc.Create ctx it w = ((created, none), w')) :
    0 < it.ID ∧
    ∃ w2 : World ω,
      svc.persistentStore.InsertItem ctx
        { it with Name := it.Name ++ "-" ++ toString (svc.rt.randInt w.ext).1 }
        { w with ext := (svc.rt.randInt w.ext).2 } = ((created, none), w2) ∧
      w' = w2.emit (.goPublish created) := by
  by_cases hid : it.ID ≤ 0
  · simp [Service.Create, Item.Validate, hid] at hok
  · refine ⟨by omega, ?_⟩
    simp only [Service.Create, Item.Validate, hid, if_false] at hok
    generalize hins : svc.persistentStore.InsertItem ctx
      { it with Name := it.Name ++ "-" ++ toString (svc.rt.randInt w.ext).1 }
      { w with ext := (svc.rt.randInt w.ext).2 } = res at hok
    obtain ⟨⟨r, e⟩, w2⟩ := res
    cases e with
    | some err => simp at hok
    | none =>
      simp only [Prod.mk.injEq] at hok
      obtain ⟨⟨h1, _⟩, h2⟩ := hok
      subst h1
      exact ⟨w2, rfl, h2.symm⟩

theorem Atoi_toString (n : Nat) (h : n < 2 ^ 63) : gostd.Atoi (toString n) = .ok (n : Int) := by
  obtain ⟨h1, h2, h3⟩ := toString_nat_spec n
  have hsplit : gostd.splitSign (toString n).data = (false, (toString n).data) := by
    generalize (toString n).data = l at h1 h3
    match l, h1, h3 with
    | c :: cs, _, h3 =>
      have hc := h3 c (List.mem_cons_self _ _)
      by_cases hm : c = '-'
      · rw [hm] at hc
        exact absurd rfl hc
      · by_cases hp : c = '+'
        · rw [hp] at hc
          exact absurd rfl hc
        · unfold gostd.splitSign
          split
          · rename_i heq
            simp only [List.cons.injEq] at heq
            exact absurd heq.1 hm
          · rename_i heq
            simp only [List.cons.injEq] at heq
            exact absurd heq.1 hp
          · rfl
  simp only [gostd.Atoi, hsplit, h1, if_false, h2, h]
  rfl

theorem Split_suffixed (name : String) (n : Nat) (h : '-' ∉ name.data) :
    gostd.Split (name ++ "-" ++ toString n) '-' = [name, toString n] := by
  obtain ⟨_, _, h3⟩ := toString_nat_spec n
  have hn : '-' ∉ (toString n).data := fun hm => h3 _ hm rfl
  have hdata : (name ++ "-" ++ toString n).data = name.data ++ '-' :: (toString n).data := by
    simp [String.data_append]
  simp only [gostd.Split, hdata, splitChars_append _ _ _ h, splitChars_of_not_mem _ _ hn,
    List.map_cons, List.map_nil]

theorem storeMocker_returnsSaved : returnsSaved storeMocker := by
  intro ctx it w r w' h
  simp only [storeMocker, Prod.mk.injEq] at h
  exact h.1.1.symm

theorem mongoItemStore_returnsSaved (coll : Collection ω) :
    returnsSaved (mongoItemStore coll) := by
  intro ctx it w r w' h
  simp only [mongoItemStore] at h
  generalize coll.InsertOne ctx it w.ext = res at h
  obtain ⟨e, ext⟩ := res
  cases e with
  | some err => simp at h
  | none =>
    simp only [Prod.mk.injEq] at h
    exact h.1.1.symm

/-- C18: with a store that returns the item it saved, and a number drawn by `rand.Int()`
(below 2^63), a successful `Create` had a valid ID and returns an item with the same ID
whose Name is the input Name, then "-", then the decimal digits of the number drawn; when
the input name has no "-", splitting the returned name on "-" gives exactly the input
name and the digits, and `strconv.Atoi` reads the digits back as that number. -/
theorem Create_suffixes_name (svc : Service ω) (ctx : Context) (it : Item) (w : World ω)
    (created : Item) (w' : World ω)
    (hstore : returnsSaved svc.persistentStore)
    (hrand : (svc.rt.randInt w.ext).1 < 2 ^ 63)
    (hok : svc.Create ctx it w = ((some created, none), w')) :
    0 < it.ID ∧ created.ID = it.ID ∧
    created.Name = it.Name ++ "-" ++ toString (svc.rt.randInt w.ext).1 ∧
    (∀ c ∈ (toString (svc.rt.randInt w.ext).1).data, gostd.digitVal c ≠ none) ∧
    gostd.Atoi (toString (svc.rt.randInt w.ext).1) = .ok ((svc.rt.randInt w.ext).1 : Int) ∧
    ('-' ∉ it.Name.data →
      gostd.Split created.Name '-' = [it.Name, toString (svc.rt.randInt w.ext).1]) := by
  obtain ⟨hid, w2, hins, _⟩ := Create_ok svc ctx it w (some created) w' hok
  have hc := hstore _ _ _ _ _ hins
  simp only [Option.some.injEq] at hc
  subst hc
  refine ⟨hid, rfl, rfl, (toString_nat_spec _).2.2, Atoi_toString _ hrand, ?_⟩
  intro hname
  exact Split_suffixed _ _ hname

/-- C18 on the item of the test, with 42 as the number drawn. -/
theorem Create_suffixes_name_witness :
    (0 : Int) < 123 ∧ (⟨123, "Bottle-42"⟩ : Item).ID = 123 ∧
    (⟨123, "Bottle-42"⟩ : Item).Name = "Bottle" ++ "-" ++ toString 42 ∧
    (∀ c ∈ (toString 42).data, gostd.digitVal c ≠ none) ∧
    gostd.Atoi (toString 42) = .ok 42 ∧
    ('-' ∉ "Bottle".data → gostd.Split "Bottle-42" '-' = ["Bottle", toString 42]) :=
  Create_suffixes_name testService Context.Background bottle (testWorld [42])
    ⟨123, "Bottle-42"⟩ _ storeMocker_returnsSaved (by decide) rfl

/-- C19: with the store of the test, for every item with a valid ID that the store does
not hold yet, `CreateIfNotExist` succeeds, and afterwards the store holds under that ID
exactly the item that was returned: it has the ID of the input and the Name of the input
followed by "-" and the number drawn, so that, for an input name without "-", removing
the suffix as the test does gives back the input item. -/
theorem CreateIfNotExist_persists_returned_item (rt : Runtime TestExt)
    (pub : publisher TestExt) (ctx : Context) (it : Item) (w : World TestExt)
    (hid : 0 < it.ID) (hnew : w.ext.data it.ID = none) :
    ∃ (created : Item) (w' : World TestExt),
      (Service.mk rt storeMocker pub).CreateIfNotExist ctx it w = ((some created, none), w') ∧
      w'.ext.data it.ID = some created ∧
      created.ID = it.ID ∧
      created.Name = it.Name ++ "-" ++ toString (rt.randInt w.ext).1 ∧
      ('-' ∉ it.Name.data → stripSuffix created = it) := by
  have hv : ¬ it.ID ≤ 0 := by omega
  refine ⟨⟨it.ID, it.Name ++ "-" ++ toString (rt.randInt w.ext).1⟩,
    ⟨{ (rt.randInt w.ext).2 with
        data := Function.update (rt.randInt w.ext).2.data it.ID
          (some ⟨it.ID, it.Name ++ "-" ++ toString (rt.randInt w.ext).1⟩) },
      w.trace ++ [Event.goPublish (some ⟨it.ID, it.Name ++ "-" ++ toString (rt.randInt w.ext).1⟩)]⟩,
    ?_, ?_, rfl, rfl, ?_⟩
  · simp only [Service.CreateIfNotExist, storeMocker, hnew, errorsIs, Error.chainHas,
      ErrNotFound, Service.Create, Item.Validate, hv, World.emit]
    rfl
  · simp
  · intro hname
    simp only [stripSuffix, Split_suffixed _ _ hname]

/-- C19 on the run of the test, with 42 as the number drawn. -/
theorem CreateIfNotExist_persists_returned_item_witness :
    ∃ (created : Item) (w' : World TestExt),
      testService.CreateIfNotExist Context.Background bottle (testWorld [42]) =
        ((some created, none), w') ∧
      w'.ext.data 123 = some created ∧
      created.ID = 123 ∧
      created.Name = "Bottle" ++ "-" ++ toString 42 ∧
      ('-' ∉ "Bottle".data → stripSuffix created = bottle) :=
  CreateIfNotExist_persists_returned_item testRuntime (pubMocker testMarshal)
    Context.Background bottle (testWorld [42]) (by decide) rfl

/-- C20: `Create` starts the publishing goroutine exactly when validation and the store
insertion both succeed, exactly once, with the item the store insertion returned, which
is also the item returned to the caller; that goroutine calls `Publish` once, with that
item.  When validation fails the world is left as it was, and when the insertion fails
the world is the one the insertion left: no goroutine is started, `Publish` is not
called. -/
theorem Create_publishes_inserted_item_once (svc : Service ω) (ctx : Context) (it : Item)
    (w : World ω) :
    (∀ err : Error, Item.Validate it = some err →
      svc.Create ctx it w = ((none, some err), w)) ∧
    (∀ (r : Option Item) (err : Error) (w2 : World ω), Item.Validate it = none →
      svc.persistentStore.InsertItem ctx
        { it with Name := it.Name ++ "-" ++ toString (svc.rt.randInt w.ext).1 }
        { w with ext := (svc.rt.randInt w.ext).2 } = ((r, some err), w2) →
      svc.Create ctx it w = ((none, some err), w2)) ∧
    (∀ (newItem : Option Item) (w2 : World ω), Item.Validate it = none →
      svc.persistentStore.InsertItem ctx
        { it with Name := it.Name ++ "-" ++ toString (svc.rt.randInt w.ext).1 }
        { w with ext := (svc.rt.randInt w.ext).2 } = ((newItem, none), w2) →
      svc.Create ctx it w =
        ((newItem, none), ⟨w2.ext, w2.trace ++ [Event.goPublish newItem]⟩)) ∧
    (∀ (newItem : Option Item) (w3 : World ω),
      (svc.publishGoroutine newItem w3).ext =
        (svc.publisher.Publish (Context.Background.WithTimeout (svc.rt.now w3.ext)
          (3 * Second)) newItem w3).2.ext) := by
  refine ⟨?_, ?_, ?_, ?_⟩
  · intro err hv
    simp only [Service.Create, hv]
  · intro r err w2 hv hins
    simp only [Service.Create, hv, hins]
  · intro newItem w2 hv hins
    simp only [Service.Create, hv, hins, World.emit]
  · intro newItem w3
    simp only [Service.publishGoroutine]
    split <;> rename_i heq <;> simp [heq, World.emit]

/-- The run of the test: the store and the caller get `Bottle-42`, one publishing
goroutine is started with it, and its body puts one message on the pipe. -/
theorem Create_test_run :
    (testService.Create Context.Background bottle (testWorld [42])).1 =
      (some ⟨123, "Bottle-42"⟩, none) ∧
    (testService.Create Context.Background bottle (testWorld [42])).2.trace =
      [Event.goPublish (some ⟨123, "Bottle-42"⟩)] ∧
    (testService.publishGoroutine (some ⟨123, "Bottle-42"⟩)
      (testService.Create Context.Background bottle (testWorld [42])).2).ext.pipe =
      ["\x7b\"id\":123,\"name\":\"Bottle-42\"\x7d"] ∧
    (testService.Create Context.Background ⟨0, "Bottle"⟩ (testWorld [42])).2.trace = [] :=
  ⟨rfl, rfl, by decide, rfl⟩

/-- C20 on the run of the test: one publishing goroutine is started, with the item the
store returned. -/
theorem Create_publishes_inserted_item_once_witness :
    (testService.Create Context.Background bottle (testWorld [42])).2.trace =
      [Event.goPublish (some ⟨123, "Bottle-42"⟩)] :=
  congrArg (fun r => r.2.trace)
    ((Create_publishes_inserted_item_once testService Context.Background bottle
      (testWorld [42])).2.2.1 (some ⟨123, "Bottle-42"⟩) _ rfl rfl)

end itemService

/-! ### The options of the Kafka client -/

section options

open kafka

theorem kgoOptsFromCfg_mem (std : StdLib) (cfg : Config) (extra opts : List Opt)
    (h : kgoOptsFromCfg std cfg extra = .ok opts) :
    (Opt.DisableAutoCommit ∈ opts ↔
      cfg.EnableAutoCommit = false ∨ Opt.DisableAutoCommit ∈ extra) := by
  simp only [kgoOptsFromCfg] at h
  cases ha : cfg.EnableAutoCommit <;> cases ht : cfg.EnableTLSDialer <;>
    simp only [ha, ht, Bool.not_false, Bool.not_true, Bool.false_eq_true, if_true,
      if_false] at h
  all_goals (first
    | (cases hd : kgoDialer std cfg with
        | error e => rw [hd] at h; simp at h
        | ok d =>
          rw [hd] at h
          simp only [Except.ok.injEq] at h
          subst h
          split_ifs <;> simp)
    | (simp only [Except.ok.injEq] at h
       subst h
       split_ifs <;> simp))

/-- C16: with the default configuration, as `initKafka` passes it on, the option list
built by `kgoOptsFromCfg` does not contain `DisableAutoCommit`, because the default of
`EnableAutoCommit` is true; whatever the configuration, a list that is built contains
`DisableAutoCommit` exactly when `EnableAutoCommit` is false or the extra options bring
it. -/
theorem default_config_keeps_auto_commit :
    kgoOptsFromCfg cmd.sampleStd (cmd.initKafkaCfg config.defaultAppFullname config.defaultKafka) [] =
      .ok [.SeedBrokers ["localhost:9092"], .ConsumeTopics ["item_create"],
        .ConnIdleTimeout 3000000000, .RetryTimeout 3000000000,
        .RequestTimeoutOverhead 3000000000, .TransactionTimeout 3000000000,
        .RecordDeliveryTimeout 3000000000, .SessionTimeout 60000000000,
        .ConsumerGroup "template-gov0.0.0", .WithLogger 1,
        .FetchMaxBytes 1048576, .BrokerMaxReadBytes 2097152] ∧
    (∀ (std : StdLib) (opts : List Opt),
      kgoOptsFromCfg std (cmd.initKafkaCfg config.defaultAppFullname config.defaultKafka) [] =
        .ok opts → Opt.DisableAutoCommit ∉ opts) ∧
    (∀ (std : StdLib) (cfg : Config) (extra opts : List Opt),
      kgoOptsFromCfg std cfg extra = .ok opts →
      (Opt.DisableAutoCommit ∈ opts ↔
        cfg.EnableAutoCommit = false ∨ Opt.DisableAutoCommit ∈ extra)) := by
  refine ⟨?_, ?_, kgoOptsFromCfg_mem⟩
  · simp [kgoOptsFromCfg, cmd.initKafkaCfg, config.defaultKafka, config.defaultAppFullname,
      cmd.sampleStd, Second, wrapInt32]
  · intro std opts h
    rw [kgoOptsFromCfg_mem std _ [] opts h]
    decide

end options

/-! ### The handler's context, validation and duplicates -/

section handlerContext

variable {ω : Type}

/-- C21: when the outer context carries a deadline, the context `HandleTopic` passes to
the handler carries a deadline that is no later.  `HandleTopic` does call the handler, on
that context and on exactly the value bytes of the record: whatever the handler does
there decides the result (a panic is passed on, an error leaves the record out and is
logged, no error appends the record), the result carries on from the world the handler
left, and nothing else of the handler matters. -/
theorem HandleTopic_bounds_handler_context (kfk : kafka.Kafka ω) (ctx : Context)
    (commitRecords : List Record) (record : Record) (w : World ω) (deadLine : Nat)
    (hd : ctx.deadline = some deadLine) :
    (∃ d : Nat, (kfk.childCtx ctx record).deadline = some d ∧ d ≤ deadLine) ∧
    (∀ (fn : kafka.kafkaHandler ω) (o : Outcome (Option Error)) (w' : World ω),
      fn (kfk.childCtx ctx record) record.value
          (w.emit (.handlerCall (kfk.childCtx ctx record) record.value)) = (o, w') →
      kfk.HandleTopic ctx commitRecords record fn w =
        match o with
        | .panic v => (.panic v, w'.emit (.telemetry record.topic))
        | .ret (some err) =>
          (.ret commitRecords, (w'.emit (.logged err)).emit (.telemetry record.topic))
        | .ret none => (.ret (commitRecords ++ [record]), w'.emit (.telemetry record.topic))) ∧
    (∀ fn fn' : kafka.kafkaHandler ω,
      fn (kfk.childCtx ctx record) record.value
          (w.emit (.handlerCall (kfk.childCtx ctx record) record.value)) =
        fn' (kfk.childCtx ctx record) record.value
          (w.emit (.handlerCall (kfk.childCtx ctx record) record.value)) →
      kfk.HandleTopic ctx commitRecords record fn w =
        kfk.HandleTopic ctx commitRecords record fn' w) := by
  refine ⟨?_, ?_, ?_⟩
  · simp only [kafka.Kafka.childCtx, hd, Context.WithDeadline]
    cases hp : (kfk.WithProcessSpan record).deadline with
    | none => exact ⟨deadLine, rfl, le_refl _⟩
    | some p => exact ⟨min p deadLine, rfl, min_le_right _ _⟩
  · intro fn o w' h
    rw [HandleTopic_eq, h]
  · intro fn fn' h
    rw [HandleTopic_eq, HandleTopic_eq, h]

/-- C21 on a record of the examples, under an outer deadline of 50: the handler is
called with the deadline 50 and the payload of the record. -/
theorem HandleTopic_bounds_handler_context_witness :
    (∃ d : Nat, (sim.kfk.childCtx ⟨some 50, none⟩ sim.rec1).deadline = some d ∧ d ≤ 50) ∧
    (∀ (fn : kafka.kafkaHandler sim.Ext) (o : Outcome (Option Error)) (w' : World sim.Ext),
      fn (sim.kfk.childCtx ⟨some 50, none⟩ sim.rec1) sim.rec1.value
          ((sim.world []).emit
            (.handlerCall (sim.kfk.childCtx ⟨some 50, none⟩ sim.rec1) sim.rec1.value)) =
        (o, w') →
      sim.kfk.HandleTopic ⟨some 50, none⟩ [] sim.rec1 fn (sim.world []) =
        match o with
        | .panic v => (.panic v, w'.emit (.telemetry sim.rec1.topic))
        | .ret (some err) =>
          (.ret [], (w'.emit (.logged err)).emit (.telemetry sim.rec1.topic))
        | .ret none => (.ret ([] ++ [sim.rec1]), w'.emit (.telemetry sim.rec1.topic))) ∧
    (∀ fn fn' : kafka.kafkaHandler sim.Ext,
      fn (sim.kfk.childCtx ⟨some 50, none⟩ sim.rec1) sim.rec1.value
          ((sim.world []).emit
            (.handlerCall (sim.kfk.childCtx ⟨some 50, none⟩ sim.rec1) sim.rec1.value)) =
        fn' (sim.kfk.childCtx ⟨some 50, none⟩ sim.rec1) sim.rec1.value
          ((sim.world []).emit
            (.handlerCall (sim.kfk.childCtx ⟨some 50, none⟩ sim.rec1) sim.rec1.value)) →
      sim.kfk.HandleTopic ⟨some 50, none⟩ [] sim.rec1 fn (sim.world []) =
        sim.kfk.HandleTopic ⟨some 50, none⟩ [] sim.rec1 fn' (sim.world [])) :=
  HandleTopic_bounds_handler_context sim.kfk ⟨some 50, none⟩ [] sim.rec1 (sim.world []) 50 rfl

end handlerContext

section validation

open item

variable {ω : Type}

/-- C26, refuted as stated: `Validate` rejects the ID 0, with an error that is
`ErrInvalidID`. -/
theorem Validate_accepts_zero_counterexample :
    Item.Validate ⟨0, "Bottle"⟩ ≠ none ∧
    errorsIs (Item.Validate ⟨0, "Bottle"⟩) ErrInvalidID = true := by
  constructor <;> decide

/-- C26, amended: an item is valid exactly when its ID is greater than 0; for every ID
that is 0 or negative `Validate` returns an error that is `ErrInvalidID`. -/
theorem Validate_nil_iff_positive (it : Item) :
    (Item.Validate it = none ↔ 0 < it.ID) ∧
    (it.ID ≤ 0 → errorsIs (Item.Validate it) ErrInvalidID = true) := by
  by_cases h : it.ID ≤ 0
  · have hn : ¬ 0 < it.ID := by omega
    simp [Item.Validate, h, hn, errorsIs, Error.chainHas, ErrInvalidID]
  · have hp : 0 < it.ID := by omega
    simp [Item.Validate, h, hp]

/-- The error `CreateIfNotExist` returns for an ID the store already holds. -/
theorem duplicate_is_ErrDuplicateItem (id : Int) :
    errorsIs (some (.wrap ErrDuplicateItem (": " ++ toString id))) ErrDuplicateItem = true := by
  simp [errorsIs, Error.chainHas, ErrDuplicateItem]

theorem CreateIfNotExist_found (svc : Service ω) (ctx : Context) (it : Item) (w : World ω)
    (found : Option Item) (w1 : World ω)
    (h : svc.persistentStore.Item ctx it.ID w = ((found, none), w1)) :
    svc.CreateIfNotExist ctx it w =
      ((none, some (.wrap ErrDuplicateItem (": " ++ toString it.ID))), w1) := by
  simp only [Service.CreateIfNotExist, h]

theorem CreateIfNotExist_lookup_error (svc : Service ω) (ctx : Context) (it : Item)
    (w : World ω) (found : Option Item) (err : Error) (w1 : World ω)
    (h : svc.persistentStore.Item ctx it.ID w = ((found, some err), w1)) :
    svc.CreateIfNotExist ctx it w =
      if errorsIs (some err) ErrNotFound = true then svc.Create ctx it w1
      else ((none, some err), w1) := by
  simp only [Service.CreateIfNotExist, h]
  cases errorsIs (some err) ErrNotFound <;> simp

theorem storeMocker_retrievable : retrievable storeMocker := by
  intro ctx it w r w1 h ctx2 tr
  simp only [storeMocker, Prod.mk.injEq] at h
  obtain ⟨_, h2⟩ := h
  subst h2
  simp [storeMocker]

/-- C27: when the lookup of the ID reports no error, `CreateIfNotExist` returns an error
that is `ErrDuplicateItem` and leaves the world as the lookup left it (nothing is
inserted, nothing is published); when the lookup fails with an error that is not
`ErrNotFound`, it returns that error, again in the world the lookup left; when the lookup
reports `ErrNotFound`, it is `Create` in the world the lookup left.  With a store in
which an inserted item becomes retrievable, a `CreateIfNotExist` that follows a
successful one with the same item returns an error that is `ErrDuplicateItem`. -/
theorem CreateIfNotExist_follows_lookup (svc : Service ω) (ctx : Context) (it : Item)
    (w : World ω) :
    (∀ (found : Option Item) (w1 : World ω),
      svc.persistentStore.Item ctx it.ID w = ((found, none), w1) →
      svc.CreateIfNotExist ctx it w =
        ((none, some (.wrap ErrDuplicateItem (": " ++ toString it.ID))), w1) ∧
      errorsIs (some (.wrap ErrDuplicateItem (": " ++ toString it.ID))) ErrDuplicateItem =
        true) ∧
    (∀ (found : Option Item) (err : Error) (w1 : World ω),
      svc.persistentStore.Item ctx it.ID w = ((found, some err), w1) →
      errorsIs (some err) ErrNotFound = false →
      svc.CreateIfNotExist ctx it w = ((none, some err), w1)) ∧
    (∀ (found : Option Item) (err : Error) (w1 : World ω),
      svc.persistentStore.Item ctx it.ID w = ((found, some err), w1) →
      errorsIs (some err) ErrNotFound = true →
      svc.CreateIfNotExist ctx it w = svc.Create ctx it w1) ∧
    (retrievable svc.persistentStore →
      ∀ (created : Option Item) (w1 : World ω),
        svc.CreateIfNotExist ctx it w = ((created, none), w1) →
        ∀ ctx2 : Context, ∃ w2 : World ω,
          svc.CreateIfNotExist ctx2 it w1 =
            ((none, some (.wrap ErrDuplicateItem (": " ++ toString it.ID))), w2)) := by
  refine ⟨fun found w1 h => ⟨CreateIfNotExist_found svc ctx it w found w1 h,
      duplicate_is_ErrDuplicateItem _⟩, fun found err w1 h hn => ?_,
    fun found err w1 h hy => ?_, fun hret created w1 hok ctx2 => ?_⟩
  · rw [CreateIfNotExist_lookup_error svc ctx it w found err w1 h, hn]
    simp
  · rw [CreateIfNotExist_lookup_error svc ctx it w found err w1 h, hy]
    simp
  · generalize hl : svc.persistentStore.Item ctx it.ID w = res at hok
    have hl' := hl
    obtain ⟨⟨found, e⟩, w0⟩ := res
    cases e with
    | none =>
      rw [CreateIfNotExist_found svc ctx it w found w0 hl'] at hok
      simp at hok
    | some err =>
      rw [CreateIfNotExist_lookup_error svc ctx it w found err w0 hl'] at hok
      by_cases hy : errorsIs (some err) ErrNotFound = true
      · rw [if_pos hy] at hok
        obtain ⟨_, w2, hins, hw⟩ := Create_ok svc ctx it w0 created w1 hok
        have hr := hret _ _ _ _ _ hins ctx2 (w2.trace ++ [Event.goPublish created])
        have hw1 : w1 = ⟨w2.ext, w2.trace ++ [Event.goPublish created]⟩ := by
          rw [hw]; rfl
        rw [hw1]
        generalize hl2 : svc.persistentStore.Item ctx2 it.ID
          ⟨w2.ext, w2.trace ++ [Event.goPublish created]⟩ = res2 at hr
        obtain ⟨⟨f2, e2⟩, w3⟩ := res2
        simp only at hr
        subst hr
        exact ⟨w3, CreateIfNotExist_found svc ctx2 it _ f2 w3 hl2⟩
      · rw [if_neg hy] at hok
        simp at hok

/-- C27 on the store of the test: the second `CreateIfNotExist` of the same item is
refused as a duplicate. -/
theorem CreateIfNotExist_follows_lookup_witness :
    ∃ w2 : World TestExt,
      testService.CreateIfNotExist Context.Background bottle
          (testService.CreateIfNotExist Context.Background bottle (testWorld [42])).2 =
        ((none, some (.wrap ErrDuplicateItem (": " ++ toString (123 : Int)))), w2) :=
  (CreateIfNotExist_follows_lookup testService Context.Background bottle
    (testWorld [42])).2.2.2 storeMocker_retrievable (some ⟨123, "Bottle-42"⟩) _ rfl
    Context.Background

end validation

section duplicates

open item

variable {ω : Type}

/-- C22: for an item whose ID the store already holds, `API.ItemCreateIfNotExists`, the
HTTP handler `CreateItem` (on a body that decodes to that item) and the gRPC handler
`CreateItem` (on a request with that ID and name) all return to their caller one and
the same error, which is `ErrDuplicateItem`; the queue handler `ItemCreate`, on a
payload that decodes to that item, returns nil. -/
theorem duplicate_swallowed_only_by_queue_handler (svc : Service ω) (ctx : Context)
    (it : Item) (w : World ω) (found : Option Item) (w1 : World ω)
    (hfound : svc.persistentStore.Item ctx it.ID w = ((found, none), w1)) :
    errorsIs (some (.wrap ErrDuplicateItem (": " ++ toString it.ID))) ErrDuplicateItem =
      true ∧
    (api.NewService svc).ItemCreateIfNotExists ctx it w =
      (.ret (none, some (.wrap ErrDuplicateItem (": " ++ toString it.ID))), w1) ∧
    (∀ (ht : xhttp.HTTP ω) (rw : xhttp.ResponseWriter ω) (body : Payload),
      ht.apis = api.NewService svc → ht.decode body = .ok it →
      ht.CreateItem rw ⟨body, ctx⟩ w =
        (.ret (some (.wrap ErrDuplicateItem (": " ++ toString it.ID))), w1)) ∧
    (grpc.GRPC.CreateItem ⟨api.NewService svc⟩ ctx (some ⟨it.ID, it.Name⟩) w =
      (.ret (none, some (.wrap ErrDuplicateItem (": " ++ toString it.ID))), w1)) ∧
    (∀ (kfk : kafkaSubs.Kafka ω) (payload : Payload),
      kfk.apiSvc = api.NewService svc → kfk.client.rt.unmarshal payload = .ok it →
      (kfk.ItemCreate ctx payload w).1 = .ret none) := by
  have hc := CreateIfNotExist_found svc ctx it w found w1 hfound
  have hd := duplicate_is_ErrDuplicateItem it.ID
  have hapi : (api.NewService svc).ItemCreateIfNotExists ctx it w =
      (.ret (none, some (.wrap ErrDuplicateItem (": " ++ toString it.ID))), w1) := by
    simp only [api.API.ItemCreateIfNotExists, api.NewService, hc]
  refine ⟨hd, hapi, ?_, ?_, ?_⟩
  · intro ht rw body hapis hdec
    simp only [xhttp.HTTP.CreateItem, hdec, hapis, hapi]
  · simp only [grpc.GRPC.CreateItem]
    have : (⟨it.ID, it.Name⟩ : Item) = it := rfl
    rw [this, hapi]
  · intro kfk payload hapis hdec
    simp only [kafkaSubs.Kafka.ItemCreate, hdec, hapis, hapi, hd, if_true]

/-- C22 on the examples: item 7 is in the database; the three direct paths return the
duplicate error, the queue handler returns nil. -/
theorem duplicate_swallowed_only_by_queue_handler_witness :
    errorsIs (some (.wrap ErrDuplicateItem (": " ++ toString (7 : Int)))) ErrDuplicateItem =
      true ∧
    (api.NewService sim.service).ItemCreateIfNotExists Context.Background ⟨7, "pen"⟩
        sim.worldWith7 =
      (.ret (none, some (.wrap ErrDuplicateItem (": " ++ toString (7 : Int)))),
        sim.worldWith7) ∧
    (∀ (ht : xhttp.HTTP sim.Ext) (rw : xhttp.ResponseWriter sim.Ext) (body : Payload),
      ht.apis = api.NewService sim.service → ht.decode body = .ok ⟨7, "pen"⟩ →
      ht.CreateItem rw ⟨body, Context.Background⟩ sim.worldWith7 =
        (.ret (some (.wrap ErrDuplicateItem (": " ++ toString (7 : Int)))),
          sim.worldWith7)) ∧
    (grpc.GRPC.CreateItem ⟨api.NewService sim.service⟩ Context.Background
        (some ⟨7, "pen"⟩) sim.worldWith7 =
      (.ret (none, some (.wrap ErrDuplicateItem (": " ++ toString (7 : Int)))),
        sim.worldWith7)) ∧
    (∀ (kfk : kafkaSubs.Kafka sim.Ext) (payload : Payload),
      kfk.apiSvc = api.NewService sim.service →
      kfk.client.rt.unmarshal payload = .ok ⟨7, "pen"⟩ →
      (kfk.ItemCreate Context.Background payload sim.worldWith7).1 = .ret none) :=
  duplicate_swallowed_only_by_queue_handler sim.service Context.Background ⟨7, "pen"⟩
    sim.worldWith7 (some ⟨7, "pen-99"⟩) sim.worldWith7 rfl

end duplicates

section stamps

open kafkaSubs

variable {ω : Type}

theorem pollCycle_stamps (kfk : Kafka ω) (fn : kafka.kafkaHandler ω) (ctx : Context)
    (s : Stamps) (w : World ω) :
    (kfk.pollCycle fn ctx s w).stamps =
      if (kfk.client.PollFetches ctx w).1.errors.length > 0 then s
      else s.touch (kfk.client.rt.now (kfk.client.PollFetches ctx w).2.ext) := by
  simp only [Kafka.pollCycle]
  split
  · rfl
  · split
    · rfl
    · split <;> rfl

theorem touch_first (s : Stamps) (now t : Nat) (h : s.receivedFirstMessageAt = some t) :
    (s.touch now).receivedFirstMessageAt = some t := by
  simp [Stamps.touch, h]

theorem pollCycle_keeps_first (kfk : Kafka ω) (fn : kafka.kafkaHandler ω) (ctx : Context)
    (s : Stamps) (w : World ω) (t : Nat) (h : s.receivedFirstMessageAt = some t) :
    (kfk.pollCycle fn ctx s w).stamps.receivedFirstMessageAt = some t := by
  rw [pollCycle_stamps]
  split
  · exact h
  · exact touch_first s _ t h

theorem pollCycle_keeps_paired (kfk : Kafka ω) (fn : kafka.kafkaHandler ω) (ctx : Context)
    (s : Stamps) (w : World ω)
    (h : s.receivedFirstMessageAt = none ↔ s.receivedLastMessageAt = none) :
    ((kfk.pollCycle fn ctx s w).stamps.receivedFirstMessageAt = none ↔
      (kfk.pollCycle fn ctx s w).stamps.receivedLastMessageAt = none) := by
  rw [pollCycle_stamps]
  split
  · exact h
  · simp only [Stamps.touch]
    split <;> simp_all

theorem loop_stamps (kfk : Kafka ω) (fn : kafka.kafkaHandler ω) (ctx : Context) (n : Nat) :
    ∀ (s : Stamps) (w : World ω),
      (∀ t : Nat, s.receivedFirstMessageAt = some t →
        (kfk.loop fn ctx n s w).stamps.receivedFirstMessageAt = some t) ∧
      ((s.receivedFirstMessageAt = none ↔ s.receivedLastMessageAt = none) →
        ((kfk.loop fn ctx n s w).stamps.receivedFirstMessageAt = none ↔
          (kfk.loop fn ctx n s w).stamps.receivedLastMessageAt = none)) := by
  induction n with
  | zero => intro s w; exact ⟨fun t h => h, fun h => h⟩
  | succ n ih =>
    intro s w
    have h1 := pollCycle_keeps_first kfk fn ctx s w
    have h2 := pollCycle_keeps_paired kfk fn ctx s w
    simp only [Kafka.loop]
    generalize kfk.pollCycle fn ctx s w = r at h1 h2
    cases r with
    | returned err s' w' => exact ⟨h1, h2⟩
    | panicked v s' w' => exact ⟨h1, h2⟩
    | looping s' w' =>
      exact ⟨fun t h => (ih s' w').1 t (h1 t h), fun h => (ih s' w').2 (h2 h)⟩

/-- C23: both timestamps are nil when the subscriber is built.  A poll that reports
errors leaves both as they were; after a poll without errors the last timestamp is the
time read after that poll, and the first timestamp is that time if it was nil and is
unchanged otherwise.  Over any number of cycles of `Subscribe`, a first timestamp that
is set keeps its value, and the two timestamps are nil together.  The two getters return
the stored values, nil when unset. -/
theorem Subscribe_records_poll_times (kfk : Kafka ω) (ctx : Context) (s : Stamps)
    (w : World ω) :
    (NewService.receivedFirstMessageAt = none ∧ NewService.receivedLastMessageAt = none) ∧
    ((kfk.client.PollFetches ctx w).1.errors.length > 0 →
      (kfk.pollCycle kfk.ItemCreate ctx s w).stamps = s) ∧
    (¬ (kfk.client.PollFetches ctx w).1.errors.length > 0 →
      (kfk.pollCycle kfk.ItemCreate ctx s w).stamps.receivedLastMessageAt =
        some (kfk.client.rt.now (kfk.client.PollFetches ctx w).2.ext) ∧
      (kfk.pollCycle kfk.ItemCreate ctx s w).stamps.receivedFirstMessageAt =
        some (s.receivedFirstMessageAt.getD
          (kfk.client.rt.now (kfk.client.PollFetches ctx w).2.ext))) ∧
    (∀ (cycles t : Nat), s.receivedFirstMessageAt = some t →
      (kfk.Subscribe ctx cycles s w).stamps.receivedFirstMessageAt = some t) ∧
    (∀ cycles : Nat,
      ((kfk.Subscribe ctx cycles NewService w).stamps.receivedFirstMessageAt = none ↔
        (kfk.Subscribe ctx cycles NewService w).stamps.receivedLastMessageAt = none)) ∧
    (s.ReceivedFirstMessageAt = s.receivedFirstMessageAt ∧
      s.ReceivedLastMessageAt = s.receivedLastMessageAt) := by
  refine ⟨⟨rfl, rfl⟩, fun h => ?_, fun h => ?_, fun cycles t h => ?_, fun cycles => ?_, ?_, ?_⟩
  · rw [pollCycle_stamps, if_pos h]
  · rw [pollCycle_stamps, if_neg h]
    refine ⟨rfl, ?_⟩
    simp only [Stamps.touch]
    cases s.receivedFirstMessageAt <;> simp
  · exact (loop_stamps kfk kfk.ItemCreate ctx cycles s w).1 t h
  · exact (loop_stamps kfk kfk.ItemCreate ctx cycles NewService w).2 (by simp [NewService])
  · simp only [Stamps.ReceivedFirstMessageAt]
    cases s.receivedFirstMessageAt <;> rfl
  · simp only [Stamps.ReceivedLastMessageAt]
    cases s.receivedLastMessageAt <;> rfl

/-- The timestamps over two polls of the examples, then a poll that reports an error:
the first poll sets both, the second moves only the last, the failed one moves none. -/
theorem Subscribe_stamps_run :
    (sim.sub.Subscribe Context.Background 1 NewService
        (sim.world [⟨[], [sim.rec1]⟩, ⟨[], [sim.rec3]⟩])).stamps = ⟨some 101, some 101⟩ ∧
    (sim.sub.Subscribe Context.Background 2 NewService
        (sim.world [⟨[], [sim.rec1]⟩, ⟨[], [sim.rec3]⟩])).stamps = ⟨some 101, some 102⟩ ∧
    (sim.sub.Subscribe Context.Background 3 NewService
        (sim.world [⟨[], [sim.rec1]⟩, ⟨[], [sim.rec3]⟩])).stamps = ⟨some 101, some 102⟩ := by
  refine ⟨by decide, by decide, by decide⟩

end stamps

/-! ### Panics, the broker read limit and the HTTP middleware -/

section panics

open cmd

/-- C28, the code at the failing input: a panic is recovered while `errExit` holds the
clean-quit sentinel, and the exit code is 0, for a recovered error as for any other
recovered value. -/
theorem panic_after_quit_exits_zero :
    (recoverer (.sentinel "quit") (.error (.errorf "index out of range"))
      (some (.sentinel "quit"))).exitCode = 0 ∧
    (recoverer (.sentinel "quit") (.other "boom") (some (.sentinel "quit"))).exitCode = 0 :=
  ⟨rfl, rfl⟩

/-- The exit code after a recovered panic: 1 for a recovered error and 2 for any other
recovered value, unless `errExit` is the clean-quit sentinel, which resets it to 0. -/
theorem recoverer_panic_exit_code (ErrSigQuit : Error) (errExit : Option Error) :
    (∀ err : Error, (recoverer ErrSigQuit (.error err) errExit).exitCode =
      if errorsIs errExit ErrSigQuit = true then 0 else 1) ∧
    (∀ v : String, (recoverer ErrSigQuit (.other v) errExit).exitCode =
      if errorsIs errExit ErrSigQuit = true then 0 else 2) := by
  constructor <;> intro x <;>
    by_cases h : errorsIs errExit ErrSigQuit = true <;> simp [recoverer, h]

end panics

section readBytes

open kafka

theorem kgoOptsFromCfg_fetch_mem (std : StdLib) (cfg : Config) (extra opts : List Opt)
    (h : kgoOptsFromCfg std cfg extra = .ok opts) (b : Int) :
    (Opt.FetchMaxBytes b ∈ opts ↔
      (cfg.FetchMaxBytes > 0 ∧ b = cfg.FetchMaxBytes) ∨ Opt.FetchMaxBytes b ∈ extra) ∧
    (Opt.BrokerMaxReadBytes b ∈ opts ↔
      (cfg.FetchMaxBytes > 0 ∧ b = wrapInt32 (2 * cfg.FetchMaxBytes)) ∨
        Opt.BrokerMaxReadBytes b ∈ extra) := by
  simp only [kgoOptsFromCfg] at h
  cases ht : cfg.EnableTLSDialer
  · simp only [ht, Bool.false_eq_true, if_false, Except.ok.injEq] at h
    subst h
    split_ifs <;> simp_all
  · simp only [ht, if_true] at h
    cases hd : kgoDialer std cfg with
    | error e => rw [hd] at h; simp at h
    | ok d =>
      rw [hd] at h
      simp only [Except.ok.injEq] at h
      subst h
      split_ifs <;> simp_all

theorem wrapInt32_double (f : Int) :
    (0 < f → f < 2 ^ 30 → wrapInt32 (2 * f) = 2 * f) ∧
    (2 ^ 30 ≤ f → f < 2 ^ 31 → wrapInt32 (2 * f) = 2 * f - 2 ^ 32) := by
  unfold wrapInt32
  constructor <;> intro h1 h2 <;> omega

/-- C29: with `FetchMaxBytes` set to 2^30, a value an `int32` holds, the option list
carries a broker read limit of -2^31: the product with 2 wraps around.  In general the
limit is twice `FetchMaxBytes` when that is positive and below 2^30, it is twice
`FetchMaxBytes` less 2^32, a negative number, from 2^30 on, and for `FetchMaxBytes` at
most 0 neither option is added. -/
theorem broker_read_limit_wraps_around :
    (∀ (std : StdLib) (opts : List Opt),
      kgoOptsFromCfg std { config.defaultKafka with FetchMaxBytes := 1073741824 } [] =
        .ok opts →
      Opt.FetchMaxBytes 1073741824 ∈ opts ∧ Opt.BrokerMaxReadBytes (-2147483648) ∈ opts ∧
      ∀ b : Int, Opt.BrokerMaxReadBytes b ∈ opts → b = -2147483648) ∧
    (∀ (std : StdLib) (cfg : Config) (opts : List Opt),
      kgoOptsFromCfg std cfg [] = .ok opts →
      (0 < cfg.FetchMaxBytes → cfg.FetchMaxBytes < 2 ^ 30 →
        Opt.BrokerMaxReadBytes (2 * cfg.FetchMaxBytes) ∈ opts) ∧
      (2 ^ 30 ≤ cfg.FetchMaxBytes → cfg.FetchMaxBytes < 2 ^ 31 →
        Opt.BrokerMaxReadBytes (2 * cfg.FetchMaxBytes - 2 ^ 32) ∈ opts ∧
        2 * cfg.FetchMaxBytes - 2 ^ 32 < 0) ∧
      (cfg.FetchMaxBytes ≤ 0 →
        ∀ b : Int, Opt.FetchMaxBytes b ∉ opts ∧ Opt.BrokerMaxReadBytes b ∉ opts)) := by
  constructor
  · intro std opts h
    have hm := kgoOptsFromCfg_fetch_mem std _ [] opts h
    have hw : wrapInt32 (2 * 1073741824) = -2147483648 := by decide
    refine ⟨?_, ?_, ?_⟩
    · rw [(hm _).1]
      left
      exact ⟨by decide, rfl⟩
    · rw [(hm _).2]
      left
      exact ⟨by decide, hw.symm⟩
    · intro b hb
      rw [(hm b).2] at hb
      rcases hb with ⟨_, hb⟩ | hb
      · rw [hb]; exact hw
      · simp at hb
  · intro std cfg opts h
    have hm := kgoOptsFromCfg_fetch_mem std cfg [] opts h
    refine ⟨fun h1 h2 => ?_, fun h1 h2 => ⟨?_, by omega⟩, fun h1 b => ⟨?_, ?_⟩⟩
    · rw [(hm _).2]
      left
      exact ⟨h1, ((wrapInt32_double _).1 h1 h2).symm⟩
    · rw [(hm _).2]
      left
      exact ⟨by omega, ((wrapInt32_double _).2 h1 h2).symm⟩
    · rw [(hm b).1]
      simp only [List.not_mem_nil, or_false, not_and]
      intro hp
      omega
    · rw [(hm b).2]
      simp only [List.not_mem_nil, or_false, not_and]
      intro hp
      omega

end readBytes

section middleware

open apm

/-- C30: called with a nil `hopts`, `NewHTTPMiddleware` panics on reading
`hopts.OperationName`; called with a `hopts` that is not nil it returns a middleware
whose options are the OTEL options of `hopts`, in order, followed by the meter provider
and the tracer provider options, and whose operation name is `hopts.OperationName`, or
"otelhttp" when that is empty. -/
theorem NewHTTPMiddleware_panics_on_nil :
    NewHTTPMiddleware none =
      .panic "runtime error: invalid memory address or nil pointer dereference" ∧
    (∀ h : HTTPOpts, NewHTTPMiddleware (some h) =
      .ret ⟨if h.OperationName = "" then "otelhttp" else h.OperationName,
        h.OTEL ++ [.WithMeterProvider, .WithTracerProvider]⟩) := by
  refine ⟨rfl, fun h => ?_⟩
  simp only [NewHTTPMiddleware]
  cases hl : h.OTEL with
  | nil => simp
  | cons a l => simp

end middleware

/-! ### The dependency probes -/

namespace cmd

theorem reportsUnhealthy_snoc (checks : List (Probe × Option Error)) (c : Probe × Option Error)
    (id : String) :
    reportsUnhealthy (checks ++ [c]) id =
      if c.1.ID = id then c.2.isSome else reportsUnhealthy checks id := by
  simp [reportsUnhealthy, List.foldl_append]

/-- What the prober's state has to do with the checks made so far. -/
structure ProberInv (p : ProbeResponder) (checks : List (Probe × Option Error))
    (st : DepProber) : Prop where
  tracked : ∀ id : String, id ∈ st.unhealthy ↔ reportsUnhealthy checks id = true
  registered : ∀ id ∈ st.unhealthy, id = "mongodb" ∨ id = "kafka"
  ready : checks ≠ [] → (st.probe.notReady = true ↔ st.unhealthy ≠ [])
  started : st.probe.notStarted = p.notStarted
  live : st.probe.notLive = p.notLive

theorem healthStatus_any (l : List String) (hl : ∀ id ∈ l, id = "mongodb" ∨ id = "kafka") :
    (healthStatus.any (fun q => decide (q.ID ∈ l) &&
      decide (Statuskey.StatusReady ∈ q.AffectedStatuses))) = decide (l ≠ []) := by
  cases l with
  | nil => simp [healthStatus]
  | cons a l =>
    have := hl a (List.mem_cons_self _ _)
    rcases this with h | h <;>
      simp [healthStatus, dependencyIDMongo, dependencyIDKafka, h]

theorem proberInv_check (p : ProbeResponder) (checks : List (Probe × Option Error))
    (st : DepProber) (h : ProberInv p checks st) (c : Probe × Option Error)
    (hc : c.1 ∈ healthStatus) :
    ProberInv p (checks ++ [c]) (st.check healthStatus c.1 c.2) := by
  obtain ⟨q, err⟩ := c
  have hq : (q.ID = "mongodb" ∨ q.ID = "kafka") ∧ q.AffectedStatuses = [.StatusReady] := by
    simp only [healthStatus, dependencyIDMongo, dependencyIDKafka, List.mem_cons,
      List.mem_singleton, List.not_mem_nil, or_false] at hc
    rcases hc with hc | hc <;> subst hc <;> simp
  obtain ⟨hid, haff⟩ := hq
  have hfilter : ∀ id ∈ st.unhealthy.filter (fun id => decide (id ≠ q.ID)),
      id = "mongodb" ∨ id = "kafka" := fun id hm =>
    h.registered id (List.mem_filter.mp hm).1
  cases err with
  | some e =>
    refine ⟨fun id => ?_, fun id hm => ?_, fun _ => ?_, ?_, ?_⟩
    · rw [reportsUnhealthy_snoc]
      simp only [DepProber.check, List.mem_cons, List.mem_filter, decide_eq_true_eq,
        Option.isSome_some]
      by_cases hi : q.ID = id
      · simp [hi]
      · have hi' : ¬ id = q.ID := fun e => hi e.symm
        simp [hi, hi', h.tracked id]
    · simp only [DepProber.check, List.mem_cons] at hm
      rcases hm with hm | hm
      · rw [hm]; exact hid
      · exact hfilter id hm
    · simp [DepProber.check, haff, ProbeResponder.setFlag]
    · simp [DepProber.check, haff, ProbeResponder.setFlag, h.started]
    · simp [DepProber.check, haff, ProbeResponder.setFlag, h.live]
  | none =>
    have hany := healthStatus_any _ hfilter
    refine ⟨fun id => ?_, fun id hm => hfilter id hm, fun _ => ?_, ?_, ?_⟩
    · rw [reportsUnhealthy_snoc]
      simp only [DepProber.check, List.mem_filter, decide_eq_true_eq, Option.isSome_none]
      by_cases hi : q.ID = id
      · simp [hi]
      · have hi' : ¬ id = q.ID := fun e => hi e.symm
        simp [hi, hi', h.tracked id]
    · simp only [DepProber.check, haff, List.foldl_cons, List.foldl_nil, hany]
      by_cases hne : st.unhealthy.filter (fun id => decide (id ≠ q.ID)) ≠ []
      · have hne' : st.unhealthy ≠ [] := by
          intro hnil
          rw [hnil] at hne
          exact hne rfl
        by_cases hck : checks = []
        · subst hck
          have := h.tracked
          cases hu : st.unhealthy with
          | nil => exact absurd hu hne'
          | cons a l =>
            have h1 := (this a).mp (by rw [hu]; exact List.mem_cons_self _ _)
            simp [reportsUnhealthy] at h1
        · simp only [hne, decide_True, if_true, ne_eq, not_false_eq_true, iff_true]
          exact (h.ready hck).mpr hne'
      · simp only [hne, decide_False, Bool.false_eq_true, if_false, ProbeResponder.setFlag]
    · simp only [DepProber.check, haff, List.foldl_cons, List.foldl_nil]
      split <;> simp [ProbeResponder.setFlag, h.started]
    · simp only [DepProber.check, haff, List.foldl_cons, List.foldl_nil]
      split <;> simp [ProbeResponder.setFlag, h.live]

theorem proberInv_foldl (p : ProbeResponder) (more : List (Probe × Option Error)) :
    ∀ (checks : List (Probe × Option Error)) (st : DepProber), ProberInv p checks st →
      (∀ c ∈ more, c.1 ∈ healthStatus) →
      ProberInv p (checks ++ more)
        (more.foldl (fun st c => st.check healthStatus c.1 c.2) st) := by
  induction more with
  | nil => intro checks st h _; simpa using h
  | cons c rest ih =>
    intro checks st h hreg
    have h1 := proberInv_check p checks st h c (hreg c (List.mem_cons_self _ _))
    have h2 := ih (checks ++ [c]) _ h1 (fun d hd => hreg d (List.mem_cons_of_mem _ hd))
    simpa using h2

theorem proberInv_run (p : ProbeResponder) (checks : List (Probe × Option Error))
    (hreg : ∀ c ∈ checks, c.1 ∈ healthStatus) :
    ProberInv p checks (DepProber.run healthStatus p checks) := by
  have h0 : ProberInv p [] ⟨[], p⟩ :=
    ⟨fun id => by simp [reportsUnhealthy], fun id hm => by simp at hm,
      fun h => absurd rfl h, rfl, rfl⟩
  have := proberInv_foldl p checks [] _ h0 hreg
  simpa [DepProber.run] using this

/-- C24: with the two probes `healthStatus` registers, after any checks of them (at
least one), in any order and with any results, the ready axis is unhealthy exactly when
the latest check of the MongoDB probe or the latest check of the Kafka probe failed; the
other two flags are left as they were.  So a success of one probe does not clear the
flag while the other reports unhealthy, and the flag is cleared by the success after
which none does. -/
theorem ready_is_conjunction_of_probes (p : ProbeResponder)
    (checks : List (Probe × Option Error))
    (hreg : ∀ c ∈ checks, c.1 ∈ healthStatus) (hne : checks ≠ []) :
    ((DepProber.run healthStatus p checks).probe.notReady = true ↔
      reportsUnhealthy checks dependencyIDMongo = true ∨
        reportsUnhealthy checks dependencyIDKafka = true) ∧
    (DepProber.run healthStatus p checks).probe.notStarted = p.notStarted ∧
    (DepProber.run healthStatus p checks).probe.notLive = p.notLive := by
  have h := proberInv_run p checks hreg
  refine ⟨?_, h.started, h.live⟩
  rw [h.ready hne]
  constructor
  · intro hu
    cases hl : (DepProber.run healthStatus p checks).unhealthy with
    | nil => exact absurd hl hu
    | cons a l =>
      have hm : a ∈ (DepProber.run healthStatus p checks).unhealthy := by
        rw [hl]; exact List.mem_cons_self _ _
      have ht := (h.tracked a).mp hm
      rcases h.registered a hm with ha | ha
      · left
        rw [ha] at ht
        exact ht
      · right
        rw [ha] at ht
        exact ht
  · intro hr hnil
    rcases hr with hr | hr
    · have := (h.tracked _).mpr hr
      rw [hnil] at this
      simp at this
    · have := (h.tracked _).mpr hr
      rw [hnil] at this
      simp at this

/-- C24 on the scenario of the spec: the MongoDB probe fails and the Kafka probe
succeeds, so the ready axis is unhealthy. -/
theorem ready_is_conjunction_of_probes_witness :
    ((DepProber.run healthStatus ⟨false, false, false, []⟩
        [(⟨"mongodb", [.StatusReady]⟩, some (.sentinel "no reachable servers")),
          (⟨"kafka", [.StatusReady]⟩, none)]).probe.notReady = true ↔
      reportsUnhealthy
          [(⟨"mongodb", [.StatusReady]⟩, some (.sentinel "no reachable servers")),
            (⟨"kafka", [.StatusReady]⟩, none)] dependencyIDMongo = true ∨
        reportsUnhealthy
          [(⟨"mongodb", [.StatusReady]⟩, some (.sentinel "no reachable servers")),
            (⟨"kafka", [.StatusReady]⟩, none)] dependencyIDKafka = true) ∧
    (DepProber.run healthStatus ⟨false, false, false, []⟩
        [(⟨"mongodb", [.StatusReady]⟩, some (.sentinel "no reachable servers")),
          (⟨"kafka", [.StatusReady]⟩, none)]).probe.notStarted = false ∧
    (DepProber.run healthStatus ⟨false, false, false, []⟩
        [(⟨"mongodb", [.StatusReady]⟩, some (.sentinel "no reachable servers")),
          (⟨"kafka", [.StatusReady]⟩, none)]).probe.notLive = false :=
  ready_is_conjunction_of_probes ⟨false, false, false, []⟩
    [(⟨"mongodb", [.StatusReady]⟩, some (.sentinel "no reachable servers")),
      (⟨"kafka", [.StatusReady]⟩, none)] (by decide) (by decide)

/-- The scenario of the spec, step by step: MongoDB fails, Kafka succeeds (the axis
stays unhealthy), Kafka succeeds again (still unhealthy), MongoDB recovers (healthy). -/
theorem ready_scenario :
    (DepProber.run healthStatus ⟨false, false, false, []⟩
      [(⟨"mongodb", [.StatusReady]⟩, some (.sentinel "no reachable servers"))]).probe.notReady
        = true ∧
    (DepProber.run healthStatus ⟨false, false, false, []⟩
      [(⟨"mongodb", [.StatusReady]⟩, some (.sentinel "no reachable servers")),
        (⟨"kafka", [.StatusReady]⟩, none)]).probe.notReady = true ∧
    (DepProber.run healthStatus ⟨false, false, false, []⟩
      [(⟨"mongodb", [.StatusReady]⟩, some (.sentinel "no reachable servers")),
        (⟨"kafka", [.StatusReady]⟩, none), (⟨"kafka", [.StatusReady]⟩, none)]).probe.notReady
        = true ∧
    (DepProber.run healthStatus ⟨false, false, false, []⟩
      [(⟨"mongodb", [.StatusReady]⟩, some (.sentinel "no reachable servers")),
        (⟨"kafka", [.StatusReady]⟩, none), (⟨"kafka", [.StatusReady]⟩, none),
        (⟨"mongodb", [.StatusReady]⟩, none)]).probe.notReady = false := by
  refine ⟨by decide, by decide, by decide, by decide⟩

end cmd

/-! ### The drain delay -/

namespace cmd

theorem inv3_init : Inv3 Proc.init :=
  ⟨fun h => by simp [Proc.init] at h, Before.nil _ _, Before.nil _ _⟩

theorem step_main_slept (env : Env) (st : Proc) (h3 : Inv3 st)
    (hex : st.exited = false) (hk : st.pcMain < 24) :
    5 < (step env st .main).pcMain →
      (Tid.main, Op.sleep (3 * Second)) ∈ (step env st .main).trace := by
  have h1 := h3.slept
  obtain ⟨pcMain, pc, spawned, wg, exited, probe, trace⟩ := st
  simp only at hex hk h1
  subst hex
  interval_cases pcMain <;>
    simp [step, Proc.next, mainCode_eq, Proc.effect, Proc.advance, emitted] <;>
    (try split) <;>
    first
    | (intro _
       have hh := h1 (by decide)
       first
       | exact hh
       | exact Or.inl hh)
    | (have hh := h1 (by decide)
       first
       | exact hh
       | exact Or.inl hh)
    | (simp
       exact h1 (by decide))

theorem step_main_sleepAfterFlags (env : Env) (st : Proc) (h : Inv env st) (h3 : Inv3 st)
    (hex : st.exited = false) (hk : st.pcMain < 24) :
    Before (fun e => decide (e = (Tid.main, Op.sleep (3 * Second)))) flagsSet
      (step env st .main).trace := by
  have h1 := h3.sleepAfterFlags
  have h2 := h.flagsSet
  obtain ⟨pcMain, pc, spawned, wg, exited, probe, trace⟩ := st
  simp only at hex hk h1 h2
  subst hex
  interval_cases pcMain <;>
    simp [step, Proc.next, mainCode_eq, Proc.effect, Proc.advance, emitted] <;>
    (try split) <;>
    first
    | exact h1
    | (refine h1.skip ?_
       simp
       done)
    | (have hh := h2 (by decide)
       exact h1.snoc (fun _ => hh))

theorem step_main_shutdownAfterSleep (env : Env) (st : Proc) (h3 : Inv3 st)
    (hex : st.exited = false) (hk : st.pcMain < 24) :
    Before shutdownStep (fun pre => (Tid.main, Op.sleep (3 * Second)) ∈ pre)
      (step env st .main).trace := by
  have h1 := h3.shutdownAfterSleep
  have h2 := h3.slept
  obtain ⟨pcMain, pc, spawned, wg, exited, probe, trace⟩ := st
  simp only at hex hk h1 h2
  subst hex
  interval_cases pcMain <;>
    simp [step, Proc.next, mainCode_eq, Proc.effect, Proc.advance, emitted] <;>
    (try split) <;>
    first
    | exact h1
    | exact h1.skip rfl
    | (have hh := h2 (by decide)
       exact h1.snoc (fun _ => hh))

theorem Inv3.drain_main_step {env : Env} {st : Proc} (h : Inv env st) (h3 : Inv3 st) :
    Inv3 (step env st .main) := by
  by_cases hrun : st.exited = false ∧ st.pcMain < 24
  · obtain ⟨hex, hk⟩ := hrun
    exact ⟨step_main_slept env st h3 hex hk, step_main_sleepAfterFlags env st h h3 hex hk,
      step_main_shutdownAfterSleep env st h3 hex hk⟩
  · rw [step_main_stuck env st hrun]
    exact h3

theorem goPos_ge (t : Task) : 5 < goPos t := by
  cases t <;> decide

theorem Inv3.drain_task_step {env : Env} {st : Proc} (h : Inv env st) (h3 : Inv3 st)
    (t : Task) : Inv3 (step env st (.task t)) := by
  by_cases hrun : st.exited = true ∨ st.spawned t = false ∨
      (taskCode env t)[st.pc t]? = none
  · rw [step_task_stuck env st t hrun]
    exact h3
  · simp only [not_or] at hrun
    obtain ⟨hex, hs, hop⟩ := hrun
    have hex : st.exited = false := by simpa using hex
    have hs : st.spawned t = true := by simpa using hs
    obtain ⟨op, hop⟩ := Option.ne_none_iff_exists'.mp hop
    rw [step_task_eq env st t op hex hs hop]
    have hpc : 5 < st.pcMain := by
      have := (h.spawned_iff t).mp hs
      have := goPos_ge t
      omega
    have hslept := h3.slept hpc
    refine ⟨fun h5 => List.mem_append_left _ (h3.slept h5), ?_, ?_⟩
    · refine before_emitted_log h3.sleepAfterFlags (fun hp => ?_) (fun err => by simp)
      simp at hp
    · exact Before.emitted h3.shutdownAfterSleep (fun _ _ => hslept)
        (fun hq => List.mem_append_left _ hq)

theorem inv3_step {env : Env} {st : Proc} (h : Inv env st) (h3 : Inv3 st) (tid : Tid) :
    Inv3 (step env st tid) := by
  cases tid with
  | main => exact Inv3.drain_main_step h h3
  | task t => exact Inv3.drain_task_step h h3 t

theorem inv3_foldl {env : Env} (sched : List Tid) :
    ∀ st : Proc, Inv env st → Inv3 st → Inv3 (sched.foldl (step env) st) := by
  induction sched with
  | nil => intro st _ h3; exact h3
  | cons tid rest ih => intro st h h3; exact ih _ (inv_step h tid) (inv3_step h h3 tid)

theorem inv3_run (env : Env) (sched : List Tid) : Inv3 (run env sched) :=
  inv3_foldl sched _ (inv_init env) inv3_init

/-- C25: under every schedule of the goroutines, `main` sleeps after the three
readiness flags were set to unhealthy (and hold), and every step of the shutdown proper,
the start of a task by `main` or any step of a task's goroutine, comes after that sleep
has returned.  The sleep lasts `k8sProbeInterval`, 3 seconds, which is more than the
probe interval of 2 seconds that the code assumes. -/
theorem shutdown_waits_for_drain_delay (env : Env) (sched : List Tid)
    (pre : List (Tid × Op)) (e : Tid × Op) (post : List (Tid × Op))
    (hsplit : (run env sched).trace = pre ++ e :: post) :
    (e = (Tid.main, Op.sleep k8sProbeInterval) → flagsSet pre) ∧
    (shutdownStep e = true → (Tid.main, Op.sleep k8sProbeInterval) ∈ pre) ∧
    (∀ d : Nat, Op.sleep d ∈ mainCode env → d = k8sProbeInterval) ∧
    assumedProbeInterval < k8sProbeInterval ∧ k8sProbeInterval = 3 * Second := by
  have hk : k8sProbeInterval = 3 * Second := by decide
  refine ⟨fun he => ?_, fun he => ?_, fun d hd => ?_, by decide, hk⟩
  · rw [hk] at he
    exact (inv3_run env sched).sleepAfterFlags pre e post hsplit (by simp [he])
  · rw [hk]
    exact (inv3_run env sched).shutdownAfterSleep pre e post hsplit he
  · rw [hk]
    simp [mainCode_eq] at hd
    exact hd

set_option maxRecDepth 100000 in
/-- C25 at a schedule in which `main` has just started the HTTP task: the flags are set
and the sleep is in the past. -/
theorem shutdown_waits_for_drain_delay_witness :
    (Tid.main, Op.sleep k8sProbeInterval) ∈ (run sampleEnv (List.replicate 9 .main)).trace :=
  (shutdown_waits_for_drain_delay sampleEnv (List.replicate 10 .main)
    (run sampleEnv (List.replicate 9 .main)).trace (.main, .go .http) [] (by decide)).2.1 rfl

end cmd

end TemplateGo
